import Mathlib

/-!
# Record layer and length-hiding planner of GnuTLS

A shallow embedding of `src/lib/gnutls.c` (record transmitter and receiver)
and of `src/lib/gnutls_range.c` (length-hiding planner), followed by the
theorems that settle the claims of the specification.

Conventions of the embedding.

* Stateful C code is written in explicit state-passing style over a `World`:
  the connection state `GNUTLS_STATE`, the state `X` of everything outside
  the two files (transport, cipher internals) and a chronological log of the
  calls made to those collaborators.
* The collaborators whose code is not part of the sources (`_gnutls_encrypt`,
  `_gnutls_decrypt`, `_gnutls_Read`, `_gnutls_Write`,
  `_gnutls_version_is_supported`, `_gnutls_send_tlen_int`) are the fields of
  an environment record; theorems quantify over every environment.
* Machine integers are `Nat`/`Int`; conversions between C integer types are
  explicit (`wrap32`, `wrap64`, `usize`) for the LP64 data model
  (`int` 32 bits, `ssize_t` and `size_t` 64 bits).
-/

namespace GnuTLS

/-! ## Machine integers -/

/-- Value of a C `int` (32-bit two's complement) after storing the integer `x`. -/
def wrap32 (x : Int) : Int := (x + 2 ^ 31) % 2 ^ 32 - 2 ^ 31

/-- Value of a C `ssize_t` (64-bit two's complement) after storing the integer `x`. -/
def wrap64 (x : Int) : Int := (x + 2 ^ 63) % 2 ^ 64 - 2 ^ 63

/-- Value of a C `size_t` (64-bit unsigned) after storing the integer `x`. -/
def usize (x : Int) : Nat := (x % 2 ^ 64).toNat

/-! ## Constants declared in headers that are not among the sources -/

/-- Modelled from the spec: the `ContentType` enum is declared in `gnutls_int.h`,
which is not among the sources; the values are those of the record header. -/
def GNUTLS_CHANGE_CIPHER_SPEC : Nat := 20

/-- Modelled from the spec: content type `alert` (see `GNUTLS_CHANGE_CIPHER_SPEC`). -/
def GNUTLS_ALERT : Nat := 21

/-- Modelled from the spec: content type `handshake` (see `GNUTLS_CHANGE_CIPHER_SPEC`). -/
def GNUTLS_HANDSHAKE : Nat := 22

/-- Modelled from the spec: content type `application-data` (see `GNUTLS_CHANGE_CIPHER_SPEC`). -/
def GNUTLS_APPLICATION_DATA : Nat := 23

/-- Modelled from the spec: alert level `warning` of the alert record body
(`AlertLevel` is declared in `gnutls_int.h`, not among the sources). -/
def GNUTLS_WARNING : Nat := 1

/-- Modelled from the spec: alert level `fatal` of the alert record body. -/
def GNUTLS_FATAL : Nat := 2

/-- Modelled from the spec: alert description `close_notify`
(`AlertDescription` is declared in `gnutls_int.h`, not among the sources). -/
def GNUTLS_CLOSE_NOTIFY : Nat := 0

/-- Modelled from the spec: alert description `bad_record_mac`. -/
def GNUTLS_BAD_RECORD_MAC : Nat := 20

/-- Modelled from the spec: alert description `decryption_failed`. -/
def GNUTLS_DECRYPTION_FAILED : Nat := 21

/-- Modelled from the spec: alert description `record_overflow`. -/
def GNUTLS_RECORD_OVERFLOW : Nat := 22

/-- Modelled from the spec: alert description `decompression_failure`. -/
def GNUTLS_DECOMPRESSION_FAILURE : Nat := 30

/-- Modelled from the spec: alert description `protocol_version`. -/
def GNUTLS_PROTOCOL_VERSION : Nat := 70

/-- The named error codes (`GNUTLS_E_*`, negative integers declared in
`gnutls_errors.h`, which is not among the sources).  They are kept symbolic:
two different names are two different codes. -/
inductive ErrorCode where
  | GNUTLS_E_INVALID_SESSION
  | GNUTLS_E_UNABLE_SEND_DATA
  | GNUTLS_E_UNEXPECTED_PACKET_LENGTH
  | GNUTLS_E_UNSUPPORTED_VERSION_PACKET
  | GNUTLS_E_MAC_FAILED
  | GNUTLS_E_DECRYPTION_FAILED
  | GNUTLS_E_DECOMPRESSION_FAILED
  | GNUTLS_E_CLOSURE_ALERT_RECEIVED
  | GNUTLS_E_FATAL_ALERT_RECEIVED
  | GNUTLS_E_WARNING_ALERT_RECEIVED
  | GNUTLS_E_UNEXPECTED_PACKET
  | GNUTLS_E_UNKNOWN_ERROR
  | GNUTLS_E_RECEIVED_BAD_MESSAGE
  | GNUTLS_E_INVALID_REQUEST
  | GNUTLS_E_INTERNAL_ERROR
  | other (n : Nat)
  deriving DecidableEq

/-- A C return value of type `int`/`ssize_t`: either a plain integer (a byte
count, or the raw return value of a collaborator) or a named error code. -/
inductive Ret where
  | val (n : Int)
  | err (e : ErrorCode)
  deriving DecidableEq

/-! ## Connection state -/

/-- The struct `GNUTLS_Version` (`local`, `major`, `minor`). -/
structure GNUTLS_Version where
  loc : Nat
  major : Nat
  minor : Nat
  deriving DecidableEq

/-- The fields of `GNUTLS_STATE_INT` that `gnutls_send_int` and
`gnutls_recv_int` read or write.  `buffer` and `buffer_handshake` are the
reassembly buffers of application data and handshake data. -/
structure GNUTLS_STATE where
  version : GNUTLS_Version
  valid_connection : Bool
  resumable : Bool
  write_sequence_number : Nat
  read_sequence_number : Nat
  buffer : List Nat
  buffer_handshake : List Nat
  peek_data_size : Int
  last_alert : Nat
  deriving DecidableEq

/-- One call to a collaborator, with the arguments that matter.
`encrypt type data off len` is `_gnutls_encrypt(state, &data[off], len, &cipher, type)`;
`write len` is `_gnutls_Write(cd, buf, len)`;
`read len peek` is `_gnutls_Read(cd, buf, len, peek ? MSG_PEEK : 0)`;
`decrypt len recv_type` is `_gnutls_decrypt(state, ciphertext, len, &tmpdata, recv_type)`. -/
inductive Event where
  | encrypt (type : Nat) (data : List Nat) (off len : Nat)
  | write (len : Int)
  | read (len : Int) (peek : Bool)
  | decrypt (len : Nat) (recv_type : Nat)
  deriving DecidableEq

/-- The connection, the outside world and the chronological log of calls. -/
structure World (X : Type) where
  state : GNUTLS_STATE
  ext : X
  log : List Event

/-- The collaborators of `gnutls.c`, as functions of the outside state `X`.
`encrypt x state type p size` is `_gnutls_encrypt(state, p, size, &cipher, type)`
for a pointer `p` to the bytes listed, and returns `cipher_size`;
`Write x len` returns the number of bytes written;
`Read x len peek` returns the number of bytes read and the bytes;
`decrypt x state ciphertext len recv_type` returns a negative error code or the plaintext
(`tmplen` is its length);
`version_is_supported state version` is `_gnutls_version_is_supported`. -/
structure Env (X : Type) where
  encrypt : X → GNUTLS_STATE → Nat → List Nat → Nat → Ret × X
  Write : X → Int → Int × X
  Read : X → Int → Bool → (Int × List Nat) × X
  decrypt : X → GNUTLS_STATE → List Nat → Nat → Nat → Except ErrorCode (List Nat) × X
  version_is_supported : GNUTLS_STATE → GNUTLS_Version → Int

variable {X : Type}

/-- `state->gnutls_internals.valid_connection = VALID_FALSE`. -/
def World.invalidate (w : World X) : World X :=
  { w with state := { w.state with valid_connection := false } }

/-- `state->gnutls_internals.resumable = RESUME_FALSE`. -/
def World.no_resume (w : World X) : World X :=
  { w with state := { w.state with resumable := false } }

/-- A call `_gnutls_Write(cd, buf, len)`: logged, answered by the environment. -/
def do_Write (env : Env X) (w : World X) (len : Int) : Int × World X :=
  let r := env.Write w.ext len
  (r.1, { w with ext := r.2, log := w.log ++ [Event.write len] })

/-- A call `_gnutls_Read(cd, buf, len, flags)`: logged, answered by the environment. -/
def do_Read (env : Env X) (w : World X) (len : Int) (peek : Bool) :
    (Int × List Nat) × World X :=
  let r := env.Read w.ext len peek
  (r.1, { w with ext := r.2, log := w.log ++ [Event.read len peek] })

/-! ## `gnutls_send_int` (gnutls.c, lines 356-445) -/

/-- `#define MAX_ENC_LEN 16384`. -/
def MAX_ENC_LEN : Nat := 16384

/-- The body shared by the loop (lines 392-412) and by the "rest data" block
(lines 417-437) of `gnutls_send_int`: encrypt `Size` bytes at `&data[off]`,
write the 5 header bytes, write the ciphertext, increment the write sequence
number.  `some r` is an early `return r`; `none` means the block ran through. -/
def send_record (env : Env X) (type : Nat) (data : List Nat) (off Size : Nat)
    (w : World X) : Option Ret × World X :=
  let e := env.encrypt w.ext w.state type (data.drop off) Size
  let w1 : World X :=
    { w with ext := e.2, log := w.log ++ [Event.encrypt type data off Size] }
  match e.1 with
  | Ret.err c => (some (Ret.err c), w1)
  | Ret.val cipher_size =>
    if cipher_size ≤ 0 then (some (Ret.val cipher_size), w1)
    else
      let h := do_Write env w1 5
      if h.1 ≠ 5 then
        (some (Ret.err ErrorCode.GNUTLS_E_UNABLE_SEND_DATA), h.2.invalidate.no_resume)
      else
        let c := do_Write env h.2 cipher_size
        if c.1 ≠ cipher_size then
          (some (Ret.err ErrorCode.GNUTLS_E_UNABLE_SEND_DATA), c.2.invalidate.no_resume)
        else
          (none, { c.2 with state :=
            { c.2.state with write_sequence_number :=
                (c.2.state.write_sequence_number + 1) % 2 ^ 64 } })

/-- The loop `for (i = 0; i < iterations; i++)` of lines 391-413, with `n`
iterations left to run from counter value `i`.  Returns the early return value
(if any), the world and the value of `i` when the loop is left. -/
def send_loop (env : Env X) (type : Nat) (data : List Nat) (Size : Nat) :
    Nat → Nat → World X → Option Ret × World X × Nat
  | 0, i, w => (none, w, i)
  | n + 1, i, w =>
    match send_record env type data (i * Size) Size w with
    | (some r, w1) => (some r, w1, i)
    | (none, w1) => send_loop env type data Size n (i + 1) w1

/-- The function `gnutls_send_int(cd, state, type, _data, sizeofdata)`.
The `int` counters `iterations`, `Size`, `i` are natural numbers here, which is
exact for `sizeofdata < 2^31` (beyond that `i*Size` overflows `int`). -/
def gnutls_send_int (env : Env X) (w : World X) (type : Nat) (data : List Nat)
    (sizeofdata : Nat) : Ret × World X :=
  if sizeofdata = 0 then (Ret.val 0, w)
  else if w.state.valid_connection = false then
    (Ret.err ErrorCode.GNUTLS_E_INVALID_SESSION, w)
  else
    let iterations := if sizeofdata < MAX_ENC_LEN then 1 else sizeofdata / MAX_ENC_LEN
    let Size := if sizeofdata < MAX_ENC_LEN then sizeofdata else MAX_ENC_LEN
    match send_loop env type data Size iterations 0 w with
    | (some r, w1, _) => (r, w1)
    | (none, w1, i) =>
      if iterations > 1 then
        let Size2 := sizeofdata % MAX_ENC_LEN
        match send_record env type data (i * Size2) Size2 w1 with
        | (some r, w2) => (r, w2)
        | (none, w2) => (Ret.val sizeofdata, w2)
      else (Ret.val sizeofdata, w1)

/-- The function `_gnutls_send_alert(cd, state, level, desc)` (lines 320-329). -/
def _gnutls_send_alert (env : Env X) (w : World X) (level desc : Nat) : Ret × World X :=
  gnutls_send_int env w GNUTLS_ALERT [level, desc] 2

/-- The function `gnutls_close_nowait(cd, state)` (lines 345-354). -/
def gnutls_close_nowait (env : Env X) (w : World X) : Ret × World X :=
  let r := _gnutls_send_alert env w GNUTLS_WARNING GNUTLS_CLOSE_NOTIFY
  (r.1, r.2.invalidate)

/-! ## Reassembly buffers (gnutls_buffers.c is not among the sources) -/

/-- Modelled from the spec: `gnutls_getDataBufferSize(type, state)`, the number
of already-decrypted bytes of content type `type` not yet consumed by the
caller (only application data and handshake data have a reassembly buffer). -/
def gnutls_getDataBufferSize (type : Nat) (s : GNUTLS_STATE) : Nat :=
  if type = GNUTLS_APPLICATION_DATA then s.buffer.length
  else if type = GNUTLS_HANDSHAKE then s.buffer_handshake.length
  else 0

/-- Modelled from the spec: `gnutls_getDataFromBuffer(type, state, data, sizeofdata)`
serves the first `min(sizeofdata, size)` bytes of the reassembly buffer of
`type` to the caller and removes them from the buffer; its C return value is
the number of bytes served. -/
def gnutls_getDataFromBuffer (type : Nat) (s : GNUTLS_STATE) (sizeofdata : Nat) :
    List Nat × GNUTLS_STATE :=
  if type = GNUTLS_APPLICATION_DATA then
    (s.buffer.take sizeofdata, { s with buffer := s.buffer.drop sizeofdata })
  else if type = GNUTLS_HANDSHAKE then
    (s.buffer_handshake.take sizeofdata,
      { s with buffer_handshake := s.buffer_handshake.drop sizeofdata })
  else ([], s)

/-- Modelled from the spec: `gnutls_insertDataBuffer(type, state, data, length)`
appends the decrypted bytes to the reassembly buffer of `type`. -/
def gnutls_insertDataBuffer (type : Nat) (s : GNUTLS_STATE) (data : List Nat) :
    GNUTLS_STATE :=
  if type = GNUTLS_APPLICATION_DATA then { s with buffer := s.buffer ++ data }
  else if type = GNUTLS_HANDSHAKE then
    { s with buffer_handshake := s.buffer_handshake ++ data }
  else s

/-! ## `gnutls_recv_int` (gnutls.c, lines 495-732) -/

/-- `#define MAX_RECV_SIZE 18432`. -/
def MAX_RECV_SIZE : Nat := 18432

/-- The function `_gnutls_clear_peeked_data(cd, state)` (lines 495-507): one
destructive read of `peek_data_size` bytes, then `peek_data_size = 0`. -/
def _gnutls_clear_peeked_data (env : Env X) (w : World X) : World X :=
  let sizeofdata := w.state.peek_data_size
  let r := do_Read env w sizeofdata false
  { r.2 with state := { r.2.state with peek_data_size := 0 } }

/-- What `gnutls_recv_int` hands back: the C return value, the bytes stored in
the caller's buffer `data`, and the world after the call. -/
structure RecvResult (X : Type) where
  ret : Ret
  data : List Nat
  w : World X

/-- Byte `i` of a buffer filled by a read or by the record codec. -/
def byteAt (l : List Nat) (i : Nat) : Nat := l.getD i 0 % 256

/-- Lines 706-731 of `gnutls_recv_int`: increment the read sequence number,
then serve the caller from the reassembly buffer. -/
def recv_deliver (env : Env X) (w : World X) (type sizeofdata recv_type : Nat) :
    RecvResult X :=
  let w1 : World X := { w with state :=
    { w.state with read_sequence_number := (w.state.read_sequence_number + 1) % 2 ^ 64 } }
  if (type = GNUTLS_APPLICATION_DATA ∨ type = GNUTLS_HANDSHAKE) ∧ recv_type = type then
    let g := gnutls_getDataFromBuffer type w1.state sizeofdata
    let w2 : World X := { w1 with state := g.2 }
    let w3 :=
      if type = GNUTLS_APPLICATION_DATA then
        if gnutls_getDataBufferSize type w2.state = 0 then _gnutls_clear_peeked_data env w2
        else w2
      else w2
    ⟨Ret.val g.1.length, g.1, w3⟩
  else if recv_type ≠ type then
    ⟨Ret.err ErrorCode.GNUTLS_E_RECEIVED_BAD_MESSAGE, [], w1⟩
  else
    ⟨Ret.err ErrorCode.GNUTLS_E_RECEIVED_BAD_MESSAGE, [], w1⟩

/-- Lines 661-704 of `gnutls_recv_int`: content-type dispatch of a decrypted
record with plaintext `tmpdata`, falling through to `recv_deliver` when no
branch returns. -/
def recv_dispatch (env : Env X) (w : World X) (type sizeofdata recv_type : Nat)
    (tmpdata : List Nat) : RecvResult X :=
  if recv_type = type ∧ (type = GNUTLS_APPLICATION_DATA ∨ type = GNUTLS_HANDSHAKE) then
    recv_deliver env { w with state := gnutls_insertDataBuffer type w.state tmpdata }
      type sizeofdata recv_type
  else if recv_type = GNUTLS_ALERT then
    let w1 : World X := { w with state := { w.state with last_alert := byteAt tmpdata 1 } }
    if byteAt tmpdata 1 = GNUTLS_CLOSE_NOTIFY ∧ byteAt tmpdata 0 ≠ GNUTLS_FATAL then
      let w2 := if type ≠ GNUTLS_ALERT then (gnutls_close_nowait env w1).2 else w1
      ⟨Ret.err ErrorCode.GNUTLS_E_CLOSURE_ALERT_RECEIVED, [], w2⟩
    else if byteAt tmpdata 0 = GNUTLS_FATAL then
      ⟨Ret.err ErrorCode.GNUTLS_E_FATAL_ALERT_RECEIVED, [], w1.invalidate.no_resume⟩
    else
      ⟨Ret.err ErrorCode.GNUTLS_E_WARNING_ALERT_RECEIVED, [], w1⟩
  else if recv_type = GNUTLS_CHANGE_CIPHER_SPEC then
    ⟨Ret.err ErrorCode.GNUTLS_E_UNEXPECTED_PACKET, [], w⟩
  else
    ⟨Ret.err ErrorCode.GNUTLS_E_UNKNOWN_ERROR, [], w⟩

/-- Lines 607-659 of `gnutls_recv_int`: read the record body (non-destructively
when application data is expected), handle an expected change-cipher-spec,
decrypt, and dispatch. -/
def recv_body (env : Env X) (w : World X) (type sizeofdata recv_type length : Nat) :
    RecvResult X :=
  let b := do_Read env w length (decide (type = GNUTLS_APPLICATION_DATA))
  let w1 : World X :=
    if type = GNUTLS_APPLICATION_DATA then
      { b.2 with state := { b.2.state with peek_data_size := b.1.1 } }
    else b.2
  if b.1.1 ≠ length then
    ⟨Ret.err ErrorCode.GNUTLS_E_UNEXPECTED_PACKET_LENGTH, [], w1.invalidate.no_resume⟩
  else if type = GNUTLS_CHANGE_CIPHER_SPEC ∧ recv_type = GNUTLS_CHANGE_CIPHER_SPEC then
    if length ≠ 1 then ⟨Ret.err ErrorCode.GNUTLS_E_UNEXPECTED_PACKET_LENGTH, [], w1⟩
    else ⟨Ret.val 0, [], w1⟩
  else
    let d := env.decrypt w1.ext w1.state b.1.2 length recv_type
    let w2 : World X :=
      { w1 with ext := d.2, log := w1.log ++ [Event.decrypt length recv_type] }
    match d.1 with
    | Except.error c =>
      let w3 :=
        if c = ErrorCode.GNUTLS_E_MAC_FAILED then
          (_gnutls_send_alert env w2 GNUTLS_FATAL GNUTLS_BAD_RECORD_MAC).2
        else if c = ErrorCode.GNUTLS_E_DECRYPTION_FAILED then
          (_gnutls_send_alert env w2 GNUTLS_FATAL GNUTLS_DECRYPTION_FAILED).2
        else if c = ErrorCode.GNUTLS_E_DECOMPRESSION_FAILED then
          (_gnutls_send_alert env w2 GNUTLS_FATAL GNUTLS_DECOMPRESSION_FAILURE).2
        else w2
      ⟨Ret.err c, [], w3.invalidate.no_resume⟩
    | Except.ok tmpdata => recv_dispatch env w2 type sizeofdata recv_type tmpdata

/-- The function `gnutls_recv_int(cd, state, type, data, sizeofdata)`
(lines 515-732); the record body and what follows it are `recv_body`. -/
def gnutls_recv_int (env : Env X) (w : World X) (type sizeofdata : Nat) : RecvResult X :=
  if (type = GNUTLS_APPLICATION_DATA ∨ type = GNUTLS_HANDSHAKE) ∧
      gnutls_getDataBufferSize type w.state > 0 then
    let g := gnutls_getDataFromBuffer type w.state sizeofdata
    let w1 : World X := { w with state := g.2 }
    let w2 :=
      if type = GNUTLS_APPLICATION_DATA then
        if gnutls_getDataBufferSize type w1.state = 0 then _gnutls_clear_peeked_data env w1
        else w1
      else w1
    ⟨Ret.val g.1.length, g.1, w2⟩
  else if w.state.valid_connection = false then
    ⟨Ret.err ErrorCode.GNUTLS_E_INVALID_SESSION, [], w⟩
  else
    let t := do_Read env w 1 false
    if t.1.1 ≠ 1 then
      if type = GNUTLS_ALERT then ⟨Ret.val 0, [], t.2.invalidate⟩
      else ⟨Ret.err ErrorCode.GNUTLS_E_UNEXPECTED_PACKET_LENGTH, [], t.2.invalidate.no_resume⟩
    else
      let recv_type := byteAt t.1.2 0
      let ma := do_Read env t.2 1 false
      if ma.1.1 ≠ 1 then
        ⟨Ret.err ErrorCode.GNUTLS_E_UNEXPECTED_PACKET_LENGTH, [], ma.2.invalidate.no_resume⟩
      else
        let mi := do_Read env ma.2 1 false
        if mi.1.1 ≠ 1 then
          ⟨Ret.err ErrorCode.GNUTLS_E_UNEXPECTED_PACKET_LENGTH, [], mi.2.invalidate.no_resume⟩
        else
          let version : GNUTLS_Version := ⟨0, byteAt ma.1.2 0, byteAt mi.1.2 0⟩
          if env.version_is_supported mi.2.state version = 0 then
            let a := _gnutls_send_alert env mi.2 GNUTLS_FATAL GNUTLS_PROTOCOL_VERSION
            ⟨Ret.err ErrorCode.GNUTLS_E_UNSUPPORTED_VERSION_PACKET, [], a.2.no_resume⟩
          else
            let w3 : World X := { mi.2 with state := { mi.2.state with version := version } }
            let l := do_Read env w3 2 false
            if l.1.1 ≠ 2 then
              ⟨Ret.err ErrorCode.GNUTLS_E_UNEXPECTED_PACKET_LENGTH, [],
                l.2.invalidate.no_resume⟩
            else
              let length := byteAt l.1.2 0 * 256 + byteAt l.1.2 1
              if length > MAX_RECV_SIZE then
                let a := _gnutls_send_alert env l.2 GNUTLS_FATAL GNUTLS_RECORD_OVERFLOW
                ⟨Ret.err ErrorCode.GNUTLS_E_UNEXPECTED_PACKET_LENGTH, [],
                  a.2.invalidate.no_resume⟩
              else recv_body env l.2 type sizeofdata recv_type length

/-! ## Reading a log -/

/-- The plaintext chunks `(off, len)` handed to `_gnutls_encrypt`, in call order. -/
def chunks : List Event → List (Nat × Nat)
  | [] => []
  | Event.encrypt _ _ off len :: l => (off, len) :: chunks l
  | _ :: l => chunks l

/-- The bytes of the chunk `(off, len)` of the buffer `data`. -/
def chunkBytes (data : List Nat) (c : Nat × Nat) : List Nat := (data.drop c.1).take c.2

/-- The transport reads `(len, peek)` of a log, in call order. -/
def reads : List Event → List (Int × Bool)
  | [] => []
  | Event.read len peek :: l => (len, peek) :: reads l
  | _ :: l => reads l

/-- The calls of `_gnutls_encrypt` of a log, in call order: content type, the
caller's buffer, offset and length of the chunk. -/
def encrypts : List Event → List (Nat × List Nat × Nat × Nat)
  | [] => []
  | Event.encrypt type data off len :: l => (type, data, off, len) :: encrypts l
  | _ :: l => encrypts l

/-! ## A concrete environment -/

/-- A well-behaved environment over a transport that holds the bytes still to
be received: every encryption succeeds with 20 bytes of overhead, every write
is complete, a read returns the first `len` pending bytes (fewer at end of
stream) and consumes them unless it peeks, decryption is the identity, and the
supported versions are 3.x. -/
def demoEnv : Env (List Nat) where
  encrypt := fun x _ _ _ size => (Ret.val (size + 20), x)
  Write := fun x len => (len, x)
  Read := fun x len peek =>
    ((min len x.length, x.take len.toNat), if peek then x else x.drop len.toNat)
  decrypt := fun x _ c _ _ => (Except.ok c, x)
  version_is_supported := fun _ v => if v.major = 3 then 1 else 0

/-- A freshly initialised, valid connection (see `gnutls_init`). -/
def state0 : GNUTLS_STATE :=
  { version := ⟨0, 3, 1⟩, valid_connection := true, resumable := true,
    write_sequence_number := 0, read_sequence_number := 0,
    buffer := [], buffer_handshake := [], peek_data_size := 0, last_alert := 0 }

/-- The world of a fresh connection whose transport holds the bytes `rx`. -/
def world0 (rx : List Nat) : World (List Nat) := ⟨state0, rx, []⟩

/-! ## Length-hiding planner (gnutls_range.c) -/

/-- The struct `gnutls_range_st`: two `size_t` fields. -/
structure gnutls_range_st where
  low : Nat
  high : Nat
  deriving DecidableEq

/-- The result of `_gnutls_cipher_is_block`. -/
inductive cipher_type_t where
  | CIPHER_STREAM
  | CIPHER_BLOCK
  | CIPHER_OTHER
  deriving DecidableEq

/-- What `gnutls_range.c` reads from a session, through macros and helpers
that are not among the sources:
`epoch_get` is the return value of `_gnutls_epoch_get(session, EPOCH_WRITE_CURRENT, ..)`,
`new_record_padding` is `session->security_parameters.new_record_padding`,
`version_is_ssl3` is `session->security_parameters.version == GNUTLS_SSL3`,
`max_user_send_size` is `MAX_USER_SEND_SIZE (session)` (the maximum fragment),
`max_pad_size` is the constant `MAX_PAD_SIZE` (the legacy pad ceiling),
`block_size` is `gnutls_cipher_get_block_size (..)`,
`tag_size` is `_gnutls_auth_cipher_tag_len (..)`,
`cipher_is_block` is `_gnutls_cipher_is_block (..)`.
The integer fields are the values of the `ssize_t` variables that receive them. -/
structure gnutls_session_t where
  epoch_get : Int
  new_record_padding : Nat
  version_is_ssl3 : Bool
  max_user_send_size : Int
  max_pad_size : Int
  block_size : Int
  tag_size : Int
  cipher_is_block : cipher_type_t

/-- The function `_gnutls_set_range (dst, low, high)`; the parameters are
`const size_t`, so the arguments are converted to `size_t`. -/
def _gnutls_set_range (low high : Int) : gnutls_range_st := ⟨usize low, usize high⟩

/-- The function `_gnutls_range_max_lh_pad (session, data_length, max_frag)`
(lines 42-94).  The arithmetic is `ssize_t` arithmetic; `%` is C's remainder, which
truncates towards zero. -/
def _gnutls_range_max_lh_pad (session : gnutls_session_t) (data_length max_frag : Int) :
    Ret :=
  if session.epoch_get < 0 then Ret.err ErrorCode.GNUTLS_E_INVALID_REQUEST
  else
    let max_pad : Int :=
      if session.new_record_padding ≠ 0 then session.max_user_send_size
      else session.max_pad_size
    let fixed_pad : Int := if session.new_record_padding ≠ 0 then 2 else 1
    let this_pad := min max_pad (max_frag - data_length)
    let block_size := session.block_size
    let tag_size := session.tag_size
    match session.cipher_is_block with
    | cipher_type_t.CIPHER_STREAM => Ret.val this_pad
    | cipher_type_t.CIPHER_BLOCK =>
      let overflow := Int.tmod (data_length + this_pad + tag_size + fixed_pad) block_size
      if overflow > this_pad then Ret.val this_pad
      else Ret.val (this_pad - overflow)
    | cipher_type_t.CIPHER_OTHER => Ret.err ErrorCode.GNUTLS_E_INTERNAL_ERROR

/-- The value of the variable `max_pad` of `_gnutls_range_max_lh_pad` (lines 57-66). -/
def lh_max_pad (session : gnutls_session_t) : Int :=
  if session.new_record_padding ≠ 0 then session.max_user_send_size
  else session.max_pad_size

/-- The value of the variable `fixed_pad` of `_gnutls_range_max_lh_pad` (lines 57-66). -/
def lh_fixed_pad (session : gnutls_session_t) : Int :=
  if session.new_record_padding ≠ 0 then 2 else 1

/-- The value of the variable `this_pad` of `_gnutls_range_max_lh_pad` (line 68). -/
def lh_this_pad (session : gnutls_session_t) (data_length max_frag : Int) : Int :=
  min (lh_max_pad session) (max_frag - data_length)

/-- The operand of `%` in line 82 of `_gnutls_range_max_lh_pad`. -/
def lh_padded_length (session : gnutls_session_t) (data_length max_frag : Int) : Int :=
  data_length + lh_this_pad session data_length max_frag + session.tag_size +
    lh_fixed_pad session

/-- The padding obtainable in one record as the specification words it: the
tentative pad `t = min(max_pad, max_frag - data_length)`, returned unchanged for
a stream cipher; for a block cipher of block size `B` the remainder
`r = (data_length + t + tag_size + fixed_pad) mod B` is taken off unless it
exceeds `t`. -/
def max_lh_pad_reference (block : Bool) (B max_pad fixed_pad tag_size : Int)
    (data_length max_frag : Int) : Int :=
  let t := min max_pad (max_frag - data_length)
  if block then
    let r := (data_length + t + tag_size + fixed_pad) % B
    if r > t then t else t - r
  else t

/-- The function `gnutls_record_can_use_length_hiding (session)` (lines 111-138). -/
def gnutls_record_can_use_length_hiding (session : gnutls_session_t) : Ret :=
  if session.epoch_get < 0 then Ret.err ErrorCode.GNUTLS_E_INVALID_REQUEST
  else if session.new_record_padding ≠ 0 then Ret.val 1
  else if session.version_is_ssl3 then Ret.val 0
  else
    match session.cipher_is_block with
    | cipher_type_t.CIPHER_STREAM => Ret.val 0
    | cipher_type_t.CIPHER_BLOCK => Ret.val 1
    | cipher_type_t.CIPHER_OTHER => Ret.err ErrorCode.GNUTLS_E_INTERNAL_ERROR

/-- The function `gnutls_range_split (session, orig, small_range, rem_range)`
(lines 156-198).  `small_range` and `rem_range` are the contents of the two
output ranges before the call; the result is the return value and their
contents after the call.  `int length`, `int rem` and `int ret` are 32-bit. -/
def gnutls_range_split (session : gnutls_session_t)
    (orig small_range rem_range : gnutls_range_st) :
    Ret × gnutls_range_st × gnutls_range_st :=
  let max_frag : Int := session.max_user_send_size
  let orig_low : Int := wrap64 orig.low
  let orig_high : Int := wrap64 orig.high
  if orig_high = orig_low then
    let length : Int := wrap32 (min orig_high max_frag)
    let rem : Int := wrap32 (orig_high - length)
    (Ret.val 0, _gnutls_set_range length length, _gnutls_set_range rem rem)
  else if orig_low ≥ max_frag then
    (Ret.val 0, _gnutls_set_range max_frag max_frag,
      _gnutls_set_range (orig_low - max_frag) (orig_high - max_frag))
  else
    match _gnutls_range_max_lh_pad session orig_low max_frag with
    | Ret.err e => (Ret.err e, small_range, rem_range)
    | Ret.val p =>
      let ret : Int := wrap32 p
      if ret < 0 then (Ret.val ret, small_range, rem_range)
      else
        let this_pad := min ret (orig_high - orig_low)
        (Ret.val 0, _gnutls_set_range orig_low (orig_low + this_pad),
          _gnutls_set_range 0 (orig_high - (orig_low + this_pad)))

/-- The function `_gnutls_range_fragment (data_size, cur, next)` (lines 200-205),
in `size_t` arithmetic. -/
def _gnutls_range_fragment (data_size : Nat) (cur next : gnutls_range_st) : Nat :=
  min cur.high (usize ((data_size : Int) - next.low))

/-- One call `_gnutls_send_tlen_int (session, GNUTLS_APPLICATION_DATA, -1,
EPOCH_WRITE_CURRENT, &data[off], len, target, MBUFFER_FLUSH)`: `len` real bytes
starting at offset `off` of the caller's data, padded to `target` bytes. -/
structure SendEvent where
  off : Nat
  len : Nat
  target : Nat
  deriving DecidableEq

/-- The record transmitter used by `gnutls_record_send_range`, as a function
of the outside state `Y`: `send_tlen_int y p len target` is the return value of
`_gnutls_send_tlen_int` for a pointer `p` to the bytes listed. -/
structure RangeEnv (Y : Type) where
  send_tlen_int : Y → List Nat → Nat → Nat → Ret × Y

/-- What one iteration of the loop of `gnutls_record_send_range` does next:
`ret r y evs` is `return r` after the sends `evs`; `next y sent data_size cur next ev`
is the end of the loop body after the send `ev`, with the updated variables. -/
inductive IterResult (Y : Type) where
  | ret (r : Ret) (y : Y) (evs : List SendEvent)
  | next (y : Y) (sent data_size : Nat) (cur_range next_range : gnutls_range_st)
      (ev : SendEvent)

/-- Lines 261-294 of `gnutls_record_send_range`, after the call of
`gnutls_range_split` has returned `sp` (return value, `cur_range`, `next_range`):
compute the fragment length, send one record, advance. -/
def send_range_after_split {Y : Type} (env : RangeEnv Y) (data : List Nat) (y : Y)
    (sent data_size : Nat) (sp : Ret × gnutls_range_st × gnutls_range_st) :
    IterResult Y :=
  match sp with
  | (Ret.err e, _, _) => IterResult.ret (Ret.err e) y []
  | (Ret.val r, cur, next) =>
    if r < 0 then IterResult.ret (Ret.val r) y []
    else
      let next_fragment_length := _gnutls_range_fragment data_size cur next
      let ev : SendEvent := ⟨sent, next_fragment_length, cur.high⟩
      match env.send_tlen_int y (data.drop sent) next_fragment_length cur.high with
      | (Ret.err e, y1) => IterResult.ret (Ret.err e) y1 [ev]
      | (Ret.val ret, y1) =>
        if ret < 0 then IterResult.ret (Ret.val ret) y1 [ev]
        else if ret ≠ wrap64 next_fragment_length then
          IterResult.ret (Ret.err ErrorCode.GNUTLS_E_INTERNAL_ERROR) y1 [ev]
        else
          IterResult.next y1
            (usize ((sent : Int) + next_fragment_length))
            (usize ((data_size : Int) - next_fragment_length))
            (_gnutls_set_range next.low next.high) next ev

/-- The body of the loop `while (cur_range.high != 0)` of
`gnutls_record_send_range` (lines 258-294): split the working range (the call
passes `&cur_range` both as `orig` and as `small_range`), then go on with
`send_range_after_split`. -/
def send_range_body {Y : Type} (env : RangeEnv Y) (session : gnutls_session_t)
    (data : List Nat) (y : Y) (sent data_size : Nat)
    (cur_range next_range : gnutls_range_st) : IterResult Y :=
  send_range_after_split env data y sent data_size
    (gnutls_range_split session cur_range cur_range next_range)

/-- One pass through `while (cur_range.high != 0)` of `gnutls_record_send_range`
(lines 256-297): leave the loop and return `sent`, or run the body and go round
again; `again` stands for the rest of the loop. -/
def send_range_step {Y : Type} (env : RangeEnv Y) (session : gnutls_session_t)
    (data : List Nat)
    (again : Y → Nat → Nat → gnutls_range_st → gnutls_range_st →
      Option Ret × Y × List SendEvent)
    (y : Y) (sent data_size : Nat) (cur_range next_range : gnutls_range_st) :
    Option Ret × Y × List SendEvent :=
  if cur_range.high = 0 then (some (Ret.val (wrap64 sent)), y, [])
  else
    match send_range_body env session data y sent data_size cur_range next_range with
    | IterResult.ret r y1 evs => (some r, y1, evs)
    | IterResult.next y1 sent1 data_size1 cur1 next1 ev =>
      let rest := again y1 sent1 data_size1 cur1 next1
      (rest.1, rest.2.1, ev :: rest.2.2)

/-- The loop of `gnutls_record_send_range` run for at most `fuel` iterations.
The result is the return value (`none` when the iterations are used up before
the function returns), the outside state and the calls of
`_gnutls_send_tlen_int` made, in order. -/
def send_range_loop {Y : Type} (env : RangeEnv Y) (session : gnutls_session_t)
    (data : List Nat) :
    Nat → Y → Nat → Nat → gnutls_range_st → gnutls_range_st →
      Option Ret × Y × List SendEvent
  | 0 => fun y _ _ _ _ => (none, y, [])
  | fuel + 1 => send_range_step env session data (send_range_loop env session data fuel)

/-- The function `gnutls_record_send_range (session, data, data_size, range)`
(lines 226-298), its loop bounded by `fuel` iterations.  `next_range` is not
initialised in C; it is only read after `gnutls_range_split` has written it. -/
def gnutls_record_send_range {Y : Type} (env : RangeEnv Y) (session : gnutls_session_t)
    (fuel : Nat) (y : Y) (data : List Nat) (data_size : Nat) (range : gnutls_range_st) :
    Option Ret × Y × List SendEvent :=
  if range.low > range.high ∨ data_size < range.low ∨ data_size > range.high then
    (some (Ret.err ErrorCode.GNUTLS_E_INVALID_REQUEST), y, [])
  else
    match gnutls_record_can_use_length_hiding session with
    | Ret.err e => (some (Ret.err e), y, [])
    | Ret.val ret =>
      if ret < 0 then (some (Ret.val ret), y, [])
      else if ret = 0 ∧ range.low ≠ range.high then
        (some (Ret.err ErrorCode.GNUTLS_E_INVALID_REQUEST), y, [])
      else
        send_range_loop env session data fuel y 0 data_size
          (_gnutls_set_range range.low range.high) ⟨0, 0⟩

/-- Iterating `gnutls_range_split` on the returned remainder, as its
documentation describes ("a remaining range, on which this function can be
invoked again; when the returned rem_range is (0,0) the splitting process can
terminate"), for at most `fuel` calls.  The result is `none` when the calls are
used up before the remainder is `(0,0)`; otherwise the return value of the last
call and the small ranges produced, in order. -/
def split_all (session : gnutls_session_t) :
    Nat → gnutls_range_st → Option (Ret × List gnutls_range_st)
  | 0, _ => none
  | fuel + 1, r =>
    let sp := gnutls_range_split session r r r
    if sp.1 ≠ Ret.val 0 then some (sp.1, [])
    else if sp.2.2 = ⟨0, 0⟩ then some (Ret.val 0, [sp.2.1])
    else
      match split_all session fuel sp.2.2 with
      | some (c, l) => some (c, sp.2.1 :: l)
      | none => none

/-- The three-case definition of the split given in the specification, over the
integers: the small range and the remainder for `[low, high]` when `maxLHPad`
is the padding obtainable in one record. -/
def split_reference (low high maxFragment maxLHPad : Int) : (Int × Int) × (Int × Int) :=
  if low = high then
    let m := min high maxFragment
    ((m, m), (high - m, high - m))
  else if low ≥ maxFragment then
    ((maxFragment, maxFragment), (low - maxFragment, high - maxFragment))
  else
    let pad := min maxLHPad (high - low)
    ((low, low + pad), (0, high - low - pad))

/-- The call returned a byte count: a non-negative value, not an error code and
not `none` (iterations used up). -/
def succeeded : Option Ret → Bool
  | some (Ret.val n) => decide (0 ≤ n)
  | _ => false

/-- A concrete session: TLS 1.x with a block cipher of block size 16, a
20-byte MAC, no record-padding extension, a maximum fragment of 16384 bytes
and the legacy pad ceiling 255. -/
def demoSession : gnutls_session_t :=
  { epoch_get := 0, new_record_padding := 0, version_is_ssl3 := false,
    max_user_send_size := 16384, max_pad_size := 255, block_size := 16,
    tag_size := 20, cipher_is_block := cipher_type_t.CIPHER_BLOCK }

/-- A record transmitter that sends every fragment in full. -/
def demoRangeEnv : RangeEnv Unit where
  send_tlen_int := fun y _ len _ => (Ret.val len, y)

/-- A session whose padding helper yields no pad for an empty record: block
size 16, a 15-byte tag, no record-padding extension (so one fixed pad byte), a
maximum fragment of 8 bytes and the legacy pad ceiling 255. -/
def stuckSession : gnutls_session_t :=
  { epoch_get := 0, new_record_padding := 0, version_is_ssl3 := false,
    max_user_send_size := 8, max_pad_size := 255, block_size := 16,
    tag_size := 15, cipher_is_block := cipher_type_t.CIPHER_BLOCK }

/-! ## Key derivation (gnutls.c, lines 165-318) -/

/-- Modelled from the spec: the `MACAlgorithm` values named in `gnutls_PRF`
(the header that declares them is not among the sources). -/
inductive MACAlgorithm where
  | GNUTLS_MAC_NULL
  | GNUTLS_MAC_MD5
  | GNUTLS_MAC_SHA
  deriving DecidableEq

/-- The collaborators of the key derivation.
`hmac algorithm key text` is the digest returned by `gnutls_hmac_deinit` for a
handle made by `gnutls_hmac_init(algorithm, key, keylen)` and fed `text` by the
calls of `gnutls_hmac`;
`hmac_get_algo_len` is `gnutls_hmac_get_algo_len`;
`ssl3_generate_random secret random bytes` is `gnutls_ssl3_generate_random`;
`version_ssl3` is `_gnutls_version_ssl3`, which returns 0 for SSL 3. -/
structure MacEnv where
  hmac : MACAlgorithm → List Nat → List Nat → List Nat
  hmac_get_algo_len : MACAlgorithm → Nat
  ssl3_generate_random : List Nat → List Nat → Nat → List Nat
  version_ssl3 : GNUTLS_Version → Int

/-- The function `_gnutls_cal_PRF_A(algorithm, secret, secret_size, seed, seed_size)`
(lines 165-172).  Here and below a buffer argument together with its size
argument is the list of the bytes it holds. -/
def _gnutls_cal_PRF_A (env : MacEnv) (algorithm : MACAlgorithm) (secret seed : List Nat) :
    List Nat :=
  env.hmac algorithm secret seed

/-- The call `memmove(&dst[off], src, n)` on byte buffers. -/
def memmove (dst : List Nat) (off : Nat) (src : List Nat) (n : Nat) : List Nat :=
  dst.take off ++ src.take n ++ dst.drop (off + n)

/-- The loop `do { i += blocksize; } while (i < total_bytes);` of `gnutls_P_hash`
(lines 189-191), entered with the value `i`, for at most `fuel` passes; `none`
when the passes are used up. -/
def P_hash_count (blocksize total_bytes : Nat) : Nat → Nat → Option Nat
  | 0, _ => none
  | fuel + 1, i =>
    if i + blocksize < total_bytes then P_hash_count blocksize total_bytes fuel (i + blocksize)
    else some (i + blocksize)

/-- The loop `for (i = 0; i < times; i++)` of `gnutls_P_hash` (lines 199-221)
with `n` iterations left to run from counter value `i`; `A`, `A_size` and `ret`
are the variables of that name. -/
def P_hash_loop (env : MacEnv) (algorithm : MACAlgorithm) (secret seed : List Nat)
    (blocksize total_bytes : Nat) : Nat → Nat → List Nat → Nat → List Nat → List Nat
  | 0, _, _, _, ret => ret
  | n + 1, i, A, A_size, ret =>
    let Atmp := _gnutls_cal_PRF_A env algorithm secret (A.take A_size)
    let A_size1 := blocksize
    let final := env.hmac algorithm secret (Atmp.take A_size1 ++ seed)
    let how : Int :=
      if (1 + i) * blocksize < total_bytes then (blocksize : Int)
      else (total_bytes : Int) - (i : Int) * blocksize
    let ret1 := if how > 0 then memmove ret (i * blocksize) final how.toNat else ret
    P_hash_loop env algorithm secret seed blocksize total_bytes n (i + 1) Atmp A_size1 ret1

/-- The function `gnutls_P_hash(algorithm, secret, secret_size, seed, seed_size,
total_bytes)` (lines 178-226); `fuel` bounds the passes of its `do` loop.  The
`int` variables are natural numbers (no overflow is modelled). -/
def gnutls_P_hash (env : MacEnv) (fuel : Nat) (algorithm : MACAlgorithm)
    (secret seed : List Nat) (total_bytes : Nat) : Option (List Nat) :=
  let ret := List.replicate total_bytes 0
  let blocksize := env.hmac_get_algo_len algorithm
  match P_hash_count blocksize total_bytes fuel 0 with
  | none => none
  | some i =>
    let times := i / blocksize
    some (P_hash_loop env algorithm secret seed blocksize total_bytes times 0
      seed seed.length ret)

/-- The loop `for (i = 0; i < total_bytes; i++) o1[i] ^= o2[i];` of `gnutls_PRF`
(lines 258-260) with `n` iterations left to run from counter value `i`. -/
def PRF_xor (o2 : List Nat) : Nat → Nat → List Nat → List Nat
  | 0, _, o1 => o1
  | n + 1, i, o1 => PRF_xor o2 n (i + 1) (o1.set i (o1.getD i 0 ^^^ o2.getD i 0))

/-- The function `gnutls_PRF(secret, secret_size, label, label_size, seed,
seed_size, total_bytes)` (lines 232-266). -/
def gnutls_PRF (env : MacEnv) (fuel : Nat) (secret label seed : List Nat)
    (total_bytes : Nat) : Option (List Nat) :=
  let s_seed := label ++ seed
  let l_s := secret.length / 2
  let s1 := secret
  let s2 := secret.drop l_s
  let l_s1 := if secret.length % 2 ≠ 0 then l_s + 1 else l_s
  match gnutls_P_hash env fuel MACAlgorithm.GNUTLS_MAC_MD5 (s1.take l_s1) s_seed total_bytes,
      gnutls_P_hash env fuel MACAlgorithm.GNUTLS_MAC_SHA (s2.take l_s1) s_seed total_bytes with
  | some o1, some o2 => some (PRF_xor o2 total_bytes 0 o1)
  | _, _ => none

/-- The fields of `state->security_parameters` and of `state->connection_state`
that `_gnutls_set_keys` reads. -/
structure security_parameters where
  hash_size : Nat
  IV_size : Nat
  key_material_length : Nat
  server_random : List Nat
  client_random : List Nat
  master_secret : List Nat
  version : GNUTLS_Version

/-- The fields of `state->cipher_specs` that `_gnutls_set_keys` writes. -/
structure cipher_specs where
  client_write_mac_secret : List Nat
  server_write_mac_secret : List Nat
  client_write_key : List Nat
  server_write_key : List Nat
  client_write_IV : List Nat
  server_write_IV : List Nat
  deriving DecidableEq

/-- The array `char keyexp[] = "key expansion"`, without its terminating NUL
(`strlen(keyexp)` is 13). -/
def keyexp : List Nat := [107, 101, 121, 32, 101, 120, 112, 97, 110, 115, 105, 111, 110]

/-- The key block computed in lines 289-296 of `_gnutls_set_keys`. -/
def set_keys_block (env : MacEnv) (fuel : Nat) (sp : security_parameters) :
    Option (List Nat) :=
  let hash_size := sp.hash_size
  let IV_size := sp.IV_size
  let key_size := sp.key_material_length
  let random := sp.server_random.take 32 ++ sp.client_random.take 32
  if env.version_ssl3 sp.version = 0 then
    some (env.ssl3_generate_random (sp.master_secret.take 48) (random.take 64)
      (2 * hash_size + 2 * key_size + 2 * IV_size))
  else
    gnutls_PRF env fuel (sp.master_secret.take 48) keyexp (random.take 64)
      (2 * hash_size + 2 * key_size + 2 * IV_size)

/-- The function `_gnutls_set_keys(state)` (lines 273-318): the six secrets
stored in `state->cipher_specs`; `none` when the key block is not produced
within `fuel`. -/
def _gnutls_set_keys (env : MacEnv) (fuel : Nat) (sp : security_parameters) :
    Option cipher_specs :=
  let hash_size := sp.hash_size
  let IV_size := sp.IV_size
  let key_size := sp.key_material_length
  match set_keys_block env fuel sp with
  | none => none
  | some key_block =>
    some
      { client_write_mac_secret := (key_block.drop 0).take hash_size,
        server_write_mac_secret := (key_block.drop hash_size).take hash_size,
        client_write_key := (key_block.drop (2 * hash_size)).take key_size,
        server_write_key := (key_block.drop (2 * hash_size + key_size)).take key_size,
        client_write_IV := (key_block.drop (2 * key_size + 2 * hash_size)).take IV_size,
        server_write_IV :=
          (key_block.drop (2 * hash_size + 2 * key_size + IV_size)).take IV_size }

/-- The chain value `A(i)` of the specification: `A(0) = seed`,
`A(i+1) = HMAC(secret, A(i))`. -/
def P_hash_A (env : MacEnv) (algorithm : MACAlgorithm) (secret seed : List Nat) :
    Nat → List Nat
  | 0 => seed
  | i + 1 => env.hmac algorithm secret (P_hash_A env algorithm secret seed i)

/-- The output block `i` of the specification: `HMAC(secret, A(i+1) || seed)`. -/
def P_hash_block (env : MacEnv) (algorithm : MACAlgorithm) (secret seed : List Nat)
    (i : Nat) : List Nat :=
  env.hmac algorithm secret (P_hash_A env algorithm secret seed (i + 1) ++ seed)

/-- The concatenation `block(0) || ... || block(k-1)` of the specification. -/
def P_hash_blocks (env : MacEnv) (algorithm : MACAlgorithm) (secret seed : List Nat) :
    Nat → List Nat
  | 0 => []
  | k + 1 => P_hash_blocks env algorithm secret seed k ++ P_hash_block env algorithm secret seed k

/-- A stand-in HMAC with digests of 16 bytes (MD5) and 20 bytes (SHA-1): byte
`j` of the digest mixes the sums of key and text with `j`. -/
def demoMac : MacEnv where
  hmac := fun a key text =>
    (List.range (match a with
      | MACAlgorithm.GNUTLS_MAC_NULL => 0
      | MACAlgorithm.GNUTLS_MAC_MD5 => 16
      | MACAlgorithm.GNUTLS_MAC_SHA => 20)).map
      (fun j => (key.sum + 3 * text.sum + 7 * j + text.length) % 256)
  hmac_get_algo_len := fun a =>
    match a with
    | MACAlgorithm.GNUTLS_MAC_NULL => 0
    | MACAlgorithm.GNUTLS_MAC_MD5 => 16
    | MACAlgorithm.GNUTLS_MAC_SHA => 20
  ssl3_generate_random := fun _ _ n => List.replicate n 0
  version_ssl3 := fun v => if v.major = 3 ∧ v.minor = 0 then 0 else 1

/-- The security parameters of the concrete scenario: hash length 20, key
length 16, IV length 16, a master secret of 48 zero bytes and two randoms of 32
zero bytes, TLS 1.0. -/
def zeroParams : security_parameters :=
  { hash_size := 20, IV_size := 16, key_material_length := 16,
    server_random := List.replicate 32 0, client_random := List.replicate 32 0,
    master_secret := List.replicate 48 0, version := ⟨0, 3, 1⟩ }

/-! # Theorems -/

/-! ## Machine integers in range -/

/-- Storing a value of the `int` range in an `int` keeps it. -/
theorem wrap32_eq {x : Int} (h1 : -2 ^ 31 ≤ x) (h2 : x < 2 ^ 31) : wrap32 x = x := by
  unfold wrap32; omega

/-- Storing a value of the `ssize_t` range in an `ssize_t` keeps it. -/
theorem wrap64_eq {x : Int} (h1 : -2 ^ 63 ≤ x) (h2 : x < 2 ^ 63) : wrap64 x = x := by
  unfold wrap64; omega

/-- Storing a value of the `size_t` range in a `size_t` keeps it. -/
theorem usize_eq {x : Int} (h1 : 0 ≤ x) (h2 : x < 2 ^ 64) : (usize x : Int) = x := by
  unfold usize; omega

/-- Storing a natural number below `2^64` in a `size_t` keeps it. -/
theorem usize_nat {n : Nat} (h2 : n < 2 ^ 64) : usize (n : Int) = n := by
  unfold usize; omega

/-! ## `gnutls_send_int`: the flags survive complete writes -/

/-- One record leaves `valid_connection` and `resumable` alone when every
transport write is complete. -/
theorem send_record_flags (env : Env X) (hW : ∀ x n, (env.Write x n).1 = n)
    (type : Nat) (data : List Nat) (off Size : Nat) (w : World X) :
    (send_record env type data off Size w).2.state.valid_connection = w.state.valid_connection ∧
    (send_record env type data off Size w).2.state.resumable = w.state.resumable := by
  unfold send_record
  simp only [do_Write, hW]
  split
  · exact ⟨rfl, rfl⟩
  · split
    · exact ⟨rfl, rfl⟩
    · simp

/-- The loop of `gnutls_send_int` leaves `valid_connection` and `resumable`
alone when every transport write is complete. -/
theorem send_loop_flags (env : Env X) (hW : ∀ x n, (env.Write x n).1 = n)
    (type : Nat) (data : List Nat) (Size : Nat) :
    ∀ (n i : Nat) (w : World X),
    (send_loop env type data Size n i w).2.1.state.valid_connection = w.state.valid_connection ∧
    (send_loop env type data Size n i w).2.1.state.resumable = w.state.resumable := by
  intro n
  induction n with
  | zero => intro i w; exact ⟨rfl, rfl⟩
  | succ n ih =>
    intro i w
    have h := send_record_flags env hW type data (i * Size) Size w
    rw [send_loop]
    split
    · rename_i r w1 heq
      rw [heq] at h
      exact h
    · rename_i w1 heq
      rw [heq] at h
      have := ih (i + 1) w1
      simp only at h
      rw [this.1, this.2]
      exact h

/-- The function `gnutls_send_int` leaves `valid_connection` and `resumable`
alone when every transport write is complete. -/
theorem send_int_flags (env : Env X) (hW : ∀ x n, (env.Write x n).1 = n)
    (w : World X) (type : Nat) (data : List Nat) (sizeofdata : Nat) :
    (gnutls_send_int env w type data sizeofdata).2.state.valid_connection
      = w.state.valid_connection ∧
    (gnutls_send_int env w type data sizeofdata).2.state.resumable = w.state.resumable := by
  unfold gnutls_send_int
  by_cases h0 : sizeofdata = 0
  · rw [if_pos h0]; exact ⟨rfl, rfl⟩
  · rw [if_neg h0]
    by_cases hv : w.state.valid_connection = false
    · rw [if_pos hv]; exact ⟨rfl, rfl⟩
    · rw [if_neg hv]
      simp only
      generalize (if sizeofdata < MAX_ENC_LEN then 1 else sizeofdata / MAX_ENC_LEN) = iterations
      generalize (if sizeofdata < MAX_ENC_LEN then sizeofdata else MAX_ENC_LEN) = Size
      have hl := send_loop_flags env hW type data Size iterations 0 w
      rcases hres : send_loop env type data Size iterations 0 w with ⟨_ | r, w1, i⟩
      · rw [hres] at hl
        simp only at hl ⊢
        by_cases hit : iterations > 1
        · rw [if_pos hit]
          have hr := send_record_flags env hW type data
            (i * (sizeofdata % MAX_ENC_LEN)) (sizeofdata % MAX_ENC_LEN) w1
          rcases hrec : send_record env type data
            (i * (sizeofdata % MAX_ENC_LEN)) (sizeofdata % MAX_ENC_LEN) w1 with ⟨_ | r, w2⟩
          · rw [hrec] at hr
            simp only at hr ⊢
            rw [hr.1, hr.2]; exact hl
          · rw [hrec] at hr
            simp only at hr ⊢
            rw [hr.1, hr.2]; exact hl
        · rw [if_neg hit]; exact hl
      · rw [hres] at hl
        exact hl

/-! ## `gnutls_range_split`: one step -/

/-- On ranges below `2^31`, with a positive maximum fragment and a padding
helper that succeeds, `gnutls_range_split` is the three-case definition of the
specification. -/
theorem split_refines (s : gnutls_session_t) (orig sm rm : gnutls_range_st) (p : Int)
    (hlh : orig.low ≤ orig.high) (hb : orig.high < 2 ^ 31)
    (hmf : 0 < s.max_user_send_size)
    (hp : orig.low ≠ orig.high → (orig.low : Int) < s.max_user_send_size →
      _gnutls_range_max_lh_pad s orig.low s.max_user_send_size = Ret.val p ∧
        0 ≤ p ∧ p < 2 ^ 31) :
    gnutls_range_split s orig sm rm =
      (Ret.val 0,
        ⟨(split_reference orig.low orig.high s.max_user_send_size p).1.1.toNat,
          (split_reference orig.low orig.high s.max_user_send_size p).1.2.toNat⟩,
        ⟨(split_reference orig.low orig.high s.max_user_send_size p).2.1.toNat,
          (split_reference orig.low orig.high s.max_user_send_size p).2.2.toNat⟩) := by
  obtain ⟨lo, hi⟩ := orig
  simp only at hlh hb hp
  have hlo : wrap64 (lo : Int) = lo := wrap64_eq (by omega) (by omega)
  have hhi : wrap64 (hi : Int) = hi := wrap64_eq (by omega) (by omega)
  unfold gnutls_range_split split_reference
  simp only [hlo, hhi]
  by_cases h1 : (hi : Int) = lo
  · have h1' : (lo : Int) = hi := h1.symm
    have hm1 : 0 ≤ min (hi : Int) s.max_user_send_size := by omega
    have hm2 : min (hi : Int) s.max_user_send_size ≤ hi := by omega
    rw [if_pos h1, if_pos h1']
    simp only
    generalize min (hi : Int) s.max_user_send_size = m at hm1 hm2
    have e1 : wrap32 m = m := wrap32_eq (by omega) (by omega)
    have e2 : wrap32 ((hi : Int) - m) = hi - m := wrap32_eq (by omega) (by omega)
    simp only [e1, e2, _gnutls_set_range, usize]
    have e3 : m % 2 ^ 64 = m := Int.emod_eq_of_lt hm1 (by omega)
    have e4 : ((hi : Int) - m) % 2 ^ 64 = hi - m := Int.emod_eq_of_lt (by omega) (by omega)
    rw [e3, e4]
  · have h1' : ¬ ((lo : Int) = hi) := fun h => h1 h.symm
    rw [if_neg h1, if_neg h1']
    by_cases h2 : (lo : Int) ≥ s.max_user_send_size
    · rw [if_pos h2, if_pos h2]
      simp only [_gnutls_set_range, usize]
      have e3 : s.max_user_send_size % 2 ^ 64 = s.max_user_send_size :=
        Int.emod_eq_of_lt (by omega) (by omega)
      have e4 : ((lo : Int) - s.max_user_send_size) % 2 ^ 64 = lo - s.max_user_send_size :=
        Int.emod_eq_of_lt (by omega) (by omega)
      have e5 : ((hi : Int) - s.max_user_send_size) % 2 ^ 64 = hi - s.max_user_send_size :=
        Int.emod_eq_of_lt (by omega) (by omega)
      rw [e3, e4, e5]
    · rw [if_neg h2, if_neg h2]
      obtain ⟨hpv, hp0, hp1⟩ := hp (by omega) (by omega)
      have e1 : wrap32 p = p := wrap32_eq (by omega) (by omega)
      rw [hpv]
      simp only [e1]
      rw [if_neg (by omega)]
      have hq1 : 0 ≤ min p ((hi : Int) - lo) := by omega
      have hq2 : min p ((hi : Int) - lo) ≤ hi - lo := by omega
      generalize min p ((hi : Int) - lo) = q at hq1 hq2
      simp only [_gnutls_set_range, usize]
      have e3 : (lo : Int) % 2 ^ 64 = lo := Int.emod_eq_of_lt (by omega) (by omega)
      have e4 : ((lo : Int) + q) % 2 ^ 64 = lo + q := Int.emod_eq_of_lt (by omega) (by omega)
      have e5 : ((hi : Int) - (lo + q)) % 2 ^ 64 = hi - (lo + q) :=
        Int.emod_eq_of_lt (by omega) (by omega)
      have e6 : ((hi : Int) - lo - q) = hi - (lo + q) := by omega
      rw [e3, e4, e5, e6]
      rfl

/-- On ranges below `2^31` a split succeeds, conserves both bounds, returns
well-formed ranges and, for a non-empty range, a small range with a positive
upper bound. -/
theorem split_ok (s : gnutls_session_t) (orig sm rm : gnutls_range_st)
    (hlh : orig.low ≤ orig.high) (hb : orig.high < 2 ^ 31)
    (hmf : 0 < s.max_user_send_size)
    (hpad : ∀ l : Int, 0 ≤ l → l < s.max_user_send_size →
      ∃ p, _gnutls_range_max_lh_pad s l s.max_user_send_size = Ret.val p ∧
        0 ≤ p ∧ p < 2 ^ 31 ∧ (l = 0 → 0 < p)) :
    ∃ small rem, gnutls_range_split s orig sm rm = (Ret.val 0, small, rem) ∧
      small.low + rem.low = orig.low ∧ small.high + rem.high = orig.high ∧
      small.low ≤ small.high ∧ rem.low ≤ rem.high ∧ (0 < orig.high → 0 < small.high) := by
  obtain ⟨lo, hi⟩ := orig
  simp only at hlh hb
  have hlo : wrap64 (lo : Int) = lo := wrap64_eq (by omega) (by omega)
  have hhi : wrap64 (hi : Int) = hi := wrap64_eq (by omega) (by omega)
  unfold gnutls_range_split
  simp only [hlo, hhi]
  by_cases h1 : (hi : Int) = lo
  · have hm1 : 0 ≤ min (hi : Int) s.max_user_send_size := by omega
    have hm2 : min (hi : Int) s.max_user_send_size ≤ hi := by omega
    have hm3 : 0 < hi → 0 < min (hi : Int) s.max_user_send_size := by omega
    generalize min (hi : Int) s.max_user_send_size = m at hm1 hm2 hm3
    have e1 : wrap32 m = m := wrap32_eq (by omega) (by omega)
    have e2 : wrap32 ((hi : Int) - m) = hi - m := wrap32_eq (by omega) (by omega)
    have e3 : (usize m : Int) = m := usize_eq hm1 (by omega)
    have e4 : (usize ((hi : Int) - m) : Int) = hi - m := usize_eq (by omega) (by omega)
    rw [if_pos h1]
    simp only [e1, e2, _gnutls_set_range]
    refine ⟨_, _, rfl, ?_⟩
    simp only
    omega
  · rw [if_neg h1]
    by_cases h2 : (lo : Int) ≥ s.max_user_send_size
    · rw [if_pos h2]
      have e3 : (usize s.max_user_send_size : Int) = s.max_user_send_size :=
        usize_eq (by omega) (by omega)
      have e4 : (usize ((lo : Int) - s.max_user_send_size) : Int) = lo - s.max_user_send_size :=
        usize_eq (by omega) (by omega)
      have e5 : (usize ((hi : Int) - s.max_user_send_size) : Int) = hi - s.max_user_send_size :=
        usize_eq (by omega) (by omega)
      refine ⟨_, _, rfl, ?_⟩
      simp only [_gnutls_set_range]
      omega
    · rw [if_neg h2]
      obtain ⟨p, hp, hp0, hp1, hp2⟩ := hpad lo (by omega) (by omega)
      have e1 : wrap32 p = p := wrap32_eq (by omega) (by omega)
      rw [hp]
      simp only [e1]
      rw [if_neg (by omega)]
      have hq1 : 0 ≤ min p ((hi : Int) - lo) := by omega
      have hq2 : min p ((hi : Int) - lo) ≤ hi - lo := by omega
      have hq3 : lo = 0 → 0 < min p ((hi : Int) - lo) := by omega
      generalize min p ((hi : Int) - lo) = q at hq1 hq2 hq3
      have e3 : (usize (lo : Int) : Int) = lo := usize_eq (by omega) (by omega)
      have e4 : (usize ((lo : Int) + q) : Int) = lo + q := usize_eq (by omega) (by omega)
      have e5 : (usize ((hi : Int) - (lo + q)) : Int) = hi - (lo + q) :=
        usize_eq (by omega) (by omega)
      have e6 : usize 0 = 0 := by unfold usize; decide
      refine ⟨_, _, rfl, ?_⟩
      simp only [_gnutls_set_range, e6]
      omega

/-- Whatever the output ranges held before the call, `gnutls_range_split` either
succeeds with outputs that depend on `orig` only, or fails and leaves them alone. -/
theorem split_nf (s : gnutls_session_t) (o : gnutls_range_st) :
    (∃ sm rm, ∀ a b, gnutls_range_split s o a b = (Ret.val 0, sm, rm)) ∨
    (∃ c, succeeded (some c) = false ∧ (∀ r, c = Ret.val r → r < 0) ∧
      ∀ a b, gnutls_range_split s o a b = (c, a, b)) := by
  unfold gnutls_range_split
  by_cases h1 : wrap64 (o.high : Int) = wrap64 (o.low : Int)
  · left
    simp only [h1, if_true]
    exact ⟨_, _, fun _ _ => rfl⟩
  · simp only [h1, if_false]
    by_cases h2 : wrap64 (o.low : Int) ≥ s.max_user_send_size
    · left
      simp only [h2, if_true]
      exact ⟨_, _, fun _ _ => rfl⟩
    · simp only [h2, if_false]
      rcases hp : _gnutls_range_max_lh_pad s (wrap64 (o.low : Int)) s.max_user_send_size
        with p | e
      · simp only
        by_cases h3 : wrap32 p < 0
        · right
          simp only [h3, if_true]
          refine ⟨Ret.val (wrap32 p), ?_, ?_, fun _ _ => rfl⟩
          · simp [succeeded]; omega
          · intro r hr; cases hr; exact h3
        · left
          simp only [h3, if_false]
          exact ⟨_, _, fun _ _ => rfl⟩
      · right
        simp only
        refine ⟨Ret.err e, rfl, ?_, fun _ _ => rfl⟩
        intro r hr; cases hr -- by intro r hr; cases hr, fun _ _ => rfl⟩

/-- Unfolding of one call in `split_all`. -/
theorem split_all_succ (s : gnutls_session_t) (n : Nat) (r : gnutls_range_st) :
    split_all s (n + 1) r =
      if (gnutls_range_split s r r r).1 ≠ Ret.val 0 then some ((gnutls_range_split s r r r).1, [])
      else if (gnutls_range_split s r r r).2.2 = ⟨0, 0⟩ then
        some (Ret.val 0, [(gnutls_range_split s r r r).2.1])
      else
        match split_all s n (gnutls_range_split s r r r).2.2 with
        | some (c, l) => some (c, (gnutls_range_split s r r r).2.1 :: l)
        | none => none := rfl

/-- With `n` calls available and `high < n`, the iteration reaches `(0,0)` and
the upper bounds of the small ranges add up to `high`. -/
theorem split_all_reaches_zero (s : gnutls_session_t)
    (hmf : 0 < s.max_user_send_size)
    (hpad : ∀ l : Int, 0 ≤ l → l < s.max_user_send_size →
      ∃ p, _gnutls_range_max_lh_pad s l s.max_user_send_size = Ret.val p ∧
        0 ≤ p ∧ p < 2 ^ 31 ∧ (l = 0 → 0 < p)) :
    ∀ (n : Nat) (r : gnutls_range_st), r.low ≤ r.high → r.high < n → r.high < 2 ^ 31 →
      ∃ smalls, split_all s n r = some (Ret.val 0, smalls) ∧
        (smalls.map gnutls_range_st.high).sum = r.high := by
  intro n
  induction n with
  | zero => intro r _ h; omega
  | succ n ih =>
    intro r hlh hn hb
    obtain ⟨small, rem, hs, h1, h2, h3, h4, h5⟩ := split_ok s r r r hlh hb hmf hpad
    rw [split_all_succ]
    simp only [hs, ne_eq, not_true_eq_false, if_false]
    by_cases hz : rem = ⟨0, 0⟩
    · rw [if_pos hz]
      refine ⟨[small], rfl, ?_⟩
      have : rem.high = 0 := by rw [hz]
      simp
      omega
    · rw [if_neg hz]
      have hpos : 0 < r.high := by
        by_contra hc
        apply hz
        have : rem.high = 0 := by omega
        have : rem.low = 0 := by omega
        cases rem
        simp_all
      have := h5 hpos
      obtain ⟨l, hl, hsum⟩ := ih rem h4 (by omega) (by omega)
      rw [hl]
      refine ⟨small :: l, rfl, ?_⟩
      simp [hsum]
      omega

/-- The padding helper of `demoSession` succeeds with a pad in `[0, 2^31)` that
is positive for an empty record. -/
theorem demo_pad : ∀ l : Int, 0 ≤ l → l < demoSession.max_user_send_size →
      ∃ p, _gnutls_range_max_lh_pad demoSession l demoSession.max_user_send_size = Ret.val p ∧
        0 ≤ p ∧ p < 2 ^ 31 ∧ (l = 0 → 0 < p) := by
  intro l h0 h1
  simp only [demoSession] at h1
  simp only [_gnutls_range_max_lh_pad, demoSession]
  simp only [show ¬ ((0:Int) < 0) by decide, if_false, show ¬ ((0:Nat) ≠ 0) by decide]
  have hm0 : 0 < min (255 : Int) (16384 - l) := by omega
  have hm1 : l = 0 → min (255 : Int) (16384 - l) = 255 := by omega
  have hm2 : min (255 : Int) (16384 - l) ≤ 255 := by omega
  generalize min (255 : Int) (16384 - l) = t at hm0 hm1 hm2
  have ht : Int.tmod (l + t + 20 + 1) 16 = (l + t + 20 + 1) % 16 :=
    Int.tmod_eq_emod (by omega) (by decide)
  simp only [ht]
  split
  · exact ⟨_, rfl, by omega, by omega, by omega⟩
  · refine ⟨_, rfl, by omega, by omega, ?_⟩
    intro hl
    have := hm1 hl
    omega

/-! ## `gnutls_record_send_range`: the loop -/

variable {Y : Type}

/-- Unfolding of one iteration of the loop of `gnutls_record_send_range`. -/
theorem send_range_loop_succ (env : RangeEnv Y) (session : gnutls_session_t) (data : List Nat)
    (fuel : Nat) (y : Y) (sent data_size : Nat) (cur_range next_range : gnutls_range_st) :
    send_range_loop env session data (fuel + 1) y sent data_size cur_range next_range =
    send_range_step env session data (send_range_loop env session data fuel)
      y sent data_size cur_range next_range := rfl

/-- With no iteration left the loop stops without a return value. -/
theorem send_range_loop_zero (env : RangeEnv Y) (session : gnutls_session_t) (data : List Nat)
    (y : Y) (sent data_size : Nat) (cur_range next_range : gnutls_range_st) :
    send_range_loop env session data 0 y sent data_size cur_range next_range =
      (none, y, []) := rfl

/-- The loop body is the code after the split, applied to the result of the split. -/
theorem send_range_body_eq (env : RangeEnv Y) (s : gnutls_session_t) (data : List Nat)
    (y : Y) (sent d : Nat) (cur next : gnutls_range_st) :
    send_range_body env s data y sent d cur next =
      send_range_after_split env data y sent d (gnutls_range_split s cur cur next) := rfl

/-- After a split that returned an error code the body returns it. -/
theorem after_split_err (env : RangeEnv Y) (data : List Nat) (y : Y) (sent d : Nat)
    (e : ErrorCode) (a b : gnutls_range_st) :
    send_range_after_split env data y sent d (Ret.err e, a, b) =
      IterResult.ret (Ret.err e) y [] := rfl

/-- After a split that returned a negative value the body returns it. -/
theorem after_split_neg (env : RangeEnv Y) (data : List Nat) (y : Y) (sent d : Nat)
    (r : Int) (a b : gnutls_range_st) (h : r < 0) :
    send_range_after_split env data y sent d (Ret.val r, a, b) =
      IterResult.ret (Ret.val r) y [] := by
  simp only [send_range_after_split, h, if_true]

/-- After a successful split the body sends one record and checks the result. -/
theorem after_split_ok (env : RangeEnv Y) (data : List Nat) (y : Y) (sent d : Nat)
    (sm rm : gnutls_range_st) :
    send_range_after_split env data y sent d (Ret.val 0, sm, rm) =
      match env.send_tlen_int y (data.drop sent) (_gnutls_range_fragment d sm rm) sm.high with
      | (Ret.err e, y1) =>
        IterResult.ret (Ret.err e) y1 [⟨sent, _gnutls_range_fragment d sm rm, sm.high⟩]
      | (Ret.val ret, y1) =>
        if ret < 0 then
          IterResult.ret (Ret.val ret) y1 [⟨sent, _gnutls_range_fragment d sm rm, sm.high⟩]
        else if ret ≠ wrap64 (_gnutls_range_fragment d sm rm) then
          IterResult.ret (Ret.err ErrorCode.GNUTLS_E_INTERNAL_ERROR) y1
            [⟨sent, _gnutls_range_fragment d sm rm, sm.high⟩]
        else
          IterResult.next y1
            (usize ((sent : Int) + _gnutls_range_fragment d sm rm))
            (usize ((d : Int) - _gnutls_range_fragment d sm rm))
            (_gnutls_set_range rm.low rm.high) rm
            ⟨sent, _gnutls_range_fragment d sm rm, sm.high⟩ := by
  simp only [send_range_after_split, show ¬ ((0 : Int) < 0) by decide, if_false]

/-- The loop returns `sent` once the working range has upper bound 0. -/
theorem loop_zero (env : RangeEnv Y) (s : gnutls_session_t) (data : List Nat) (fuel : Nat)
    (y : Y) (sent d : Nat) (cur next : gnutls_range_st) (h : cur.high = 0) :
    send_range_loop env s data (fuel + 1) y sent d cur next =
      (some (Ret.val (wrap64 sent)), y, []) := by
  rw [send_range_loop_succ]
  unfold send_range_step
  rw [if_pos h]

/-- The loop returns the error of a failed split without sending. -/
theorem loop_step_fail (env : RangeEnv Y) (s : gnutls_session_t) (data : List Nat) (fuel : Nat)
    (y : Y) (sent d : Nat) (cur next : gnutls_range_st) (h : cur.high ≠ 0)
    (c : Ret) (hc : ∀ r, c = Ret.val r → r < 0)
    (hs : ∀ a b, gnutls_range_split s cur a b = (c, a, b)) :
    send_range_loop env s data (fuel + 1) y sent d cur next = (some c, y, []) := by
  rw [send_range_loop_succ]
  unfold send_range_step
  rw [if_neg h, send_range_body_eq, hs]
  cases c with
  | val r => rw [after_split_neg env data y sent d r cur next (hc r rfl)]
  | err e => rw [after_split_err]

/-- After a successful split the loop sends one record, and then either returns
an error or goes on with the remainder. -/
theorem loop_step_ok (env : RangeEnv Y) (s : gnutls_session_t) (data : List Nat) (fuel : Nat)
    (y : Y) (sent d : Nat) (cur next sm rm : gnutls_range_st) (h : cur.high ≠ 0)
    (hs : ∀ a b, gnutls_range_split s cur a b = (Ret.val 0, sm, rm)) :
    (∃ c y1, succeeded (some c) = false ∧
      send_range_loop env s data (fuel + 1) y sent d cur next =
        (some c, y1, [⟨sent, _gnutls_range_fragment d sm rm, sm.high⟩])) ∨
    (∃ y1 sent1 d1,
      send_range_loop env s data (fuel + 1) y sent d cur next =
        ((send_range_loop env s data fuel y1 sent1 d1 (_gnutls_set_range rm.low rm.high) rm).1,
         (send_range_loop env s data fuel y1 sent1 d1 (_gnutls_set_range rm.low rm.high) rm).2.1,
         ⟨sent, _gnutls_range_fragment d sm rm, sm.high⟩ ::
         (send_range_loop env s data fuel y1 sent1 d1 (_gnutls_set_range rm.low rm.high) rm).2.2)) := by
  rw [send_range_loop_succ]
  unfold send_range_step
  rw [if_neg h, send_range_body_eq, hs, after_split_ok]
  rcases hsend : env.send_tlen_int y (data.drop sent) (_gnutls_range_fragment d sm rm) sm.high
    with ⟨r | e, y1⟩
  · simp only
    by_cases h1 : r < 0
    · left
      rw [if_pos h1]
      exact ⟨Ret.val r, y1, by simp [succeeded]; omega, rfl⟩
    · rw [if_neg h1]
      by_cases h2 : r ≠ wrap64 (_gnutls_range_fragment d sm rm)
      · left
        rw [if_pos h2]
        exact ⟨Ret.err ErrorCode.GNUTLS_E_INTERNAL_ERROR, y1, rfl, rfl⟩
      · right
        rw [if_neg h2]
        exact ⟨y1, _, _, rfl⟩
  · left
    exact ⟨Ret.err e, y1, rfl, rfl⟩

/-- Every record sent by the loop carries at most its target length of real data. -/
theorem loop_len_le_target (env : RangeEnv Y) (s : gnutls_session_t) (data : List Nat) :
    ∀ (fuel : Nat) (y : Y) (sent d : Nat) (cur next : gnutls_range_st),
      ∀ e ∈ (send_range_loop env s data fuel y sent d cur next).2.2, e.len ≤ e.target := by
  intro fuel
  induction fuel with
  | zero => intro y sent d cur next e he; simp [send_range_loop_zero] at he
  | succ fuel ih =>
    intro y sent d cur next e he
    by_cases h : cur.high = 0
    · rw [loop_zero env s data fuel y sent d cur next h] at he
      simp at he
    · rcases split_nf s cur with ⟨sm, rm, hs⟩ | ⟨c, _, hc, hs⟩
      · have hfrag : _gnutls_range_fragment d sm rm ≤ sm.high := by
          unfold _gnutls_range_fragment; omega
        rcases loop_step_ok env s data fuel y sent d cur next sm rm h hs with
          ⟨c, y1, _, heq⟩ | ⟨y1, sent1, d1, heq⟩
        · rw [heq] at he
          simp only [List.mem_singleton] at he
          subst he
          exact hfrag
        · rw [heq] at he
          simp only [List.mem_cons] at he
          rcases he with he | he
          · subst he; exact hfrag
          · exact ih _ _ _ _ _ e he
      · rw [loop_step_fail env s data fuel y sent d cur next h c hc hs] at he
        simp at he

/-- Two runs of the loop from the same working range plan the same target
lengths, record by record. -/
theorem loop_targets {Y1 Y2 : Type} (env1 : RangeEnv Y1) (env2 : RangeEnv Y2)
    (s : gnutls_session_t) (data1 data2 : List Nat) :
    ∀ (fuel1 fuel2 : Nat) (y1 : Y1) (y2 : Y2) (sent1 sent2 d1 d2 : Nat)
      (cur n1 n2 : gnutls_range_st),
      (∀ p ∈ List.zip (send_range_loop env1 s data1 fuel1 y1 sent1 d1 cur n1).2.2
          (send_range_loop env2 s data2 fuel2 y2 sent2 d2 cur n2).2.2,
        p.1.target = p.2.target) ∧
      (succeeded (send_range_loop env1 s data1 fuel1 y1 sent1 d1 cur n1).1 = true →
        succeeded (send_range_loop env2 s data2 fuel2 y2 sent2 d2 cur n2).1 = true →
        (send_range_loop env1 s data1 fuel1 y1 sent1 d1 cur n1).2.2.map SendEvent.target =
        (send_range_loop env2 s data2 fuel2 y2 sent2 d2 cur n2).2.2.map SendEvent.target) := by
  intro fuel1
  induction fuel1 with
  | zero =>
    intro fuel2 y1 y2 sent1 sent2 d1 d2 cur n1 n2
    simp [send_range_loop_zero, succeeded]
  | succ fuel1 ih =>
    intro fuel2 y1 y2 sent1 sent2 d1 d2 cur n1 n2
    cases fuel2 with
    | zero => simp [send_range_loop_zero, succeeded]
    | succ fuel2 =>
      by_cases h : cur.high = 0
      · rw [loop_zero env1 s data1 fuel1 y1 sent1 d1 cur n1 h,
          loop_zero env2 s data2 fuel2 y2 sent2 d2 cur n2 h]
        simp
      · rcases split_nf s cur with ⟨sm, rm, hs⟩ | ⟨c, hcs, hc, hs⟩
        · rcases loop_step_ok env1 s data1 fuel1 y1 sent1 d1 cur n1 sm rm h hs with
            ⟨c1, z1, hf1, heq1⟩ | ⟨z1, s1, e1, heq1⟩ <;>
          rcases loop_step_ok env2 s data2 fuel2 y2 sent2 d2 cur n2 sm rm h hs with
            ⟨c2, z2, hf2, heq2⟩ | ⟨z2, s2, e2, heq2⟩
          · rw [heq1, heq2]
            simp [hf1]
          · rw [heq1, heq2]
            simp [hf1]
          · rw [heq1, heq2]
            simp [hf2]
          · rw [heq1, heq2]
            have := ih fuel2 z1 z2 s1 s2 e1 e2 (_gnutls_set_range rm.low rm.high) rm rm
            simp only [List.zip_cons_cons, List.mem_cons, List.map_cons, List.cons.injEq,
              true_and]
            refine ⟨?_, this.2⟩
            intro p hp
            rcases hp with hp | hp
            · subst hp; rfl
            · exact this.1 p hp
        · rw [loop_step_fail env1 s data1 fuel1 y1 sent1 d1 cur n1 h c hc hs,
            loop_step_fail env2 s data2 fuel2 y2 sent2 d2 cur n2 h c hc hs]
          simp

/-! # The claims -/

/-! ## C1, C2: fragmentation in `gnutls_send_int` -/

/-- C1, evaluated at `sizeofdata = 16385` on a valid connection where every
encryption and every transport write succeeds: `iterations` is 1, the loop sends
the first 16384 bytes, the "rest data" block is guarded by `iterations > 1` and
is skipped.  One record is emitted and the write sequence number advances by
one, although `ceil(16385 / 16384) = 2`; the call still returns 16385. -/
theorem send_int_16385_emits_one_record (data : List Nat) :
    (gnutls_send_int demoEnv (world0 []) GNUTLS_APPLICATION_DATA data 16385).1 = Ret.val 16385 ∧
    chunks (gnutls_send_int demoEnv (world0 []) GNUTLS_APPLICATION_DATA data 16385).2.log
      = [(0, 16384)] ∧
    (gnutls_send_int demoEnv (world0 []) GNUTLS_APPLICATION_DATA data
      16385).2.state.write_sequence_number = 1 ∧
    (16385 + 16383) / 16384 = 2 := ⟨rfl, rfl, rfl, rfl⟩

/-- C2, evaluated at `sizeofdata = 32769` (any buffer of that size) on a valid
connection where every encryption and every transport write succeeds: after two
full chunks the "rest data" block reads `&data[i*Size]` with `Size` already
overwritten by `sizeofdata % MAX_ENC_LEN = 1`, so the third chunk handed to
`_gnutls_encrypt` is the byte at offset 2, not the byte at offset 32768; the
byte at offset 2 is sent twice, the last byte never, and the call returns 32769. -/
theorem send_int_32769_rest_chunk_offset (data : List Nat) :
    (gnutls_send_int demoEnv (world0 []) GNUTLS_APPLICATION_DATA data 32769).1
      = Ret.val 32769 ∧
    chunks (gnutls_send_int demoEnv (world0 []) GNUTLS_APPLICATION_DATA data 32769).2.log
      = [(0, 16384), (16384, 16384), (2, 1)] ∧
    chunkBytes data (2, 1) = (data.drop 2).take 1 := ⟨rfl, rfl, rfl⟩

/-! ## C3, C4: `gnutls_record_send_range` -/

/-- C3, evaluated at `data_size = 2^32 + 16389` with the degenerate range
`[data_size, data_size]`, a maximum fragment of 16384 and a transmitter that
sends every fragment in full: `int rem = orig_high - length` keeps only the low
32 bits, the remainder becomes `[5, 5]`, two records of 16384 and 5 bytes are
sent and the call returns 16389, not `data_size`. -/
theorem send_range_4G_returns_16389 (data : List Nat) :
    gnutls_record_send_range demoRangeEnv demoSession 3 () data 4294983685
        ⟨4294983685, 4294983685⟩ =
      (some (Ret.val 16389), (), [⟨0, 16384, 16384⟩, ⟨16384, 5, 5⟩]) := rfl

/-- C4: for a fixed session and a fixed range, two calls of
`gnutls_record_send_range` with data sizes `d1` and `d2` inside the range
(any transmitters, any data, any iteration bounds) plan the same padded target
length for their k-th record whenever both send one; when both calls succeed
they send the same number of records with the same sequence of target lengths;
and in every record the real-data length is at most the target length. -/
theorem send_range_targets_independent {Y1 Y2 : Type} (env1 : RangeEnv Y1) (env2 : RangeEnv Y2)
    (session : gnutls_session_t) (range : gnutls_range_st)
    (data1 data2 : List Nat) (d1 d2 : Nat) (fuel1 fuel2 : Nat) (y1 : Y1) (y2 : Y2)
    (h1 : range.low ≤ d1 ∧ d1 ≤ range.high) (h2 : range.low ≤ d2 ∧ d2 ≤ range.high) :
    (∀ p ∈ List.zip (gnutls_record_send_range env1 session fuel1 y1 data1 d1 range).2.2
        (gnutls_record_send_range env2 session fuel2 y2 data2 d2 range).2.2,
      p.1.target = p.2.target) ∧
    (succeeded (gnutls_record_send_range env1 session fuel1 y1 data1 d1 range).1 = true →
      succeeded (gnutls_record_send_range env2 session fuel2 y2 data2 d2 range).1 = true →
      (gnutls_record_send_range env1 session fuel1 y1 data1 d1 range).2.2.map SendEvent.target =
      (gnutls_record_send_range env2 session fuel2 y2 data2 d2 range).2.2.map SendEvent.target) ∧
    (∀ e ∈ (gnutls_record_send_range env1 session fuel1 y1 data1 d1 range).2.2,
      e.len ≤ e.target) ∧
    (∀ e ∈ (gnutls_record_send_range env2 session fuel2 y2 data2 d2 range).2.2,
      e.len ≤ e.target) := by
  have hr1 : ¬ (range.low > range.high ∨ d1 < range.low ∨ d1 > range.high) := by omega
  have hr2 : ¬ (range.low > range.high ∨ d2 < range.low ∨ d2 > range.high) := by omega
  unfold gnutls_record_send_range
  rw [if_neg hr1, if_neg hr2]
  rcases gnutls_record_can_use_length_hiding session with ret | e
  · simp only
    by_cases hneg : ret < 0
    · simp [hneg]
    · simp only [hneg, if_false]
      by_cases hz : ret = 0 ∧ range.low ≠ range.high
      · simp [hz]
      · rw [if_neg hz, if_neg hz]
        have ht := loop_targets env1 env2 session data1 data2 fuel1 fuel2 y1 y2 0 0 d1 d2
          (_gnutls_set_range range.low range.high) ⟨0, 0⟩ ⟨0, 0⟩
        exact ⟨ht.1, ht.2, loop_len_le_target env1 session data1 fuel1 y1 0 d1 _ _,
          loop_len_le_target env2 session data2 fuel2 y2 0 d2 _ _⟩
  · simp

/-- Witness for C4: range `[100, 1000]`, data sizes 700 and 100; both calls
succeed and pad their four records to 347, 251, 251 and 151 bytes. -/
theorem send_range_targets_independent_witness :
    ((100 ≤ 700 ∧ 700 ≤ 1000) ∧ (100 ≤ 100 ∧ 100 ≤ 1000)) ∧
    succeeded (gnutls_record_send_range demoRangeEnv demoSession 10 () [] 700 ⟨100, 1000⟩).1
      = true ∧
    succeeded (gnutls_record_send_range demoRangeEnv demoSession 10 () [] 100 ⟨100, 1000⟩).1
      = true ∧
    (gnutls_record_send_range demoRangeEnv demoSession 10 () [] 700 ⟨100, 1000⟩).2.2.map
      SendEvent.target = [347, 251, 251, 151] ∧
    (gnutls_record_send_range demoRangeEnv demoSession 10 () [] 700 ⟨100, 1000⟩).2.2.map
      SendEvent.target =
    (gnutls_record_send_range demoRangeEnv demoSession 10 () [] 100 ⟨100, 1000⟩).2.2.map
      SendEvent.target :=
  ⟨by decide, by decide, by decide, by decide,
    (send_range_targets_independent demoRangeEnv demoRangeEnv demoSession ⟨100, 1000⟩ [] [] 700 100 10 10 () ()
      (by decide) (by decide)).2.1 (by decide) (by decide)⟩

/-! ## C5, C6: `gnutls_range_split` -/

/-- C5 as stated fails: with block size 16, a 15-byte tag, one fixed pad byte
and a maximum fragment of 8, the padding helper returns 0 for an empty record,
so the split of `[0, 5]` returns the small range `[0, 0]` and the remainder
`[0, 5]` again, and no number of calls reaches the remainder `[0, 0]`. -/
theorem range_split_stuck :
    (0 : Nat) ≤ 5 ∧ 0 < stuckSession.max_user_send_size ∧
    gnutls_range_split stuckSession ⟨0, 5⟩ ⟨0, 5⟩ ⟨0, 5⟩ = (Ret.val 0, ⟨0, 0⟩, ⟨0, 5⟩) ∧
    ¬ ∃ fuel, split_all stuckSession fuel ⟨0, 5⟩ ≠ none := by
  refine ⟨by decide, by decide, by decide, ?_⟩
  rintro ⟨fuel, h⟩
  apply h
  clear h
  induction fuel with
  | zero => rfl
  | succ n ih =>
    rw [split_all_succ]
    have : gnutls_range_split stuckSession ⟨0, 5⟩ ⟨0, 5⟩ ⟨0, 5⟩ = (Ret.val 0, ⟨0, 0⟩, ⟨0, 5⟩) := by
      decide
    simp only [this, ne_eq, not_true_eq_false, if_false]
    rw [if_neg (by decide), ih]

/-- C5, amended: for every range with `low <= high < 2^31` and every maximum
fragment `> 0`, in a session whose padding helper succeeds for every
`0 <= data_length < max_frag` with a pad in `[0, 2^31)` that is positive for
`data_length = 0`, iterating `gnutls_range_split` on the returned remainder
reaches the remainder `[0, 0]` (within `high + 1` calls), and the sum of
`small.high` over all steps lies within `[range.low, range.high]`. -/
theorem range_split_terminates (s : gnutls_session_t) (r : gnutls_range_st)
    (hlh : r.low ≤ r.high) (hb : r.high < 2 ^ 31)
    (hmf : 0 < s.max_user_send_size)
    (hpad : ∀ l : Int, 0 ≤ l → l < s.max_user_send_size →
      ∃ p, _gnutls_range_max_lh_pad s l s.max_user_send_size = Ret.val p ∧
        0 ≤ p ∧ p < 2 ^ 31 ∧ (l = 0 → 0 < p)) :
    ∃ fuel smalls, split_all s fuel r = some (Ret.val 0, smalls) ∧
      r.low ≤ (smalls.map gnutls_range_st.high).sum ∧
      (smalls.map gnutls_range_st.high).sum ≤ r.high := by
  obtain ⟨l, hl, hsum⟩ := split_all_reaches_zero s hmf hpad (r.high + 1) r hlh (by omega) hb
  exact ⟨r.high + 1, l, hl, by omega, by omega⟩

/-- Witness for C5: the range `[100, 1000]` in `demoSession`. -/
theorem range_split_terminates_witness :
    ((100 : Nat) ≤ 1000 ∧ (1000 : Nat) < 2 ^ 31 ∧ 0 < demoSession.max_user_send_size) ∧
    ∃ fuel smalls, split_all demoSession fuel ⟨100, 1000⟩ = some (Ret.val 0, smalls) ∧
      100 ≤ (smalls.map gnutls_range_st.high).sum ∧
      (smalls.map gnutls_range_st.high).sum ≤ 1000 :=
  ⟨⟨by decide, by decide, by decide⟩,
    range_split_terminates demoSession ⟨100, 1000⟩ (by decide) (by decide) (by decide) demo_pad⟩

/-- C6, evaluated at `orig = [2^31 + 16384, 2^31 + 16384]` with a maximum
fragment of 16384: the reference definition gives the remainder
`[2^31, 2^31]`, but `int rem = orig_high - length` does not hold `2^31` and the
code stores the remainder `[2^64 - 2^31, 2^64 - 2^31]`. -/
theorem range_split_int_truncation :
    gnutls_range_split demoSession ⟨2147500032, 2147500032⟩ ⟨0, 0⟩ ⟨0, 0⟩ =
      (Ret.val 0, ⟨16384, 16384⟩, ⟨18446744071562067968, 18446744071562067968⟩) ∧
    split_reference 2147500032 2147500032 16384 0 = ((16384, 16384), (2147483648, 2147483648)) := by
  decide

/-! ## C7 - C10: `gnutls_recv_int` -/

/-- C7, evaluated at a valid connection that expects an alert and receives a
warning alert record (level 1, description 100) that decrypts successfully: the
alert branch returns before the increment of line 707, so the read sequence
number is still 0 after the call and the connection is still valid. -/
theorem recv_alert_keeps_read_seq :
    (gnutls_recv_int demoEnv (world0 [21, 3, 1, 0, 2, 1, 100]) GNUTLS_ALERT 0).ret =
      Ret.err ErrorCode.GNUTLS_E_WARNING_ALERT_RECEIVED ∧
    (gnutls_recv_int demoEnv (world0 [21, 3, 1, 0, 2, 1, 100]) GNUTLS_ALERT 0).w.log =
      [Event.read 1 false, Event.read 1 false, Event.read 1 false, Event.read 2 false,
        Event.read 2 false, Event.decrypt 2 21] ∧
    (world0 [21, 3, 1, 0, 2, 1, 100]).state.read_sequence_number = 0 ∧
    (gnutls_recv_int demoEnv (world0 [21, 3, 1, 0, 2, 1, 100])
      GNUTLS_ALERT 0).w.state.read_sequence_number = 0 ∧
    (gnutls_recv_int demoEnv (world0 [21, 3, 1, 0, 2, 1, 100])
      GNUTLS_ALERT 0).w.state.valid_connection = true := by
  decide

/-- C8, evaluated at a valid connection that expects application data and
receives a warning alert record followed by an application-data record: the
alert body is read with `MSG_PEEK`, the alert branch returns without the drain,
so `peek_data_size` is 2, the connection is valid and the two body bytes are
still in the transport; the next call starts reading a record header there. -/
theorem recv_alert_leaves_peek_pending :
    (gnutls_recv_int demoEnv (world0 [21, 3, 1, 0, 2, 1, 100, 23, 3, 1, 0, 1, 7])
      GNUTLS_APPLICATION_DATA 10).ret = Ret.err ErrorCode.GNUTLS_E_WARNING_ALERT_RECEIVED ∧
    (gnutls_recv_int demoEnv (world0 [21, 3, 1, 0, 2, 1, 100, 23, 3, 1, 0, 1, 7])
      GNUTLS_APPLICATION_DATA 10).w.log =
      [Event.read 1 false, Event.read 1 false, Event.read 1 false, Event.read 2 false,
        Event.read 2 true, Event.decrypt 2 21] ∧
    (gnutls_recv_int demoEnv (world0 [21, 3, 1, 0, 2, 1, 100, 23, 3, 1, 0, 1, 7])
      GNUTLS_APPLICATION_DATA 10).w.state.peek_data_size = 2 ∧
    (gnutls_recv_int demoEnv (world0 [21, 3, 1, 0, 2, 1, 100, 23, 3, 1, 0, 1, 7])
      GNUTLS_APPLICATION_DATA 10).w.state.valid_connection = true ∧
    (gnutls_recv_int demoEnv (world0 [21, 3, 1, 0, 2, 1, 100, 23, 3, 1, 0, 1, 7])
      GNUTLS_APPLICATION_DATA 10).w.ext = [1, 100, 23, 3, 1, 0, 1, 7] ∧
    ((gnutls_recv_int demoEnv
        (gnutls_recv_int demoEnv (world0 [21, 3, 1, 0, 2, 1, 100, 23, 3, 1, 0, 1, 7])
          GNUTLS_APPLICATION_DATA 10).w
        GNUTLS_APPLICATION_DATA 10).w.log.drop 6).head? = some (Event.read 1 false) := by
  decide

/-- C9, evaluated at a valid connection that expects handshake data and receives
an application-data record that decrypts successfully: the `default` branch of
the dispatch returns `GNUTLS_E_UNKNOWN_ERROR`, so the later
`return GNUTLS_E_RECEIVED_BAD_MESSAGE` for `recv_type != type` is never reached;
the connection stays valid. -/
theorem recv_mismatch_unknown_error :
    (gnutls_recv_int demoEnv (world0 [23, 3, 1, 0, 1, 7]) GNUTLS_HANDSHAKE 10).ret =
      Ret.err ErrorCode.GNUTLS_E_UNKNOWN_ERROR ∧
    (gnutls_recv_int demoEnv (world0 [23, 3, 1, 0, 1, 7]) GNUTLS_HANDSHAKE 10).ret ≠
      Ret.err ErrorCode.GNUTLS_E_RECEIVED_BAD_MESSAGE ∧
    (gnutls_recv_int demoEnv (world0 [23, 3, 1, 0, 1, 7]) GNUTLS_HANDSHAKE 10).w.log =
      [Event.read 1 false, Event.read 1 false, Event.read 1 false, Event.read 2 false,
        Event.read 1 false, Event.decrypt 1 23] ∧
    (gnutls_recv_int demoEnv (world0 [23, 3, 1, 0, 1, 7])
      GNUTLS_HANDSHAKE 10).w.state.valid_connection = true := by
  decide

/-- C10, evaluated at two protocol faults on a valid, resumable connection.
A record header with the unsupported version 2.0: `gnutls_recv_int` hands the
fatal protocol_version alert to the record encryption and fails with
`GNUTLS_E_UNSUPPORTED_VERSION_PACKET`, but only `resumable` is cleared (line 572)
and the connection is still valid, where the other fatal-alert paths (lines
600-602 and 645-655) clear both flags.  An expected change-cipher-spec record of
length 2: it fails with `GNUTLS_E_UNEXPECTED_PACKET_LENGTH` (line 636) and
neither flag is cleared, where every other return of that code clears both. -/
theorem recv_bad_version_stays_valid :
    (gnutls_recv_int demoEnv (world0 [23, 2, 0, 0, 1, 7]) GNUTLS_APPLICATION_DATA 10).ret =
      Ret.err ErrorCode.GNUTLS_E_UNSUPPORTED_VERSION_PACKET ∧
    ¬ ((gnutls_recv_int demoEnv (world0 [23, 2, 0, 0, 1, 7])
          GNUTLS_APPLICATION_DATA 10).w.state.valid_connection = false ∧
        (gnutls_recv_int demoEnv (world0 [23, 2, 0, 0, 1, 7])
          GNUTLS_APPLICATION_DATA 10).w.state.resumable = false) ∧
    (gnutls_recv_int demoEnv (world0 [23, 2, 0, 0, 1, 7])
      GNUTLS_APPLICATION_DATA 10).w.state.valid_connection = true ∧
    (gnutls_recv_int demoEnv (world0 [23, 2, 0, 0, 1, 7])
      GNUTLS_APPLICATION_DATA 10).w.state.resumable = false ∧
    encrypts (gnutls_recv_int demoEnv (world0 [23, 2, 0, 0, 1, 7])
      GNUTLS_APPLICATION_DATA 10).w.log =
        [(GNUTLS_ALERT, [GNUTLS_FATAL, GNUTLS_PROTOCOL_VERSION], 0, 2)] ∧
    (gnutls_recv_int demoEnv (world0 [20, 3, 1, 0, 2, 1, 1]) GNUTLS_CHANGE_CIPHER_SPEC 0).ret =
      Ret.err ErrorCode.GNUTLS_E_UNEXPECTED_PACKET_LENGTH ∧
    (gnutls_recv_int demoEnv (world0 [20, 3, 1, 0, 2, 1, 1])
      GNUTLS_CHANGE_CIPHER_SPEC 0).w.state.valid_connection = true ∧
    (gnutls_recv_int demoEnv (world0 [20, 3, 1, 0, 2, 1, 1])
      GNUTLS_CHANGE_CIPHER_SPEC 0).w.state.resumable = true ∧
    (gnutls_recv_int demoEnv (world0 [23, 3, 1, 255, 255]) GNUTLS_APPLICATION_DATA 10).ret =
      Ret.err ErrorCode.GNUTLS_E_UNEXPECTED_PACKET_LENGTH ∧
    (gnutls_recv_int demoEnv (world0 [23, 3, 1, 255, 255])
      GNUTLS_APPLICATION_DATA 10).w.state.valid_connection = false ∧
    (gnutls_recv_int demoEnv (world0 [23, 3, 1, 255, 255])
      GNUTLS_APPLICATION_DATA 10).w.state.resumable = false := by
  decide

/-- The flags after the three protocol faults, in every environment: on a valid
connection that reads a record header (three
complete one-byte reads), (a) an unsupported header version makes
`gnutls_recv_int` fail with `resumable == false`, and `valid` stays true when
the transport writes of the protocol_version alert are complete; (b) with a
supported version, a declared length above 18432 makes it fail with
`valid == false` and `resumable == false`; (c) with a supported version, an
expected change-cipher-spec record of length other than 1, read in full, makes
it fail with `valid` still true and `resumable` unchanged. -/
theorem recv_protocol_fault_flags (env : Env X) (w : World X) (type sizeofdata : Nat)
    (hc : ¬ ((type = GNUTLS_APPLICATION_DATA ∨ type = GNUTLS_HANDSHAKE) ∧
      gnutls_getDataBufferSize type w.state > 0))
    (hv : w.state.valid_connection = true)
    (b1 b2 b3 : List Nat) (x1 x2 x3 : X)
    (h1 : env.Read w.ext 1 false = ((1, b1), x1))
    (h2 : env.Read x1 1 false = ((1, b2), x2))
    (h3 : env.Read x2 1 false = ((1, b3), x3)) :
    (env.version_is_supported w.state ⟨0, byteAt b2 0, byteAt b3 0⟩ = 0 →
      (gnutls_recv_int env w type sizeofdata).ret =
          Ret.err ErrorCode.GNUTLS_E_UNSUPPORTED_VERSION_PACKET ∧
        (gnutls_recv_int env w type sizeofdata).w.state.resumable = false ∧
        ((∀ x n, (env.Write x n).1 = n) →
          (gnutls_recv_int env w type sizeofdata).w.state.valid_connection = true)) ∧
    (env.version_is_supported w.state ⟨0, byteAt b2 0, byteAt b3 0⟩ ≠ 0 →
      ∀ (b4 : List Nat) (x4 : X), env.Read x3 2 false = ((2, b4), x4) →
        (byteAt b4 0 * 256 + byteAt b4 1 > MAX_RECV_SIZE →
          (gnutls_recv_int env w type sizeofdata).ret =
              Ret.err ErrorCode.GNUTLS_E_UNEXPECTED_PACKET_LENGTH ∧
            (gnutls_recv_int env w type sizeofdata).w.state.valid_connection = false ∧
            (gnutls_recv_int env w type sizeofdata).w.state.resumable = false) ∧
        (byteAt b4 0 * 256 + byteAt b4 1 ≤ MAX_RECV_SIZE →
          byteAt b4 0 * 256 + byteAt b4 1 ≠ 1 →
          type = GNUTLS_CHANGE_CIPHER_SPEC → byteAt b1 0 = GNUTLS_CHANGE_CIPHER_SPEC →
          ∀ (b5 : List Nat) (x5 : X),
            env.Read x4 ((byteAt b4 0 * 256 + byteAt b4 1 : Nat) : Int) false =
              ((((byteAt b4 0 * 256 + byteAt b4 1 : Nat) : Int), b5), x5) →
            (gnutls_recv_int env w type sizeofdata).ret =
                Ret.err ErrorCode.GNUTLS_E_UNEXPECTED_PACKET_LENGTH ∧
              (gnutls_recv_int env w type sizeofdata).w.state.valid_connection = true ∧
              (gnutls_recv_int env w type sizeofdata).w.state.resumable = w.state.resumable)) := by
  have hv' : ¬ (w.state.valid_connection = false) := by simp [hv]
  refine ⟨?_, ?_⟩
  · intro hver
    unfold gnutls_recv_int
    rw [if_neg hc, if_neg hv']
    simp only [do_Read, h1, h2, h3, hver, ne_eq, not_true_eq_false, if_false, if_true]
    refine ⟨trivial, rfl, ?_⟩
    intro hW
    simp only [World.no_resume, _gnutls_send_alert]
    rw [(send_int_flags env hW _ _ _ _).1]
    exact hv
  · intro hver b4 x4 h4
    refine ⟨?_, ?_⟩
    · intro hlen
      unfold gnutls_recv_int
      rw [if_neg hc, if_neg hv']
      simp only [do_Read, h1, h2, h3, h4, hver, ne_eq, not_true_eq_false, if_false, if_true,
        hlen]
      exact ⟨trivial, rfl, rfl⟩
    · intro hlen hne hty hrt b5 x5 h5
      have hlen' : ¬ (byteAt b4 0 * 256 + byteAt b4 1 > MAX_RECV_SIZE) := by omega
      subst hty
      unfold gnutls_recv_int
      rw [if_neg hc, if_neg hv']
      simp only [do_Read, h1, h2, h3, h4, hver, ne_eq, not_true_eq_false, if_false, if_true,
        hlen']
      unfold recv_body
      have hna : ¬ (GNUTLS_CHANGE_CIPHER_SPEC = GNUTLS_APPLICATION_DATA) := by decide
      simp only [do_Read, hna, decide_False, h5, ne_eq, not_true_eq_false, if_false, hrt,
        and_self, if_true, hne, not_false_eq_true]
      exact ⟨trivial, hv, trivial⟩

/-- The three protocol faults at concrete inputs: a header with version 2.0, a
header declaring 65535 bytes, and an expected change-cipher-spec record of 2
bytes. -/
theorem recv_protocol_fault_flags_witness :
    ((gnutls_recv_int demoEnv (world0 [23, 2, 0, 0, 1, 7]) GNUTLS_APPLICATION_DATA 10).ret =
        Ret.err ErrorCode.GNUTLS_E_UNSUPPORTED_VERSION_PACKET ∧
      (gnutls_recv_int demoEnv (world0 [23, 2, 0, 0, 1, 7])
        GNUTLS_APPLICATION_DATA 10).w.state.resumable = false ∧
      (gnutls_recv_int demoEnv (world0 [23, 2, 0, 0, 1, 7])
        GNUTLS_APPLICATION_DATA 10).w.state.valid_connection = true) ∧
    ((gnutls_recv_int demoEnv (world0 [23, 3, 1, 255, 255]) GNUTLS_APPLICATION_DATA 10).ret =
        Ret.err ErrorCode.GNUTLS_E_UNEXPECTED_PACKET_LENGTH ∧
      (gnutls_recv_int demoEnv (world0 [23, 3, 1, 255, 255])
        GNUTLS_APPLICATION_DATA 10).w.state.valid_connection = false ∧
      (gnutls_recv_int demoEnv (world0 [23, 3, 1, 255, 255])
        GNUTLS_APPLICATION_DATA 10).w.state.resumable = false) ∧
    ((gnutls_recv_int demoEnv (world0 [20, 3, 1, 0, 2, 1, 1]) GNUTLS_CHANGE_CIPHER_SPEC 0).ret =
        Ret.err ErrorCode.GNUTLS_E_UNEXPECTED_PACKET_LENGTH ∧
      (gnutls_recv_int demoEnv (world0 [20, 3, 1, 0, 2, 1, 1])
        GNUTLS_CHANGE_CIPHER_SPEC 0).w.state.valid_connection = true ∧
      (gnutls_recv_int demoEnv (world0 [20, 3, 1, 0, 2, 1, 1])
        GNUTLS_CHANGE_CIPHER_SPEC 0).w.state.resumable = true) := by
  refine ⟨?_, ?_, ?_⟩
  · have h := (recv_protocol_fault_flags demoEnv (world0 [23, 2, 0, 0, 1, 7])
      GNUTLS_APPLICATION_DATA 10 (by decide) (by decide) [23] [2] [0]
      [2, 0, 0, 1, 7] [0, 0, 1, 7] [0, 1, 7] (by decide) (by decide) (by decide)).1 (by decide)
    exact ⟨h.1, h.2.1, h.2.2 (fun _ _ => rfl)⟩
  · exact ((recv_protocol_fault_flags demoEnv (world0 [23, 3, 1, 255, 255])
      GNUTLS_APPLICATION_DATA 10 (by decide) (by decide) [23] [3] [1]
      [3, 1, 255, 255] [1, 255, 255] [255, 255] (by decide) (by decide) (by decide)).2
      (by decide) [255, 255] [] (by decide)).1 (by decide)
  · exact ((recv_protocol_fault_flags demoEnv (world0 [20, 3, 1, 0, 2, 1, 1])
      GNUTLS_CHANGE_CIPHER_SPEC 0 (by decide) (by decide) [20] [3] [1]
      [3, 1, 0, 2, 1, 1] [1, 0, 2, 1, 1] [0, 2, 1, 1] (by decide) (by decide) (by decide)).2
      (by decide) [0, 2] [1, 1] (by decide)).2 (by decide) (by decide) (by decide) (by decide)
      [1, 1] [] (by decide)


/-! ## C17, C18, C19: calls that do no record I/O -/

/-- C17: for every call of `gnutls_record_send_range` with `range.low > range.high`,
or `data_size < range.low`, or `data_size > range.high`, the result is
`GNUTLS_E_INVALID_REQUEST`, no call of the record transmitter is made and the
outside state is untouched. -/
theorem send_range_invalid_request {Y : Type} (env : RangeEnv Y) (session : gnutls_session_t)
    (fuel : Nat) (y : Y) (data : List Nat) (data_size : Nat) (range : gnutls_range_st)
    (h : range.low > range.high ∨ data_size < range.low ∨ data_size > range.high) :
    gnutls_record_send_range env session fuel y data data_size range =
      (some (Ret.err ErrorCode.GNUTLS_E_INVALID_REQUEST), y, []) := by
  unfold gnutls_record_send_range
  rw [if_pos h]

/-- Witness for C17: the inverted range `[10, 5]`, and 3 bytes for the range `[5, 10]`. -/
theorem send_range_invalid_request_witness :
    ((10 : Nat) > 5 ∨ (7 : Nat) < 10 ∨ (7 : Nat) > 5) ∧
    gnutls_record_send_range demoRangeEnv demoSession 10 () [1, 2, 3, 4, 5, 6, 7] 7 ⟨10, 5⟩ =
      (some (Ret.err ErrorCode.GNUTLS_E_INVALID_REQUEST), (), []) ∧
    gnutls_record_send_range demoRangeEnv demoSession 10 () [1, 2, 3] 3 ⟨5, 10⟩ =
      (some (Ret.err ErrorCode.GNUTLS_E_INVALID_REQUEST), (), []) :=
  ⟨by decide,
    send_range_invalid_request demoRangeEnv demoSession 10 () [1, 2, 3, 4, 5, 6, 7] 7 ⟨10, 5⟩
      (by decide),
    send_range_invalid_request demoRangeEnv demoSession 10 () [1, 2, 3] 3 ⟨5, 10⟩ (by decide)⟩

/-- C18: for every connection state (valid or not), every content type and every
buffer, `gnutls_send_int` with `sizeofdata = 0` returns 0 and leaves the whole
world as it was: no encryption and no transport write is logged, and `valid`,
`resumable` and the write sequence number are unchanged. -/
theorem send_int_zero (env : Env X) (w : World X) (type : Nat) (data : List Nat) :
    gnutls_send_int env w type data 0 = (Ret.val 0, w) ∧
    (gnutls_send_int env w type data 0).2.log = w.log ∧
    (gnutls_send_int env w type data 0).2.state.valid_connection = w.state.valid_connection ∧
    (gnutls_send_int env w type data 0).2.state.resumable = w.state.resumable ∧
    (gnutls_send_int env w type data 0).2.state.write_sequence_number =
      w.state.write_sequence_number := by
  have h : gnutls_send_int env w type data 0 = (Ret.val 0, w) := by
    unfold gnutls_send_int
    rw [if_pos rfl]
  rw [h]
  exact ⟨rfl, rfl, rfl, rfl, rfl⟩

/-- C19: a `gnutls_recv_int` call that expects application data or handshake data
and finds the reassembly buffer of that type non-empty serves the first
`sizeofdata` bytes of the buffer and reads no record header, also on an invalid
connection; `valid`, `resumable`, the version and both sequence numbers are
unchanged; the transport is untouched, except that for application data whose
buffer becomes empty exactly one destructive read of `peek_data_size` bytes is
made and `peek_data_size` becomes 0. -/
theorem recv_from_buffer (env : Env X) (w : World X) (type sizeofdata : Nat)
    (ht : type = GNUTLS_APPLICATION_DATA ∨ type = GNUTLS_HANDSHAKE)
    (hb : gnutls_getDataBufferSize type w.state > 0) :
    (gnutls_recv_int env w type sizeofdata).data =
        (gnutls_getDataFromBuffer type w.state sizeofdata).1 ∧
    (gnutls_recv_int env w type sizeofdata).data =
        (if type = GNUTLS_APPLICATION_DATA then w.state.buffer.take sizeofdata
          else w.state.buffer_handshake.take sizeofdata) ∧
    (gnutls_recv_int env w type sizeofdata).ret =
        Ret.val (gnutls_recv_int env w type sizeofdata).data.length ∧
    (gnutls_recv_int env w type sizeofdata).w.state.valid_connection =
        w.state.valid_connection ∧
    (gnutls_recv_int env w type sizeofdata).w.state.resumable = w.state.resumable ∧
    (gnutls_recv_int env w type sizeofdata).w.state.version = w.state.version ∧
    (gnutls_recv_int env w type sizeofdata).w.state.read_sequence_number =
        w.state.read_sequence_number ∧
    (gnutls_recv_int env w type sizeofdata).w.state.write_sequence_number =
        w.state.write_sequence_number ∧
    (if type = GNUTLS_APPLICATION_DATA ∧ w.state.buffer.drop sizeofdata = [] then
      (gnutls_recv_int env w type sizeofdata).w.log =
          w.log ++ [Event.read w.state.peek_data_size false] ∧
        (gnutls_recv_int env w type sizeofdata).w.state.peek_data_size = 0
    else
      (gnutls_recv_int env w type sizeofdata).w.log = w.log ∧
        (gnutls_recv_int env w type sizeofdata).w.ext = w.ext ∧
        (gnutls_recv_int env w type sizeofdata).w.state.peek_data_size =
          w.state.peek_data_size) := by
  unfold gnutls_recv_int
  rw [if_pos ⟨ht, hb⟩]
  rcases ht with ht | ht
  · subst ht
    by_cases hd : w.state.buffer.drop sizeofdata = []
    · have hd' : sizeofdata ≥ w.state.buffer.length := by
        have := congrArg List.length hd
        simp at this
        omega
      simp [gnutls_getDataFromBuffer, gnutls_getDataBufferSize, _gnutls_clear_peeked_data,
        do_Read, hd, hd']
    · have hd' : ¬ (w.state.buffer.length ≤ sizeofdata) := by
        intro hle
        exact hd (List.drop_eq_nil_of_le hle)
      have hne : ¬ (w.state.buffer.length - sizeofdata = 0) := by omega
      simp [gnutls_getDataFromBuffer, gnutls_getDataBufferSize, hd, hd', hne]
  · subst ht
    have h1 : ¬ (GNUTLS_HANDSHAKE = GNUTLS_APPLICATION_DATA) := by decide
    simp [gnutls_getDataFromBuffer, gnutls_getDataBufferSize, h1]

/-- Witness for C19: application data `[7, 8]` buffered on an invalid connection
with two peeked bytes pending; a call for 10 bytes serves both and drains. -/
theorem recv_from_buffer_witness :
    (GNUTLS_APPLICATION_DATA = GNUTLS_APPLICATION_DATA ∨
      GNUTLS_APPLICATION_DATA = GNUTLS_HANDSHAKE) ∧
    (gnutls_recv_int demoEnv
      ⟨{ state0 with buffer := [7, 8], peek_data_size := 2, valid_connection := false },
        [9, 9, 5], []⟩ GNUTLS_APPLICATION_DATA 10).data = [7, 8] ∧
    (gnutls_recv_int demoEnv
      ⟨{ state0 with buffer := [7, 8], peek_data_size := 2, valid_connection := false },
        [9, 9, 5], []⟩ GNUTLS_APPLICATION_DATA 10).w.log = [Event.read 2 false] ∧
    (gnutls_recv_int demoEnv
      ⟨{ state0 with buffer := [7, 8], peek_data_size := 2, valid_connection := false },
        [9, 9, 5], []⟩ GNUTLS_APPLICATION_DATA 10).w.ext = [5] :=
  ⟨by decide,
    ((recv_from_buffer demoEnv
      ⟨{ state0 with buffer := [7, 8], peek_data_size := 2, valid_connection := false },
        [9, 9, 5], []⟩ GNUTLS_APPLICATION_DATA 10 (by decide) (by decide)).2.1).trans
      (by decide),
    by decide, by decide⟩


/-! ## What `gnutls_send_int` leaves alone -/

/-- The reads of a concatenated log. -/
theorem reads_append (a b : List Event) : reads (a ++ b) = reads a ++ reads b := by
  induction a with
  | nil => rfl
  | cons e a ih => cases e <;> simp [reads, ih]

/-- The encryptions of a concatenated log. -/
theorem encrypts_append (a b : List Event) : encrypts (a ++ b) = encrypts a ++ encrypts b := by
  induction a with
  | nil => rfl
  | cons e a ih => cases e <;> simp [encrypts, ih]

/-- One record performs no transport read and leaves the last seen alert, the
read sequence number and the version alone. -/
theorem send_record_frame (env : Env X) (type : Nat) (data : List Nat) (off Size : Nat)
    (w : World X) :
    reads (send_record env type data off Size w).2.log = reads w.log ∧
    (send_record env type data off Size w).2.state.last_alert = w.state.last_alert ∧
    (send_record env type data off Size w).2.state.read_sequence_number =
      w.state.read_sequence_number ∧
    (send_record env type data off Size w).2.state.version = w.state.version := by
  unfold send_record
  simp only [do_Write]
  split
  · simp [reads_append, reads]
  · split
    · simp [reads_append, reads]
    · split
      · simp [reads_append, reads, World.invalidate, World.no_resume]
      · split
        · simp [reads_append, reads, World.invalidate, World.no_resume]
        · simp [reads_append, reads]

/-- The loop of `gnutls_send_int` performs no transport read and leaves the last
seen alert, the read sequence number and the version alone. -/
theorem send_loop_frame (env : Env X) (type : Nat) (data : List Nat) (Size : Nat) :
    ∀ (n i : Nat) (w : World X),
    reads (send_loop env type data Size n i w).2.1.log = reads w.log ∧
    (send_loop env type data Size n i w).2.1.state.last_alert = w.state.last_alert ∧
    (send_loop env type data Size n i w).2.1.state.read_sequence_number =
      w.state.read_sequence_number ∧
    (send_loop env type data Size n i w).2.1.state.version = w.state.version := by
  intro n
  induction n with
  | zero => intro i w; exact ⟨rfl, rfl, rfl, rfl⟩
  | succ n ih =>
    intro i w
    have h := send_record_frame env type data (i * Size) Size w
    rw [send_loop]
    split
    · rename_i r w1 heq
      rw [heq] at h
      exact h
    · rename_i w1 heq
      rw [heq] at h
      have := ih (i + 1) w1
      simp only at h
      rw [this.1, this.2.1, this.2.2.1, this.2.2.2]
      exact h

/-- The function `gnutls_send_int` performs no transport read and leaves the last
seen alert, the read sequence number and the version alone. -/
theorem send_int_frame (env : Env X) (w : World X) (type : Nat) (data : List Nat)
    (sizeofdata : Nat) :
    reads (gnutls_send_int env w type data sizeofdata).2.log = reads w.log ∧
    (gnutls_send_int env w type data sizeofdata).2.state.last_alert = w.state.last_alert ∧
    (gnutls_send_int env w type data sizeofdata).2.state.read_sequence_number =
      w.state.read_sequence_number ∧
    (gnutls_send_int env w type data sizeofdata).2.state.version = w.state.version := by
  unfold gnutls_send_int
  by_cases h0 : sizeofdata = 0
  · rw [if_pos h0]; exact ⟨rfl, rfl, rfl, rfl⟩
  · rw [if_neg h0]
    by_cases hv : w.state.valid_connection = false
    · rw [if_pos hv]; exact ⟨rfl, rfl, rfl, rfl⟩
    · rw [if_neg hv]
      simp only
      generalize (if sizeofdata < MAX_ENC_LEN then 1 else sizeofdata / MAX_ENC_LEN) = iterations
      generalize (if sizeofdata < MAX_ENC_LEN then sizeofdata else MAX_ENC_LEN) = Size
      have hl := send_loop_frame env type data Size iterations 0 w
      rcases hres : send_loop env type data Size iterations 0 w with ⟨_ | r, w1, i⟩
      · rw [hres] at hl
        simp only at hl ⊢
        by_cases hit : iterations > 1
        · rw [if_pos hit]
          have hr := send_record_frame env type data
            (i * (sizeofdata % MAX_ENC_LEN)) (sizeofdata % MAX_ENC_LEN) w1
          rcases hrec : send_record env type data
            (i * (sizeofdata % MAX_ENC_LEN)) (sizeofdata % MAX_ENC_LEN) w1 with ⟨_ | r, w2⟩
          · rw [hrec] at hr
            simp only at hr ⊢
            rw [hr.1, hr.2.1, hr.2.2.1, hr.2.2.2]; exact hl
          · rw [hrec] at hr
            simp only at hr ⊢
            rw [hr.1, hr.2.1, hr.2.2.1, hr.2.2.2]; exact hl
        · rw [if_neg hit]; exact hl
      · rw [hres] at hl
        exact hl

/-- One record hands exactly one chunk to `_gnutls_encrypt`. -/
theorem send_record_encrypts (env : Env X) (type : Nat) (data : List Nat) (off Size : Nat)
    (w : World X) :
    encrypts (send_record env type data off Size w).2.log =
      encrypts w.log ++ [(type, data, off, Size)] := by
  unfold send_record
  simp only [do_Write]
  split
  · simp [encrypts_append, encrypts]
  · split
    · simp [encrypts_append, encrypts]
    · split
      · simp [encrypts_append, encrypts, World.invalidate, World.no_resume]
      · split
        · simp [encrypts_append, encrypts, World.invalidate, World.no_resume]
        · simp [encrypts_append, encrypts]

/-- An alert sent on a valid connection hands exactly the two bytes
`[level, desc]` to `_gnutls_encrypt`, as one record of type alert. -/
theorem send_alert_encrypts (env : Env X) (w : World X) (level desc : Nat)
    (hv : w.state.valid_connection = true) :
    encrypts (_gnutls_send_alert env w level desc).2.log =
      encrypts w.log ++ [(GNUTLS_ALERT, [level, desc], 0, 2)] := by
  have hv' : ¬ (w.state.valid_connection = false) := by simp [hv]
  have h2 : ¬ ((2 : Nat) = 0) := by decide
  have hlt : (2 : Nat) < MAX_ENC_LEN := by decide
  have hr := send_record_encrypts env GNUTLS_ALERT [level, desc] 0 2 w
  unfold _gnutls_send_alert gnutls_send_int
  rw [if_neg h2, if_neg hv']
  simp only [hlt, if_true]
  rw [send_loop]
  simp only [Nat.zero_mul]
  rcases hrec : send_record env GNUTLS_ALERT [level, desc] 0 2 w with ⟨_ | r, w2⟩
  · rw [hrec] at hr
    simp only [send_loop]
    simpa using hr
  · rw [hrec] at hr
    simpa using hr

/-! ## C11: an oversized record -/

/-- C11: for every `gnutls_recv_int` call on a valid connection, not served from
the reassembly buffer, whose record header is read in full (three one-byte
reads and one two-byte read), carries a supported version and declares a length
above 18432: the result is `GNUTLS_E_UNEXPECTED_PACKET_LENGTH`, the connection
ends with `valid == false` (and `resumable == false`), and the transport reads
of the call are exactly the four header reads: the body is never read. -/
theorem recv_oversized_record (env : Env X) (w : World X) (type sizeofdata : Nat)
    (hc : ¬ ((type = GNUTLS_APPLICATION_DATA ∨ type = GNUTLS_HANDSHAKE) ∧
      gnutls_getDataBufferSize type w.state > 0))
    (hv : w.state.valid_connection = true)
    (b1 b2 b3 b4 : List Nat) (x1 x2 x3 x4 : X)
    (h1 : env.Read w.ext 1 false = ((1, b1), x1))
    (h2 : env.Read x1 1 false = ((1, b2), x2))
    (h3 : env.Read x2 1 false = ((1, b3), x3))
    (hver : env.version_is_supported w.state ⟨0, byteAt b2 0, byteAt b3 0⟩ ≠ 0)
    (h4 : env.Read x3 2 false = ((2, b4), x4))
    (hlen : byteAt b4 0 * 256 + byteAt b4 1 > MAX_RECV_SIZE) :
    (gnutls_recv_int env w type sizeofdata).ret =
        Ret.err ErrorCode.GNUTLS_E_UNEXPECTED_PACKET_LENGTH ∧
    (gnutls_recv_int env w type sizeofdata).w.state.valid_connection = false ∧
    (gnutls_recv_int env w type sizeofdata).w.state.resumable = false ∧
    reads (gnutls_recv_int env w type sizeofdata).w.log =
      reads w.log ++ [(1, false), (1, false), (1, false), (2, false)] := by
  have hv' : ¬ (w.state.valid_connection = false) := by simp [hv]
  unfold gnutls_recv_int
  rw [if_neg hc, if_neg hv']
  simp only [do_Read, h1, h2, h3, h4, hver, ne_eq, not_true_eq_false, if_false, if_true,
    hlen]
  refine ⟨trivial, rfl, rfl, ?_⟩
  simp only [World.no_resume, World.invalidate, _gnutls_send_alert]
  rw [(send_int_frame env _ _ _ _).1]
  simp [reads_append, reads]

/-- Witness for C11: a header `23, 3.1, 0xFFFF` followed by body bytes. -/
theorem recv_oversized_record_witness :
    (gnutls_recv_int demoEnv (world0 [23, 3, 1, 255, 255, 9, 9, 9])
      GNUTLS_APPLICATION_DATA 10).ret = Ret.err ErrorCode.GNUTLS_E_UNEXPECTED_PACKET_LENGTH ∧
    (gnutls_recv_int demoEnv (world0 [23, 3, 1, 255, 255, 9, 9, 9])
      GNUTLS_APPLICATION_DATA 10).w.state.valid_connection = false ∧
    (gnutls_recv_int demoEnv (world0 [23, 3, 1, 255, 255, 9, 9, 9])
      GNUTLS_APPLICATION_DATA 10).w.state.resumable = false ∧
    reads (gnutls_recv_int demoEnv (world0 [23, 3, 1, 255, 255, 9, 9, 9])
      GNUTLS_APPLICATION_DATA 10).w.log =
      reads (world0 [23, 3, 1, 255, 255, 9, 9, 9]).log ++
        [(1, false), (1, false), (1, false), (2, false)] :=
  recv_oversized_record demoEnv (world0 [23, 3, 1, 255, 255, 9, 9, 9])
    GNUTLS_APPLICATION_DATA 10 (by decide) (by decide) [23] [3] [1] [255, 255]
    [3, 1, 255, 255, 9, 9, 9] [1, 255, 255, 9, 9, 9] [255, 255, 9, 9, 9] [9, 9, 9]
    (by decide) (by decide) (by decide) (by decide) (by decide) (by decide)


/-! ## C20: a received alert -/

/-- The alert branch of the dispatch (lines 666-691) for a plaintext
`[level, desc]`: the world it returns, case by case. -/
theorem dispatch_alert (env : Env X) (wd : World X) (type sizeofdata level desc : Nat)
    (hl : level = GNUTLS_WARNING ∨ level = GNUTLS_FATAL) (hdesc : desc < 256) :
    (desc = GNUTLS_CLOSE_NOTIFY ∧ level = GNUTLS_WARNING →
      (recv_dispatch env wd type sizeofdata GNUTLS_ALERT [level, desc]).ret =
          Ret.err ErrorCode.GNUTLS_E_CLOSURE_ALERT_RECEIVED ∧
        (type ≠ GNUTLS_ALERT →
          (recv_dispatch env wd type sizeofdata GNUTLS_ALERT [level, desc]).w =
            (gnutls_close_nowait env
              ({ wd with state := { wd.state with last_alert := desc } } : World X)).2) ∧
        (type = GNUTLS_ALERT →
          (recv_dispatch env wd type sizeofdata GNUTLS_ALERT [level, desc]).w =
            ({ wd with state := { wd.state with last_alert := desc } } : World X))) ∧
    (level = GNUTLS_FATAL →
      (recv_dispatch env wd type sizeofdata GNUTLS_ALERT [level, desc]).ret =
          Ret.err ErrorCode.GNUTLS_E_FATAL_ALERT_RECEIVED ∧
        (recv_dispatch env wd type sizeofdata GNUTLS_ALERT [level, desc]).w =
          ({ wd with state := { wd.state with last_alert := desc } } :
            World X).invalidate.no_resume) ∧
    (¬ (desc = GNUTLS_CLOSE_NOTIFY ∧ level = GNUTLS_WARNING) → level ≠ GNUTLS_FATAL →
      (recv_dispatch env wd type sizeofdata GNUTLS_ALERT [level, desc]).ret =
          Ret.err ErrorCode.GNUTLS_E_WARNING_ALERT_RECEIVED ∧
        (recv_dispatch env wd type sizeofdata GNUTLS_ALERT [level, desc]).w =
          ({ wd with state := { wd.state with last_alert := desc } } : World X)) := by
  have hins : ¬ (GNUTLS_ALERT = type ∧
      (type = GNUTLS_APPLICATION_DATA ∨ type = GNUTLS_HANDSHAKE)) := by
    rintro ⟨h, h' | h'⟩
    · rw [h'] at h; exact absurd h (by decide)
    · rw [h'] at h; exact absurd h (by decide)
  have hb0 : byteAt [level, desc] 0 = level := by
    rcases hl with h | h <;> subst h <;> rfl
  have hb1 : byteAt [level, desc] 1 = desc := by
    simp [byteAt, Nat.mod_eq_of_lt hdesc]
  have hwf : GNUTLS_WARNING ≠ GNUTLS_FATAL := by decide
  unfold recv_dispatch
  rw [if_neg hins, if_pos rfl]
  simp only [hb0, hb1]
  by_cases hcn : desc = GNUTLS_CLOSE_NOTIFY ∧ level ≠ GNUTLS_FATAL
  · rw [if_pos hcn]
    have hlw : level = GNUTLS_WARNING := by
      rcases hl with h | h
      · exact h
      · exact absurd h hcn.2
    refine ⟨?_, ?_, ?_⟩
    · intro _
      refine ⟨rfl, ?_, ?_⟩
      · intro hta
        simp only [hta, ne_eq, not_false_eq_true, if_true]
      · intro hta
        simp only [hta, ne_eq, not_true_eq_false, if_false]
    · intro hf
      exact absurd hf hcn.2
    · intro hn _
      exact absurd ⟨hcn.1, hlw⟩ hn
  · rw [if_neg hcn]
    by_cases hf : level = GNUTLS_FATAL
    · rw [if_pos hf]
      refine ⟨?_, ?_, ?_⟩
      · intro h
        rw [h.2] at hf
        exact absurd hf hwf
      · intro _
        exact ⟨rfl, rfl⟩
      · intro _ hnf
        exact absurd hf hnf
    · rw [if_neg hf]
      refine ⟨?_, ?_, ?_⟩
      · intro h
        exact absurd ⟨h.1, hf⟩ hcn
      · intro h
        exact absurd h hf
      · intro _ _
        exact ⟨rfl, rfl⟩

/-- What `gnutls_close_nowait` does on a valid connection when the record
encryption yields `c > 0` bytes and both transport writes are complete: it
encrypts the alert `[warning, close_notify]`, writes the 5 header bytes, writes
the `c` ciphertext bytes, counts the record and invalidates the connection. -/
theorem close_nowait_sent (env : Env X) (wa : World X) (c : Int) (x7 x8 x9 : X)
    (hv : wa.state.valid_connection = true)
    (henc : env.encrypt wa.ext wa.state GNUTLS_ALERT [GNUTLS_WARNING, GNUTLS_CLOSE_NOTIFY] 2 =
      (Ret.val c, x7))
    (hc : 0 < c) (hw1 : env.Write x7 5 = (5, x8)) (hw2 : env.Write x8 c = (c, x9)) :
    (gnutls_close_nowait env wa).2.log =
      wa.log ++ [Event.encrypt GNUTLS_ALERT [GNUTLS_WARNING, GNUTLS_CLOSE_NOTIFY] 0 2,
        Event.write 5, Event.write c] ∧
    (gnutls_close_nowait env wa).2.ext = x9 ∧
    (gnutls_close_nowait env wa).2.state.write_sequence_number =
      (wa.state.write_sequence_number + 1) % 2 ^ 64 ∧
    (gnutls_close_nowait env wa).2.state.valid_connection = false ∧
    (gnutls_close_nowait env wa).2.state.last_alert = wa.state.last_alert := by
  have hv' : ¬ (wa.state.valid_connection = false) := by simp [hv]
  have h2 : ¬ ((2 : Nat) = 0) := by decide
  have hlt : (2 : Nat) < MAX_ENC_LEN := by decide
  have hc' : ¬ (c ≤ 0) := by omega
  have hrec : send_record env GNUTLS_ALERT [GNUTLS_WARNING, GNUTLS_CLOSE_NOTIFY] 0 2 wa =
      (none, { state := { wa.state with write_sequence_number :=
                  (wa.state.write_sequence_number + 1) % 2 ^ 64 },
               ext := x9,
               log := wa.log ++
                 [Event.encrypt GNUTLS_ALERT [GNUTLS_WARNING, GNUTLS_CLOSE_NOTIFY] 0 2] ++
                 [Event.write 5] ++ [Event.write c] }) := by
    unfold send_record
    simp only [List.drop_zero, henc, do_Write, hw1, hw2, hc', ne_eq, not_true_eq_false,
      if_false]
  unfold gnutls_close_nowait _gnutls_send_alert gnutls_send_int
  rw [if_neg h2, if_neg hv']
  simp only [hlt, if_true]
  rw [send_loop]
  simp only [Nat.zero_mul, hrec, send_loop]
  refine ⟨?_, rfl, rfl, rfl, rfl⟩
  simp [World.invalidate]

/-- C20: on a valid connection not served from the reassembly buffer, let a
record of type alert with a supported version and a length of at most 18432 be
read in full and be decrypted successfully, in the state `sd` the connection has
at that point, to the two bytes `[level, desc]` with `level` warning or fatal.
Then `desc` is the last seen alert afterwards, and: if `desc` is close_notify
and `level` is warning, `gnutls_recv_int` returns
`GNUTLS_E_CLOSURE_ALERT_RECEIVED`; when the expected type is not alert it sends
its own close_notify, that is, it hands the alert `[warning, close_notify]` to
the record encryption and, when that yields `c > 0` bytes and the transport
takes them, writes the 5 header bytes and the `c` ciphertext bytes and counts
the record, and the connection is no longer valid; when the expected type is
alert it sends nothing.  If `level` is fatal it sets `valid = false` and
`resumable = false`, returns `GNUTLS_E_FATAL_ALERT_RECEIVED` and sends nothing.
In every other case it returns `GNUTLS_E_WARNING_ALERT_RECEIVED`, sends nothing
and leaves both flags alone. -/
theorem recv_alert_dispatch (env : Env X) (w : World X) (type sizeofdata : Nat)
    (hc : ¬ ((type = GNUTLS_APPLICATION_DATA ∨ type = GNUTLS_HANDSHAKE) ∧
      gnutls_getDataBufferSize type w.state > 0))
    (hv : w.state.valid_connection = true)
    (b1 b2 b3 b4 b5 : List Nat) (x1 x2 x3 x4 x5 x6 : X) (level desc : Nat)
    (sd : GNUTLS_STATE)
    (h1 : env.Read w.ext 1 false = ((1, b1), x1))
    (hrt : byteAt b1 0 = GNUTLS_ALERT)
    (h2 : env.Read x1 1 false = ((1, b2), x2))
    (h3 : env.Read x2 1 false = ((1, b3), x3))
    (hver : env.version_is_supported w.state ⟨0, byteAt b2 0, byteAt b3 0⟩ ≠ 0)
    (h4 : env.Read x3 2 false = ((2, b4), x4))
    (hlen : byteAt b4 0 * 256 + byteAt b4 1 ≤ MAX_RECV_SIZE)
    (h5 : env.Read x4 ((byteAt b4 0 * 256 + byteAt b4 1 : Nat) : Int)
        (decide (type = GNUTLS_APPLICATION_DATA)) =
      ((((byteAt b4 0 * 256 + byteAt b4 1 : Nat) : Int), b5), x5))
    (hsd : sd = { w.state with
      version := ⟨0, byteAt b2 0, byteAt b3 0⟩,
      peek_data_size :=
        if type = GNUTLS_APPLICATION_DATA then ((byteAt b4 0 * 256 + byteAt b4 1 : Nat) : Int)
        else w.state.peek_data_size })
    (hd : env.decrypt x5 sd b5 (byteAt b4 0 * 256 + byteAt b4 1) GNUTLS_ALERT =
        (Except.ok [level, desc], x6))
    (hl : level = GNUTLS_WARNING ∨ level = GNUTLS_FATAL) (hdesc : desc < 256) :
    (gnutls_recv_int env w type sizeofdata).w.state.last_alert = desc ∧
    (desc = GNUTLS_CLOSE_NOTIFY ∧ level = GNUTLS_WARNING →
      (gnutls_recv_int env w type sizeofdata).ret =
          Ret.err ErrorCode.GNUTLS_E_CLOSURE_ALERT_RECEIVED ∧
        (type ≠ GNUTLS_ALERT →
          encrypts (gnutls_recv_int env w type sizeofdata).w.log =
            encrypts w.log ++ [(GNUTLS_ALERT, [GNUTLS_WARNING, GNUTLS_CLOSE_NOTIFY], 0, 2)] ∧
          (gnutls_recv_int env w type sizeofdata).w.state.valid_connection = false ∧
          ∀ (c : Int) (x7 x8 x9 : X),
            env.encrypt x6 { sd with last_alert := desc } GNUTLS_ALERT
              [GNUTLS_WARNING, GNUTLS_CLOSE_NOTIFY] 2 = (Ret.val c, x7) →
            0 < c → env.Write x7 5 = (5, x8) → env.Write x8 c = (c, x9) →
            (gnutls_recv_int env w type sizeofdata).w.log =
              w.log ++ [Event.read 1 false, Event.read 1 false, Event.read 1 false,
                Event.read 2 false,
                Event.read ((byteAt b4 0 * 256 + byteAt b4 1 : Nat) : Int)
                  (decide (type = GNUTLS_APPLICATION_DATA)),
                Event.decrypt (byteAt b4 0 * 256 + byteAt b4 1) GNUTLS_ALERT,
                Event.encrypt GNUTLS_ALERT [GNUTLS_WARNING, GNUTLS_CLOSE_NOTIFY] 0 2,
                Event.write 5, Event.write c] ∧
            (gnutls_recv_int env w type sizeofdata).w.ext = x9 ∧
            (gnutls_recv_int env w type sizeofdata).w.state.write_sequence_number =
              (w.state.write_sequence_number + 1) % 2 ^ 64) ∧
        (type = GNUTLS_ALERT →
          (gnutls_recv_int env w type sizeofdata).w.log =
            w.log ++ [Event.read 1 false, Event.read 1 false, Event.read 1 false,
              Event.read 2 false,
              Event.read ((byteAt b4 0 * 256 + byteAt b4 1 : Nat) : Int)
                (decide (type = GNUTLS_APPLICATION_DATA)),
              Event.decrypt (byteAt b4 0 * 256 + byteAt b4 1) GNUTLS_ALERT] ∧
          (gnutls_recv_int env w type sizeofdata).w.ext = x6 ∧
          (gnutls_recv_int env w type sizeofdata).w.state.valid_connection = true ∧
          (gnutls_recv_int env w type sizeofdata).w.state.write_sequence_number =
            w.state.write_sequence_number)) ∧
    (level = GNUTLS_FATAL →
      (gnutls_recv_int env w type sizeofdata).ret =
          Ret.err ErrorCode.GNUTLS_E_FATAL_ALERT_RECEIVED ∧
        (gnutls_recv_int env w type sizeofdata).w.state.valid_connection = false ∧
        (gnutls_recv_int env w type sizeofdata).w.state.resumable = false ∧
        (gnutls_recv_int env w type sizeofdata).w.log =
          w.log ++ [Event.read 1 false, Event.read 1 false, Event.read 1 false,
            Event.read 2 false,
            Event.read ((byteAt b4 0 * 256 + byteAt b4 1 : Nat) : Int)
              (decide (type = GNUTLS_APPLICATION_DATA)),
            Event.decrypt (byteAt b4 0 * 256 + byteAt b4 1) GNUTLS_ALERT] ∧
        (gnutls_recv_int env w type sizeofdata).w.ext = x6) ∧
    (¬ (desc = GNUTLS_CLOSE_NOTIFY ∧ level = GNUTLS_WARNING) → level ≠ GNUTLS_FATAL →
      (gnutls_recv_int env w type sizeofdata).ret =
          Ret.err ErrorCode.GNUTLS_E_WARNING_ALERT_RECEIVED ∧
        (gnutls_recv_int env w type sizeofdata).w.state.valid_connection = true ∧
        (gnutls_recv_int env w type sizeofdata).w.state.resumable = w.state.resumable ∧
        (gnutls_recv_int env w type sizeofdata).w.log =
          w.log ++ [Event.read 1 false, Event.read 1 false, Event.read 1 false,
            Event.read 2 false,
            Event.read ((byteAt b4 0 * 256 + byteAt b4 1 : Nat) : Int)
              (decide (type = GNUTLS_APPLICATION_DATA)),
            Event.decrypt (byteAt b4 0 * 256 + byteAt b4 1) GNUTLS_ALERT] ∧
        (gnutls_recv_int env w type sizeofdata).w.ext = x6) := by
  have hv' : ¬ (w.state.valid_connection = false) := by simp [hv]
  have hlen' : ¬ (byteAt b4 0 * 256 + byteAt b4 1 > MAX_RECV_SIZE) := by omega
  have hccs : ¬ (type = GNUTLS_CHANGE_CIPHER_SPEC ∧ GNUTLS_ALERT = GNUTLS_CHANGE_CIPHER_SPEC) := by
    intro h; exact absurd h.2 (by decide)
  have key : gnutls_recv_int env w type sizeofdata =
      recv_dispatch env
        (⟨sd, x6, w.log ++ [Event.read 1 false, Event.read 1 false, Event.read 1 false,
            Event.read 2 false,
            Event.read ((byteAt b4 0 * 256 + byteAt b4 1 : Nat) : Int)
              (decide (type = GNUTLS_APPLICATION_DATA)),
            Event.decrypt (byteAt b4 0 * 256 + byteAt b4 1) GNUTLS_ALERT]⟩ : World X)
        type sizeofdata GNUTLS_ALERT [level, desc] := by
    subst hsd
    unfold gnutls_recv_int
    rw [if_neg hc, if_neg hv']
    simp only [do_Read, h1, h2, h3, h4, hver, ne_eq, not_true_eq_false, if_false, if_true,
      hlen', hrt]
    unfold recv_body
    simp only [do_Read, h5, ne_eq, not_true_eq_false, if_false, hccs]
    by_cases hta : type = GNUTLS_APPLICATION_DATA
    · simp only [hta, if_true] at hd ⊢
      simp only [hd, List.append_assoc, List.singleton_append, List.cons_append,
        List.nil_append]
    · simp only [hta, if_false] at hd ⊢
      simp only [hd, List.append_assoc, List.singleton_append, List.cons_append,
        List.nil_append]
  have hsdv : sd.valid_connection = true := by rw [hsd]; exact hv
  have hsdr : sd.resumable = w.state.resumable := by rw [hsd]
  have hsdw : sd.write_sequence_number = w.state.write_sequence_number := by rw [hsd]
  have hda := dispatch_alert env
    (⟨sd, x6, w.log ++ [Event.read 1 false, Event.read 1 false, Event.read 1 false,
        Event.read 2 false,
        Event.read ((byteAt b4 0 * 256 + byteAt b4 1 : Nat) : Int)
          (decide (type = GNUTLS_APPLICATION_DATA)),
        Event.decrypt (byteAt b4 0 * 256 + byteAt b4 1) GNUTLS_ALERT]⟩ : World X)
    type sizeofdata level desc hl hdesc
  rw [key]
  refine ⟨?_, ?_, ?_, ?_⟩
  · by_cases hcw : desc = GNUTLS_CLOSE_NOTIFY ∧ level = GNUTLS_WARNING
    · by_cases hta : type = GNUTLS_ALERT
      · rw [((hda.1 hcw).2.2 hta)]
      · rw [((hda.1 hcw).2.1 hta)]
        simp only [gnutls_close_nowait, World.invalidate, _gnutls_send_alert]
        exact (send_int_frame env _ _ _ _).2.1
    · by_cases hf : level = GNUTLS_FATAL
      · rw [(hda.2.1 hf).2]
        rfl
      · rw [(hda.2.2 hcw hf).2]
  · intro hcw
    refine ⟨(hda.1 hcw).1, ?_, ?_⟩
    · intro hta
      rw [(hda.1 hcw).2.1 hta]
      refine ⟨?_, rfl, ?_⟩
      · simp only [gnutls_close_nowait, World.invalidate]
        rw [send_alert_encrypts env _ _ _ hsdv]
        simp [encrypts_append, encrypts]
      · intro c x7 x8 x9 henc hcpos hw1 hw2
        have hs := close_nowait_sent env
          (⟨{ sd with last_alert := desc }, x6,
            w.log ++ [Event.read 1 false, Event.read 1 false, Event.read 1 false,
              Event.read 2 false,
              Event.read ((byteAt b4 0 * 256 + byteAt b4 1 : Nat) : Int)
                (decide (type = GNUTLS_APPLICATION_DATA)),
              Event.decrypt (byteAt b4 0 * 256 + byteAt b4 1) GNUTLS_ALERT]⟩ : World X)
          c x7 x8 x9 hsdv henc hcpos hw1 hw2
        refine ⟨?_, hs.2.1, ?_⟩
        · rw [hs.1]
          simp only [List.append_assoc, List.cons_append, List.nil_append]
        · rw [hs.2.2.1]
          simp only [hsdw]
    · intro hta
      rw [(hda.1 hcw).2.2 hta]
      exact ⟨rfl, rfl, hsdv, hsdw⟩
  · intro hf
    refine ⟨(hda.2.1 hf).1, ?_⟩
    rw [(hda.2.1 hf).2]
    exact ⟨rfl, rfl, rfl, rfl⟩
  · intro hcw hf
    refine ⟨(hda.2.2 hcw hf).1, ?_⟩
    rw [(hda.2.2 hcw hf).2]
    exact ⟨hsdv, hsdr, rfl, rfl⟩

/-- Witness for C20: a warning close_notify received while application data is
expected (the own close_notify is encrypted to 22 bytes and written), the same
alert received while an alert is expected (nothing is sent), a fatal alert 40,
and a warning alert 100. -/
theorem recv_alert_dispatch_witness :
    ((gnutls_recv_int demoEnv (world0 [21, 3, 1, 0, 2, 1, 0]) GNUTLS_APPLICATION_DATA 10).ret =
        Ret.err ErrorCode.GNUTLS_E_CLOSURE_ALERT_RECEIVED ∧
      (gnutls_recv_int demoEnv (world0 [21, 3, 1, 0, 2, 1, 0])
        GNUTLS_APPLICATION_DATA 10).w.log =
        [Event.read 1 false, Event.read 1 false, Event.read 1 false, Event.read 2 false,
          Event.read 2 true, Event.decrypt 2 GNUTLS_ALERT,
          Event.encrypt GNUTLS_ALERT [GNUTLS_WARNING, GNUTLS_CLOSE_NOTIFY] 0 2,
          Event.write 5, Event.write 22] ∧
      (gnutls_recv_int demoEnv (world0 [21, 3, 1, 0, 2, 1, 0])
        GNUTLS_APPLICATION_DATA 10).w.state.write_sequence_number = 1) ∧
    ((gnutls_recv_int demoEnv (world0 [21, 3, 1, 0, 2, 1, 0]) GNUTLS_ALERT 10).ret =
        Ret.err ErrorCode.GNUTLS_E_CLOSURE_ALERT_RECEIVED ∧
      (gnutls_recv_int demoEnv (world0 [21, 3, 1, 0, 2, 1, 0]) GNUTLS_ALERT 10).w.log =
        [Event.read 1 false, Event.read 1 false, Event.read 1 false, Event.read 2 false,
          Event.read 2 false, Event.decrypt 2 GNUTLS_ALERT]) ∧
    ((gnutls_recv_int demoEnv (world0 [21, 3, 1, 0, 2, 2, 40]) GNUTLS_HANDSHAKE 10).ret =
        Ret.err ErrorCode.GNUTLS_E_FATAL_ALERT_RECEIVED ∧
      (gnutls_recv_int demoEnv (world0 [21, 3, 1, 0, 2, 2, 40])
        GNUTLS_HANDSHAKE 10).w.state.valid_connection = false ∧
      (gnutls_recv_int demoEnv (world0 [21, 3, 1, 0, 2, 2, 40])
        GNUTLS_HANDSHAKE 10).w.state.last_alert = 40) ∧
    (gnutls_recv_int demoEnv (world0 [21, 3, 1, 0, 2, 1, 100]) GNUTLS_ALERT 10).ret =
        Ret.err ErrorCode.GNUTLS_E_WARNING_ALERT_RECEIVED := by
  refine ⟨?_, ?_, ?_, ?_⟩
  · have h := (recv_alert_dispatch demoEnv (world0 [21, 3, 1, 0, 2, 1, 0])
      GNUTLS_APPLICATION_DATA 10 (by decide) (by decide) [21] [3] [1] [0, 2] [1, 0]
      [3, 1, 0, 2, 1, 0] [1, 0, 2, 1, 0] [0, 2, 1, 0] [1, 0] [1, 0] [1, 0] 1 0
      ({ state0 with version := ⟨0, 3, 1⟩, peek_data_size := 2 } : GNUTLS_STATE)
      (by decide) (by decide) (by decide) (by decide) (by decide) (by decide) (by decide)
      (by decide) rfl rfl (by decide) (by decide)).2.1 (by decide)
    have hs := (h.2.1 (by decide)).2.2 22 [1, 0] [1, 0] [1, 0] rfl (by decide) rfl rfl
    exact ⟨h.1, hs.1, hs.2.2⟩
  · have h := (recv_alert_dispatch demoEnv (world0 [21, 3, 1, 0, 2, 1, 0])
      GNUTLS_ALERT 10 (by decide) (by decide) [21] [3] [1] [0, 2] [1, 0]
      [3, 1, 0, 2, 1, 0] [1, 0, 2, 1, 0] [0, 2, 1, 0] [1, 0] [] [] 1 0
      ({ state0 with version := ⟨0, 3, 1⟩ } : GNUTLS_STATE)
      (by decide) (by decide) (by decide) (by decide) (by decide) (by decide) (by decide)
      (by decide) rfl rfl (by decide) (by decide)).2.1 (by decide)
    exact ⟨h.1, (h.2.2 (by decide)).1⟩
  · have h := recv_alert_dispatch demoEnv (world0 [21, 3, 1, 0, 2, 2, 40])
      GNUTLS_HANDSHAKE 10 (by decide) (by decide) [21] [3] [1] [0, 2] [2, 40]
      [3, 1, 0, 2, 2, 40] [1, 0, 2, 2, 40] [0, 2, 2, 40] [2, 40] [] [] 2 40
      ({ state0 with version := ⟨0, 3, 1⟩ } : GNUTLS_STATE)
      (by decide) (by decide) (by decide) (by decide) (by decide) (by decide) (by decide)
      (by decide) rfl rfl (by decide) (by decide)
    exact ⟨(h.2.2.1 (by decide)).1, (h.2.2.1 (by decide)).2.1, h.1⟩
  · exact ((recv_alert_dispatch demoEnv (world0 [21, 3, 1, 0, 2, 1, 100])
      GNUTLS_ALERT 10 (by decide) (by decide) [21] [3] [1] [0, 2] [1, 100]
      [3, 1, 0, 2, 1, 100] [1, 0, 2, 1, 100] [0, 2, 1, 100] [1, 100] [] [] 1 100
      ({ state0 with version := ⟨0, 3, 1⟩ } : GNUTLS_STATE)
      (by decide) (by decide) (by decide) (by decide) (by decide) (by decide) (by decide)
      (by decide) rfl rfl (by decide) (by decide)).2.2.2 (by decide) (by decide)).1

/-! ## The padding helper -/

/-- The function `_gnutls_range_max_lh_pad` in terms of its local variables. -/
theorem max_lh_pad_eq (s : gnutls_session_t) (dl mf : Int) :
    _gnutls_range_max_lh_pad s dl mf =
      if s.epoch_get < 0 then Ret.err ErrorCode.GNUTLS_E_INVALID_REQUEST
      else
        match s.cipher_is_block with
        | cipher_type_t.CIPHER_STREAM => Ret.val (lh_this_pad s dl mf)
        | cipher_type_t.CIPHER_BLOCK =>
          if Int.tmod (lh_padded_length s dl mf) s.block_size > lh_this_pad s dl mf then
            Ret.val (lh_this_pad s dl mf)
          else
            Ret.val (lh_this_pad s dl mf - Int.tmod (lh_padded_length s dl mf) s.block_size)
        | cipher_type_t.CIPHER_OTHER => Ret.err ErrorCode.GNUTLS_E_INTERNAL_ERROR :=
  rfl

/-- When `_gnutls_range_max_lh_pad` returns a value, the epoch lookup succeeded
and the value is the tentative pad, or (block cipher) the tentative pad less the
remainder. -/
theorem max_lh_pad_val (s : gnutls_session_t) (dl mf p : Int)
    (h : _gnutls_range_max_lh_pad s dl mf = Ret.val p) :
    0 ≤ s.epoch_get ∧
    ((s.cipher_is_block = cipher_type_t.CIPHER_STREAM ∧ p = lh_this_pad s dl mf) ∨
      (s.cipher_is_block = cipher_type_t.CIPHER_BLOCK ∧
        Int.tmod (lh_padded_length s dl mf) s.block_size > lh_this_pad s dl mf ∧
        p = lh_this_pad s dl mf) ∨
      (s.cipher_is_block = cipher_type_t.CIPHER_BLOCK ∧
        Int.tmod (lh_padded_length s dl mf) s.block_size ≤ lh_this_pad s dl mf ∧
        p = lh_this_pad s dl mf - Int.tmod (lh_padded_length s dl mf) s.block_size)) := by
  rw [max_lh_pad_eq] at h
  by_cases he : s.epoch_get < 0
  · rw [if_pos he] at h
    exact absurd h (by simp)
  · rw [if_neg he] at h
    refine ⟨by omega, ?_⟩
    rcases hc : s.cipher_is_block with _ | _ | _
    · rw [hc] at h
      simp only [Ret.val.injEq] at h
      left
      exact ⟨rfl, h.symm⟩
    · rw [hc] at h
      simp only at h
      right
      by_cases hgt : Int.tmod (lh_padded_length s dl mf) s.block_size > lh_this_pad s dl mf
      · rw [if_pos hgt] at h
        simp only [Ret.val.injEq] at h
        left
        exact ⟨rfl, hgt, h.symm⟩
      · rw [if_neg hgt] at h
        simp only [Ret.val.injEq] at h
        right
        exact ⟨rfl, by omega, h.symm⟩
    · rw [hc] at h
      exact absurd h (by simp)

/-- For a data length below the maximum fragment, the pad returned by
`_gnutls_range_max_lh_pad` is between 0 and `max_frag - data_length`. -/
theorem max_lh_pad_bounds (s : gnutls_session_t) (dl mf p : Int)
    (hdl : 0 ≤ dl) (hlt : dl < mf) (hmp : 0 ≤ lh_max_pad s) (htag : 0 ≤ s.tag_size)
    (h : _gnutls_range_max_lh_pad s dl mf = Ret.val p) :
    0 ≤ p ∧ p ≤ mf - dl := by
  have hv := (max_lh_pad_val s dl mf p h).2
  have ht0 : 0 ≤ lh_this_pad s dl mf := by unfold lh_this_pad; omega
  have ht1 : lh_this_pad s dl mf ≤ mf - dl := by unfold lh_this_pad; omega
  have hf : 0 < lh_fixed_pad s := by unfold lh_fixed_pad; split <;> decide
  have hsum : 0 ≤ lh_padded_length s dl mf := by unfold lh_padded_length; omega
  have hr := Int.tmod_nonneg s.block_size hsum
  rcases hv with ⟨_, hp⟩ | ⟨_, _, hp⟩ | ⟨_, hle, hp⟩
  · omega
  · omega
  · omega

/-! ## C21: `_gnutls_range_max_lh_pad` and its reference definition -/

/-- C21: when the epoch lookup succeeds, with `t = min(max_pad, max_frag -
data_length)`: for a stream cipher `_gnutls_range_max_lh_pad` returns `t`; for
a block cipher with block size `B > 0` and `r` the C remainder of
`data_length + t + tag_size + fixed_pad` by `B`, it returns `t` when `r > t` and
otherwise `t - r`, and then `data_length + result + tag_size + fixed_pad` is a
multiple of `B`; whenever that sum is non-negative (so that the C remainder is
the mathematical one) the returned value is the reference definition. -/
theorem max_lh_pad_refines (s : gnutls_session_t) (dl mf : Int) (he : 0 ≤ s.epoch_get) :
    (s.cipher_is_block = cipher_type_t.CIPHER_STREAM →
      _gnutls_range_max_lh_pad s dl mf = Ret.val (lh_this_pad s dl mf) ∧
      _gnutls_range_max_lh_pad s dl mf =
        Ret.val (max_lh_pad_reference false s.block_size (lh_max_pad s) (lh_fixed_pad s)
          s.tag_size dl mf)) ∧
    (s.cipher_is_block = cipher_type_t.CIPHER_BLOCK → 0 < s.block_size →
      (Int.tmod (lh_padded_length s dl mf) s.block_size > lh_this_pad s dl mf →
        _gnutls_range_max_lh_pad s dl mf = Ret.val (lh_this_pad s dl mf)) ∧
      (Int.tmod (lh_padded_length s dl mf) s.block_size ≤ lh_this_pad s dl mf →
        _gnutls_range_max_lh_pad s dl mf =
          Ret.val (lh_this_pad s dl mf - Int.tmod (lh_padded_length s dl mf) s.block_size) ∧
        (dl + (lh_this_pad s dl mf - Int.tmod (lh_padded_length s dl mf) s.block_size)
          + s.tag_size + lh_fixed_pad s) % s.block_size = 0 ∧
        Int.tmod (dl + (lh_this_pad s dl mf - Int.tmod (lh_padded_length s dl mf) s.block_size)
          + s.tag_size + lh_fixed_pad s) s.block_size = 0) ∧
      (0 ≤ lh_padded_length s dl mf →
        _gnutls_range_max_lh_pad s dl mf =
          Ret.val (max_lh_pad_reference true s.block_size (lh_max_pad s) (lh_fixed_pad s)
            s.tag_size dl mf))) := by
  have he' : ¬ (s.epoch_get < 0) := by omega
  rw [max_lh_pad_eq, if_neg he']
  refine ⟨?_, ?_⟩
  · intro hc
    rw [hc]
    exact ⟨rfl, rfl⟩
  · intro hc hB
    rw [hc]
    simp only
    have hdvd : s.block_size ∣ lh_padded_length s dl mf -
        Int.tmod (lh_padded_length s dl mf) s.block_size := by
      have := Int.tmod_add_tdiv (lh_padded_length s dl mf) s.block_size
      exact ⟨(lh_padded_length s dl mf).tdiv s.block_size, by omega⟩
    have hsum : dl + (lh_this_pad s dl mf - Int.tmod (lh_padded_length s dl mf) s.block_size)
          + s.tag_size + lh_fixed_pad s =
        lh_padded_length s dl mf - Int.tmod (lh_padded_length s dl mf) s.block_size := by
      unfold lh_padded_length
      omega
    refine ⟨?_, ?_, ?_⟩
    · intro hgt
      rw [if_pos hgt]
    · intro hle
      refine ⟨?_, ?_, ?_⟩
      · rw [if_neg (not_lt.mpr hle)]
      · rw [hsum]
        exact Int.emod_eq_zero_of_dvd hdvd
      · rw [hsum]
        exact Int.tmod_eq_zero_of_dvd hdvd
    · intro hnn
      have hre : Int.tmod (lh_padded_length s dl mf) s.block_size =
          lh_padded_length s dl mf % s.block_size :=
        Int.tmod_eq_emod hnn (by omega)
      rw [hre]
      have href : max_lh_pad_reference true s.block_size (lh_max_pad s) (lh_fixed_pad s)
            s.tag_size dl mf =
          if lh_padded_length s dl mf % s.block_size > lh_this_pad s dl mf then
            lh_this_pad s dl mf
          else lh_this_pad s dl mf - lh_padded_length s dl mf % s.block_size := rfl
      rw [href]
      split <;> rfl

/-- Witness for C21: the block cipher of `demoSession` (block size 16, tag 20,
one fixed pad byte) with 100 bytes of data: `t = 255`, `r = 376 mod 16 = 8`, so
the pad is 247 and `100 + 247 + 20 + 1 = 368 = 23 * 16`; with 16380 bytes,
`t = 4 < r = 5` and the pad is 4. -/
theorem max_lh_pad_refines_witness :
    _gnutls_range_max_lh_pad demoSession 100 16384 = Ret.val 247 ∧
    _gnutls_range_max_lh_pad demoSession 16380 16384 = Ret.val 4 ∧
    _gnutls_range_max_lh_pad demoSession 100 16384 =
      Ret.val (max_lh_pad_reference true 16 255 1 20 100 16384) :=
  ⟨((((max_lh_pad_refines demoSession 100 16384 (by decide)).2 rfl (by decide)).2.1
      (by decide)).1).trans (by decide),
    ((((max_lh_pad_refines demoSession 16380 16384 (by decide)).2 rfl (by decide)).1
      (by decide))).trans (by decide),
    (((max_lh_pad_refines demoSession 100 16384 (by decide)).2 rfl (by decide)).2.2
      (by decide)).trans (by decide)⟩


/-! ## The padding case of `gnutls_range_split` -/

/-- A successful split of a range `[low, high]` with `low < high` and `low`
below the maximum fragment: the small range is `[low, low + min(p, high - low)]`
for the pad `p` returned by `_gnutls_range_max_lh_pad`, and the remainder starts
at 0. -/
theorem split_pad_case (s : gnutls_session_t) (orig sm rm small rem : gnutls_range_st)
    (hlo : orig.low < orig.high) (hhi : orig.high < 2 ^ 63)
    (hlt : (orig.low : Int) < s.max_user_send_size) (hmf : s.max_user_send_size < 2 ^ 31)
    (hmp : 0 ≤ lh_max_pad s) (htag : 0 ≤ s.tag_size)
    (hs : gnutls_range_split s orig sm rm = (Ret.val 0, small, rem)) :
    ∃ p : Int, _gnutls_range_max_lh_pad s orig.low s.max_user_send_size = Ret.val p ∧
      0 ≤ p ∧ p ≤ s.max_user_send_size - orig.low ∧
      (small.low : Int) = orig.low ∧
      (small.high : Int) = orig.low + min p ((orig.high : Int) - orig.low) ∧
      rem.low = 0 ∧
      (rem.high : Int) = orig.high - (orig.low + min p ((orig.high : Int) - orig.low)) := by
  obtain ⟨lo, hi⟩ := orig
  simp only at hlo hhi hlt ⊢
  have hlo' : wrap64 (lo : Int) = lo := wrap64_eq (by omega) (by omega)
  have hhi' : wrap64 (hi : Int) = hi := wrap64_eq (by omega) (by omega)
  have h1 : ¬ ((hi : Int) = lo) := by omega
  have h2 : ¬ ((lo : Int) ≥ s.max_user_send_size) := by omega
  unfold gnutls_range_split at hs
  simp only [hlo', hhi'] at hs
  rw [if_neg h1, if_neg h2] at hs
  rcases hp : _gnutls_range_max_lh_pad s lo s.max_user_send_size with p | e
  · rw [hp] at hs
    simp only at hs
    have hb := max_lh_pad_bounds s lo s.max_user_send_size p (by omega) hlt hmp htag hp
    have e1 : wrap32 p = p := wrap32_eq (by omega) (by omega)
    rw [e1, if_neg (by omega)] at hs
    have hq1 : 0 ≤ min p ((hi : Int) - lo) := by omega
    have hq2 : min p ((hi : Int) - lo) ≤ hi - lo := by omega
    refine ⟨p, rfl, hb.1, hb.2, ?_⟩
    generalize min p ((hi : Int) - lo) = q at hq1 hq2 hs ⊢
    have e3 : (usize (lo : Int) : Int) = lo := usize_eq (by omega) (by omega)
    have e4 : (usize ((lo : Int) + q) : Int) = lo + q := usize_eq (by omega) (by omega)
    have e5 : (usize ((hi : Int) - (lo + q)) : Int) = hi - (lo + q) :=
      usize_eq (by omega) (by omega)
    have e6 : usize 0 = 0 := by unfold usize; decide
    have hsm := congrArg (fun t => t.2.1) hs
    have hrm := congrArg (fun t => t.2.2) hs
    simp only [_gnutls_set_range] at hsm hrm
    rw [← hsm, ← hrm]
    simp only [e6]
    exact ⟨e3, e4, trivial, e5⟩
  · rw [hp] at hs
    have := congrArg Prod.fst hs
    simp at this

/-! ## C16: block alignment of a planned record -/

/-- C16 as stated fails: for the block cipher of `demoSession` (block size 16,
tag 20, one fixed pad byte, pad ceiling 255) the range `[100, 105]` is in the
padding case and is planned as the record `[100, 105]`; its pad 5 is strictly
below the pad ceiling, and `100 + 5 + 20 + 1 = 126` is not a multiple of 16. -/
theorem range_split_unaligned :
    demoSession.cipher_is_block = cipher_type_t.CIPHER_BLOCK ∧
    gnutls_range_split demoSession ⟨100, 105⟩ ⟨0, 0⟩ ⟨0, 0⟩ =
      (Ret.val 0, ⟨100, 105⟩, ⟨0, 0⟩) ∧
    ((105 : Int) - 100 < lh_max_pad demoSession) ∧
    ((100 : Int) + (105 - 100) + demoSession.tag_size + lh_fixed_pad demoSession) %
      demoSession.block_size = 14 := by
  decide

/-- C16, amended: for a block cipher with block size `B > 0`, a record planned
by a successful `gnutls_range_split` in its padding case (`low < high`, `low`
below the maximum fragment) satisfies
`(small.low + pad + tag_size + fixed_pad) mod B = 0` with
`pad = small.high - small.low`, whenever the pad is not clamped by the width of
the range (`pad < high - low`) and the remainder of the tentative pad `t` does
not exceed `t`. -/
theorem range_split_aligned (s : gnutls_session_t) (orig sm rm small rem : gnutls_range_st)
    (hc : s.cipher_is_block = cipher_type_t.CIPHER_BLOCK) (hB : 0 < s.block_size)
    (hlo : orig.low < orig.high) (hhi : orig.high < 2 ^ 63)
    (hlt : (orig.low : Int) < s.max_user_send_size) (hmf : s.max_user_send_size < 2 ^ 31)
    (hmp : 0 ≤ lh_max_pad s) (htag : 0 ≤ s.tag_size)
    (hs : gnutls_range_split s orig sm rm = (Ret.val 0, small, rem))
    (hnc : (small.high : Int) - small.low < (orig.high : Int) - orig.low)
    (hr : Int.tmod (lh_padded_length s orig.low s.max_user_send_size) s.block_size ≤
      lh_this_pad s orig.low s.max_user_send_size) :
    small.low = orig.low ∧
    ((small.low : Int) + ((small.high : Int) - small.low) + s.tag_size + lh_fixed_pad s) %
      s.block_size = 0 := by
  have _ := hB
  obtain ⟨p, hp, hp0, hp1, hsl, hsh, _, _⟩ :=
    split_pad_case s orig sm rm small rem hlo hhi hlt hmf hmp htag hs
  have hv := (max_lh_pad_val s orig.low s.max_user_send_size p hp).2
  have hpe : p = lh_this_pad s orig.low s.max_user_send_size -
      Int.tmod (lh_padded_length s orig.low s.max_user_send_size) s.block_size := by
    rcases hv with ⟨h, _⟩ | ⟨_, h, _⟩ | ⟨_, _, h⟩
    · rw [hc] at h
      exact absurd h (by decide)
    · omega
    · exact h
  have hq : (small.high : Int) - small.low = p := by omega
  have hdvd : s.block_size ∣ lh_padded_length s orig.low s.max_user_send_size -
      Int.tmod (lh_padded_length s orig.low s.max_user_send_size) s.block_size := by
    have := Int.tmod_add_tdiv (lh_padded_length s orig.low s.max_user_send_size) s.block_size
    exact ⟨(lh_padded_length s orig.low s.max_user_send_size).tdiv s.block_size, by omega⟩
  have hsum : (small.low : Int) + ((small.high : Int) - small.low) + s.tag_size +
        lh_fixed_pad s =
      lh_padded_length s orig.low s.max_user_send_size -
        Int.tmod (lh_padded_length s orig.low s.max_user_send_size) s.block_size := by
    rw [hq, hsl, hpe]
    unfold lh_padded_length
    omega
  refine ⟨by omega, ?_⟩
  rw [hsum]
  exact Int.emod_eq_zero_of_dvd hdvd

/-- Witness for C16: the range `[100, 1000]` is planned as the record
`[100, 347]`, and `100 + 247 + 20 + 1 = 368 = 23 * 16`. -/
theorem range_split_aligned_witness :
    gnutls_range_split demoSession ⟨100, 1000⟩ ⟨0, 0⟩ ⟨0, 0⟩ =
      (Ret.val 0, ⟨100, 347⟩, ⟨0, 653⟩) ∧
    (100 = 100 ∧ ((100 : Int) + ((347 : Int) - 100) + 20 + 1) % 16 = 0) :=
  ⟨by decide,
    range_split_aligned demoSession ⟨100, 1000⟩ ⟨0, 0⟩ ⟨0, 0⟩ ⟨100, 347⟩ ⟨0, 653⟩
      (by decide) (by decide) (by decide) (by decide) (by decide) (by decide) (by decide)
      (by decide) (by decide) (by decide) (by decide)⟩

/-! ## C22, C23, C24: the ranges returned by a split -/

/-- C22, evaluated at `orig = [2^32 + 16389, 2^32 + 16389]` with a maximum
fragment of 16384: the split succeeds with the small range `[16384, 16384]` and
the remainder `[5, 5]`, because `int rem = orig_high - length` keeps the low 32
bits only; the lower bounds add up to 16389, not to `orig.low`, and so do the
upper bounds. -/
theorem range_split_drops_4G :
    (gnutls_range_split demoSession ⟨4294983685, 4294983685⟩ ⟨0, 0⟩ ⟨0, 0⟩).1 = Ret.val 0 ∧
    (gnutls_range_split demoSession ⟨4294983685, 4294983685⟩ ⟨0, 0⟩ ⟨0, 0⟩).2.1 =
      ⟨16384, 16384⟩ ∧
    (gnutls_range_split demoSession ⟨4294983685, 4294983685⟩ ⟨0, 0⟩ ⟨0, 0⟩).2.2 = ⟨5, 5⟩ ∧
    (gnutls_range_split demoSession ⟨4294983685, 4294983685⟩ ⟨0, 0⟩ ⟨0, 0⟩).2.1.low +
      (gnutls_range_split demoSession ⟨4294983685, 4294983685⟩ ⟨0, 0⟩ ⟨0, 0⟩).2.2.low ≠
        4294983685 ∧
    (gnutls_range_split demoSession ⟨4294983685, 4294983685⟩ ⟨0, 0⟩ ⟨0, 0⟩).2.1.high +
      (gnutls_range_split demoSession ⟨4294983685, 4294983685⟩ ⟨0, 0⟩ ⟨0, 0⟩).2.2.high ≠
        4294983685 := by
  decide

/-- C23 as stated fails: for `demoSession` (maximum fragment 16384, block size
16, tag size 20) the range `[0, 2^64 - 1]` has `0 <= low <= high` as `size_t`
values, the split succeeds, and the small range is `[0, 2^64 - 1]`, far above
the maximum fragment: `(ssize_t) orig->high` is `-1`, so the pad
`MIN (ret, orig_high - orig_low)` is `-1` and `orig_low + this_pad` is stored as
`2^64 - 1`.  The same happens for `[100, 2^64 - 1]`. -/
theorem range_split_high_above_ssize :
    (0 : Nat) ≤ 18446744073709551615 ∧
    0 < demoSession.max_user_send_size ∧ 0 < demoSession.block_size ∧
    0 ≤ demoSession.tag_size ∧
    gnutls_range_split demoSession ⟨0, 18446744073709551615⟩ ⟨0, 0⟩ ⟨0, 0⟩ =
      (Ret.val 0, ⟨0, 18446744073709551615⟩, ⟨0, 0⟩) ∧
    ¬ (((18446744073709551615 : Nat) : Int) ≤ demoSession.max_user_send_size) ∧
    gnutls_range_split demoSession ⟨100, 18446744073709551615⟩ ⟨0, 0⟩ ⟨0, 0⟩ =
      (Ret.val 0, ⟨100, 18446744073709551615⟩, ⟨0, 0⟩) := by
  decide

/-- C23, amended: for every range `orig` with `0 <= low <= high < 2^63` (the
bounds are non-negative as the `ssize_t` values the function works on), a
maximum fragment `0 < max_frag < 2^31`, a non-negative pad ceiling, a positive
block size and a non-negative tag size, a successful split returns
`small.low <= small.high <= max_frag` and `rem.low <= rem.high`; and the pad
returned by `_gnutls_range_max_lh_pad` for `0 <= data_length < max_frag` is
between 0 and `max_frag - data_length`. -/
theorem range_split_well_formed (s : gnutls_session_t)
    (orig sm rm small rem : gnutls_range_st)
    (hlh : orig.low ≤ orig.high) (hhi : orig.high < 2 ^ 63)
    (hmf : 0 < s.max_user_send_size) (hmf2 : s.max_user_send_size < 2 ^ 31)
    (hmp : 0 ≤ lh_max_pad s) (hB : 0 < s.block_size) (htag : 0 ≤ s.tag_size)
    (hs : gnutls_range_split s orig sm rm = (Ret.val 0, small, rem)) :
    small.low ≤ small.high ∧ (small.high : Int) ≤ s.max_user_send_size ∧
    rem.low ≤ rem.high ∧
    (∀ dl p : Int, 0 ≤ dl → dl < s.max_user_send_size →
      _gnutls_range_max_lh_pad s dl s.max_user_send_size = Ret.val p →
        0 ≤ p ∧ p ≤ s.max_user_send_size - dl) := by
  have _ := hB
  have hpad : ∀ dl p : Int, 0 ≤ dl → dl < s.max_user_send_size →
      _gnutls_range_max_lh_pad s dl s.max_user_send_size = Ret.val p →
        0 ≤ p ∧ p ≤ s.max_user_send_size - dl :=
    fun dl p h0 h1 h => max_lh_pad_bounds s dl s.max_user_send_size p h0 h1 hmp htag h
  by_cases h1 : orig.high = orig.low
  · obtain ⟨lo, hi⟩ := orig
    simp only at hlh hhi h1
    subst h1
    have hlo' : wrap64 (hi : Int) = hi := wrap64_eq (by omega) (by omega)
    unfold gnutls_range_split at hs
    simp only [hlo', if_true] at hs
    have hm1 : 0 ≤ min (hi : Int) s.max_user_send_size := by omega
    have hm2 : min (hi : Int) s.max_user_send_size ≤ s.max_user_send_size := by omega
    generalize min (hi : Int) s.max_user_send_size = m at hm1 hm2 hs
    have e1 : wrap32 m = m := wrap32_eq (by omega) (by omega)
    have e3 : (usize m : Int) = m := usize_eq hm1 (by omega)
    have hsm := congrArg (fun t => t.2.1) hs
    have hrm := congrArg (fun t => t.2.2) hs
    simp only [_gnutls_set_range, e1] at hsm hrm
    rw [← hsm, ← hrm]
    simp only
    exact ⟨le_refl _, by omega, le_refl _, hpad⟩
  · by_cases h2 : (orig.low : Int) ≥ s.max_user_send_size
    · obtain ⟨lo, hi⟩ := orig
      simp only at hlh hhi h1 h2
      have hlo' : wrap64 (lo : Int) = lo := wrap64_eq (by omega) (by omega)
      have hhi' : wrap64 (hi : Int) = hi := wrap64_eq (by omega) (by omega)
      have h1' : ¬ ((hi : Int) = lo) := by omega
      unfold gnutls_range_split at hs
      simp only [hlo', hhi'] at hs
      rw [if_neg h1', if_pos h2] at hs
      have e3 : (usize s.max_user_send_size : Int) = s.max_user_send_size :=
        usize_eq (by omega) (by omega)
      have e4 : (usize ((lo : Int) - s.max_user_send_size) : Int) = lo - s.max_user_send_size :=
        usize_eq (by omega) (by omega)
      have e5 : (usize ((hi : Int) - s.max_user_send_size) : Int) = hi - s.max_user_send_size :=
        usize_eq (by omega) (by omega)
      have hsm := congrArg (fun t => t.2.1) hs
      have hrm := congrArg (fun t => t.2.2) hs
      simp only [_gnutls_set_range] at hsm hrm
      rw [← hsm, ← hrm]
      simp only
      exact ⟨le_refl _, by omega, by omega, hpad⟩
    · obtain ⟨p, _, hp0, hp1, hsl, hsh, hrl, hrh⟩ :=
        split_pad_case s orig sm rm small rem (by omega) hhi (by omega) hmf2 hmp htag hs
      exact ⟨by omega, by omega, by omega, hpad⟩

/-- Witness for C23: the three cases of the split for `demoSession`. -/
theorem range_split_well_formed_witness :
    ((16384 : Nat) ≤ 16384 ∧ ((16384 : Nat) : Int) ≤ demoSession.max_user_send_size ∧
      (3616 : Nat) ≤ 3616) ∧
    ((16384 : Nat) ≤ 16384 ∧ ((16384 : Nat) : Int) ≤ demoSession.max_user_send_size ∧
      (3616 : Nat) ≤ 13616) ∧
    ((100 : Nat) ≤ 347 ∧ ((347 : Nat) : Int) ≤ demoSession.max_user_send_size ∧
      (0 : Nat) ≤ 653) :=
  ⟨⟨(range_split_well_formed demoSession ⟨20000, 20000⟩ ⟨0, 0⟩ ⟨0, 0⟩ ⟨16384, 16384⟩
        ⟨3616, 3616⟩ (by decide) (by decide) (by decide) (by decide) (by decide) (by decide)
        (by decide) (by decide)).1,
      (range_split_well_formed demoSession ⟨20000, 20000⟩ ⟨0, 0⟩ ⟨0, 0⟩ ⟨16384, 16384⟩
        ⟨3616, 3616⟩ (by decide) (by decide) (by decide) (by decide) (by decide) (by decide)
        (by decide) (by decide)).2.1,
      (range_split_well_formed demoSession ⟨20000, 20000⟩ ⟨0, 0⟩ ⟨0, 0⟩ ⟨16384, 16384⟩
        ⟨3616, 3616⟩ (by decide) (by decide) (by decide) (by decide) (by decide) (by decide)
        (by decide) (by decide)).2.2.1⟩,
    ⟨(range_split_well_formed demoSession ⟨20000, 30000⟩ ⟨0, 0⟩ ⟨0, 0⟩ ⟨16384, 16384⟩
        ⟨3616, 13616⟩ (by decide) (by decide) (by decide) (by decide) (by decide) (by decide)
        (by decide) (by decide)).1,
      (range_split_well_formed demoSession ⟨20000, 30000⟩ ⟨0, 0⟩ ⟨0, 0⟩ ⟨16384, 16384⟩
        ⟨3616, 13616⟩ (by decide) (by decide) (by decide) (by decide) (by decide) (by decide)
        (by decide) (by decide)).2.1,
      (range_split_well_formed demoSession ⟨20000, 30000⟩ ⟨0, 0⟩ ⟨0, 0⟩ ⟨16384, 16384⟩
        ⟨3616, 13616⟩ (by decide) (by decide) (by decide) (by decide) (by decide) (by decide)
        (by decide) (by decide)).2.2.1⟩,
    ⟨(range_split_well_formed demoSession ⟨100, 1000⟩ ⟨0, 0⟩ ⟨0, 0⟩ ⟨100, 347⟩
        ⟨0, 653⟩ (by decide) (by decide) (by decide) (by decide) (by decide) (by decide)
        (by decide) (by decide)).1,
      (range_split_well_formed demoSession ⟨100, 1000⟩ ⟨0, 0⟩ ⟨0, 0⟩ ⟨100, 347⟩
        ⟨0, 653⟩ (by decide) (by decide) (by decide) (by decide) (by decide) (by decide)
        (by decide) (by decide)).2.1,
      (range_split_well_formed demoSession ⟨100, 1000⟩ ⟨0, 0⟩ ⟨0, 0⟩ ⟨100, 347⟩
        ⟨0, 653⟩ (by decide) (by decide) (by decide) (by decide) (by decide) (by decide)
        (by decide) (by decide)).2.2.1⟩⟩

/-- C24, evaluated at the first iteration of the loop for
`data_size = 2^31 + 16384` and the range `[data_size, data_size]`, with a
maximum fragment of 16384 and a transmitter that sends every fragment in full:
the split stores `next_range = [2^64 - 2^31, 2^64 - 2^31]`, so `next.low`
exceeds the remaining size `d`, the subtraction `d - next.low` of
`_gnutls_range_fragment` wraps to `2^32 + 16384`, and after the iteration the
remaining size `2^31` is below `next.low`. -/
theorem send_range_invariant_breaks (data : List Nat) :
    send_range_body demoRangeEnv demoSession data () 0 2147500032
        ⟨2147500032, 2147500032⟩ ⟨0, 0⟩ =
      IterResult.next () 16384 2147483648
        ⟨18446744071562067968, 18446744071562067968⟩
        ⟨18446744071562067968, 18446744071562067968⟩ ⟨0, 16384, 16384⟩ ∧
    (2147500032 : Int) - ((18446744071562067968 : Nat) : Int) < 0 ∧
    usize ((2147500032 : Int) - ((18446744071562067968 : Nat) : Int)) = 4294983680 ∧
    _gnutls_range_fragment 2147500032 ⟨16384, 16384⟩
      ⟨18446744071562067968, 18446744071562067968⟩ = 16384 ∧
    ¬ ((18446744071562067968 : Nat) ≤ 2147500032 - 16384) :=
  ⟨rfl, by decide, by decide, by decide, by decide⟩


/-! ## `gnutls_P_hash` -/

/-- With a positive block size and enough passes, the `do` loop entered at
`j * b` leaves `i = m * b` for the least `m > j` with `total <= m * b`. -/
theorem P_hash_count_spec (b total : Nat) :
    ∀ (fuel j : Nat), 0 < fuel → total ≤ (j + fuel) * b →
      ∃ m, P_hash_count b total fuel (j * b) = some (m * b) ∧ j < m ∧ total ≤ m * b ∧
        (m = j + 1 ∨ (m - 1) * b < total) := by
  intro fuel
  induction fuel with
  | zero => intro j h; exact absurd h (by decide)
  | succ fuel ih =>
    intro j _ htot
    rw [P_hash_count]
    by_cases hlt : j * b + b < total
    · rw [if_pos hlt]
      have e : j * b + b = (j + 1) * b := by ring
      rw [e]
      have hf : 0 < fuel := by
        rcases Nat.eq_zero_or_pos fuel with h0 | h0
        · subst h0
          rw [e] at hlt
          simp only [Nat.zero_add] at htot
          omega
        · exact h0
      obtain ⟨m, hm, hjm, htm, hmin⟩ := ih (j + 1) hf (by
        have : j + 1 + fuel = j + (fuel + 1) := by omega
        rw [this]; exact htot)
      refine ⟨m, hm, by omega, htm, ?_⟩
      right
      rcases hmin with h | h
      · subst h
        simp only [Nat.add_sub_cancel]
        rw [← e]; exact hlt
      · exact h
    · rw [if_neg hlt]
      have e : j * b + b = (j + 1) * b := by ring
      rw [e]
      refine ⟨j + 1, rfl, by omega, ?_, Or.inl rfl⟩
      rw [← e]; omega

/-- The blocks of the specification have the digest length. -/
theorem P_hash_blocks_length (env : MacEnv) (a : MACAlgorithm) (secret seed : List Nat)
    (b : Nat) (hlen : ∀ key text, (env.hmac a key text).length = b) :
    ∀ k, (P_hash_blocks env a secret seed k).length = k * b := by
  intro k
  induction k with
  | zero => simp [P_hash_blocks]
  | succ k ih =>
    rw [P_hash_blocks, List.length_append, ih, P_hash_block, hlen]
    ring

/-- The concatenation of more blocks extends the concatenation of fewer. -/
theorem P_hash_blocks_extend (env : MacEnv) (a : MACAlgorithm) (secret seed : List Nat)
    (m : Nat) : ∀ d, ∃ rest, P_hash_blocks env a secret seed (m + d) =
      P_hash_blocks env a secret seed m ++ rest := by
  intro d
  induction d with
  | zero => exact ⟨[], by simp⟩
  | succ d ih =>
    obtain ⟨rest, hr⟩ := ih
    refine ⟨rest ++ P_hash_block env a secret seed (m + d), ?_⟩
    rw [← Nat.add_assoc, P_hash_blocks, hr, List.append_assoc]

/-- The invariant of the `for` loop of `gnutls_P_hash`: before iteration `i`
the buffer `ret` holds the first `total` bytes of `block(0) || ... || block(i-1)`
followed by zeros, and `A` is `A(i)`. -/
theorem P_hash_loop_spec (env : MacEnv) (a : MACAlgorithm) (secret seed : List Nat)
    (b total : Nat) (hb : 0 < b) (hlen : ∀ key text, (env.hmac a key text).length = b) :
    ∀ (n i A_size : Nat), (n = 0 ∨ (i + n - 1) * b ≤ total) →
      (P_hash_A env a secret seed i).length ≤ A_size →
      P_hash_loop env a secret seed b total n i (P_hash_A env a secret seed i) A_size
          ((P_hash_blocks env a secret seed i).take total ++
            List.replicate (total - i * b) 0) =
        (P_hash_blocks env a secret seed (i + n)).take total ++
          List.replicate (total - (i + n) * b) 0 := by
  intro n
  induction n with
  | zero => intro i A_size _ _; rfl
  | succ n ih =>
    intro i A_size hbound hA
    have hib : i * b ≤ total := by
      rcases hbound with h | h
      · exact absurd h (by omega)
      · have : i * b ≤ (i + (n + 1) - 1) * b := Nat.mul_le_mul_right b (by omega)
        omega
    have hbl := P_hash_blocks_length env a secret seed b hlen
    rw [P_hash_loop]
    simp only [_gnutls_cal_PRF_A]
    rw [List.take_of_length_le hA]
    have hA1 : env.hmac a secret (P_hash_A env a secret seed i) =
        P_hash_A env a secret seed (i + 1) := rfl
    rw [hA1]
    have hA2 : (P_hash_A env a secret seed (i + 1)).take b = P_hash_A env a secret seed (i + 1) :=
      List.take_of_length_le (by rw [← hA1, hlen])
    rw [hA2]
    have hfin : env.hmac a secret (P_hash_A env a secret seed (i + 1) ++ seed) =
        P_hash_block env a secret seed i := rfl
    rw [hfin]
    have hstep : (if (if (1 + i) * b < total then (b : Int)
            else (total : Int) - (i : Int) * b) > 0 then
          memmove ((P_hash_blocks env a secret seed i).take total ++
              List.replicate (total - i * b) 0) (i * b) (P_hash_block env a secret seed i)
            (if (1 + i) * b < total then (b : Int)
              else (total : Int) - (i : Int) * b).toNat
        else (P_hash_blocks env a secret seed i).take total ++
              List.replicate (total - i * b) 0) =
        (P_hash_blocks env a secret seed (i + 1)).take total ++
          List.replicate (total - (i + 1) * b) 0 := by
      have hblk : (P_hash_block env a secret seed i).length = b := hlen _ _
      have htk : (P_hash_blocks env a secret seed i).take total =
          P_hash_blocks env a secret seed i :=
        List.take_of_length_le (by rw [hbl]; exact hib)
      have hnew : (P_hash_blocks env a secret seed (i + 1)).take total =
          P_hash_blocks env a secret seed i ++
            (P_hash_block env a secret seed i).take (total - i * b) := by
        rw [P_hash_blocks, List.take_append_eq_append_take, htk, hbl]
      rw [hnew, htk]
      have e1 : (1 + i) * b = i * b + b := by ring
      have e2 : (i + 1) * b = i * b + b := by ring
      have hcast : ((i * b : Nat) : Int) = (i : Int) * b := by push_cast; ring
      by_cases hlt : (1 + i) * b < total
      · rw [if_pos hlt, if_pos (by omega)]
        simp only [Int.toNat_ofNat, memmove]
        have h1 : List.take (i * b) (P_hash_blocks env a secret seed i ++
            List.replicate (total - i * b) 0) = P_hash_blocks env a secret seed i :=
          List.take_left' (hbl i)
        have h2 : List.drop (i * b + b) (P_hash_blocks env a secret seed i ++
            List.replicate (total - i * b) 0) = List.replicate (total - (i + 1) * b) 0 := by
          rw [← hbl i, List.drop_append, List.drop_replicate, hbl i, e2, Nat.sub_sub]
        rw [h1, h2]
        have h3 : (P_hash_block env a secret seed i).take b = P_hash_block env a secret seed i :=
          List.take_of_length_le (by omega)
        have h4 : (P_hash_block env a secret seed i).take (total - i * b) =
            P_hash_block env a secret seed i := List.take_of_length_le (by omega)
        rw [h3, h4]
      · rw [if_neg hlt]
        have hz : total - (i + 1) * b = 0 := by omega
        by_cases hpos : (total : Int) - (i : Int) * b > 0
        · rw [if_pos hpos]
          have htn : ((total : Int) - (i : Int) * b).toNat = total - i * b := by omega
          simp only [htn, memmove]
          have h1 : List.take (i * b) (P_hash_blocks env a secret seed i ++
              List.replicate (total - i * b) 0) = P_hash_blocks env a secret seed i :=
            List.take_left' (hbl i)
          have h2 : List.drop (i * b + (total - i * b)) (P_hash_blocks env a secret seed i ++
              List.replicate (total - i * b) 0) = [] := by
            apply List.drop_of_length_le
            rw [List.length_append, List.length_replicate, hbl i]
          rw [h1, h2, hz]
          simp
        · rw [if_neg hpos]
          have htz : total - i * b = 0 := by omega
          rw [htz, hz]
          simp
    rw [hstep]
    have := ih (i + 1) b (by right; have : i + 1 + n - 1 = i + (n + 1) - 1 := by omega
                             rw [this]
                             rcases hbound with h | h
                             · exact absurd h (by omega)
                             · exact h) (by rw [← hA1, hlen])
    rw [this]
    have e : i + 1 + n = i + (n + 1) := by omega
    rw [e]

/-- With a positive digest length and more passes than output bytes,
`gnutls_P_hash` returns the first `total` bytes of the concatenated blocks. -/
theorem P_hash_spec (env : MacEnv) (fuel : Nat) (a : MACAlgorithm) (secret seed : List Nat)
    (total : Nat) (hb : 0 < env.hmac_get_algo_len a)
    (hlen : ∀ key text, (env.hmac a key text).length = env.hmac_get_algo_len a)
    (hfuel : total < fuel) :
    ∃ out, gnutls_P_hash env fuel a secret seed total = some out ∧ out.length = total ∧
      ∀ K, total ≤ K * env.hmac_get_algo_len a →
        out = (P_hash_blocks env a secret seed K).take total := by
  generalize hbd : env.hmac_get_algo_len a = b at hb hlen
  have hfb : total ≤ (0 + fuel) * b := by
    have : fuel ≤ fuel * b := Nat.le_mul_of_pos_right fuel hb
    rw [Nat.zero_add]
    omega
  obtain ⟨m, hm, hm0, htm, hmin⟩ := P_hash_count_spec b total fuel 0 (by omega) hfb
  rw [Nat.zero_mul] at hm
  have hbl := P_hash_blocks_length env a secret seed b hlen
  have hloop := P_hash_loop_spec env a secret seed b total hb hlen m 0 seed.length
    (by right
        rcases hmin with h | h
        · subst h; simp
        · simp only [Nat.zero_add]; omega)
    (le_refl _)
  simp only [P_hash_blocks, List.take_nil, List.nil_append, Nat.zero_mul, Nat.sub_zero,
    Nat.zero_add, P_hash_A] at hloop
  have hz : total - m * b = 0 := by omega
  rw [hz] at hloop
  simp only [List.replicate_zero, List.append_nil] at hloop
  refine ⟨(P_hash_blocks env a secret seed m).take total, ?_, ?_, ?_⟩
  · unfold gnutls_P_hash
    simp only [hbd, hm, Nat.mul_div_cancel _ hb]
    rw [hloop]
  · rw [List.length_take, hbl]
    omega
  · intro K hK
    have hmb : (P_hash_blocks env a secret seed m).length = m * b := hbl m
    rcases Nat.le_total m K with hle | hle
    · obtain ⟨rest, hr⟩ := P_hash_blocks_extend env a secret seed m (K - m)
      have e : m + (K - m) = K := by omega
      rw [e] at hr
      rw [hr, List.take_append_of_le_length (by omega)]
    · obtain ⟨rest, hr⟩ := P_hash_blocks_extend env a secret seed K (m - K)
      have e : K + (m - K) = m := by omega
      rw [e] at hr
      rw [hr, List.take_append_of_le_length (by rw [hbl]; exact hK)]

/-- Byte `j` of the concatenated blocks is byte `j mod b` of block `j / b`. -/
theorem P_hash_blocks_getD (env : MacEnv) (a : MACAlgorithm) (secret seed : List Nat)
    (b : Nat) (hlen : ∀ key text, (env.hmac a key text).length = b) :
    ∀ K j, j < K * b → (P_hash_blocks env a secret seed K).getD j 0 =
      (P_hash_block env a secret seed (j / b)).getD (j % b) 0 := by
  intro K
  induction K with
  | zero => intro j h; simp at h
  | succ K ih =>
    intro j hj
    have hbl := P_hash_blocks_length env a secret seed b hlen K
    rw [P_hash_blocks]
    by_cases hlt : j < K * b
    · rw [List.getD_append _ _ _ _ (by rw [hbl]; exact hlt)]
      exact ih j hlt
    · have hge : K * b ≤ j := by omega
      rw [List.getD_append_right _ _ _ _ (by rw [hbl]; exact hge), hbl]
      have hdiv : j / b = K := Nat.div_eq_of_lt_le hge hj
      have hmod : j % b = j - K * b := by
        have := Nat.div_add_mod j b
        rw [hdiv, Nat.mul_comm] at this
        omega
      rw [hdiv, hmod]

/-- Reading a buffer after one byte of it has been overwritten. -/
theorem getD_set_eq (l : List Nat) (i j v : Nat) :
    (l.set i v).getD j 0 = if i = j ∧ i < l.length then v else l.getD j 0 := by
  rw [List.getD_eq_getElem?_getD, List.getD_eq_getElem?_getD, List.getElem?_set]
  by_cases hij : i = j
  · subst hij
    by_cases hl : i < l.length
    · simp [hl]
    · have hn : l[i]? = none := List.getElem?_eq_none (by omega)
      simp [hl, hn]
  · simp [hij]

/-- The XOR loop of `gnutls_PRF`: the buffer keeps its length, and the bytes
`i .. i+n-1` are XORed with those of `o2`. -/
theorem PRF_xor_spec (o2 : List Nat) :
    ∀ (n i : Nat) (o1 : List Nat), i + n ≤ o1.length →
      (PRF_xor o2 n i o1).length = o1.length ∧
      ∀ j, (PRF_xor o2 n i o1).getD j 0 =
        if i ≤ j ∧ j < i + n then o1.getD j 0 ^^^ o2.getD j 0 else o1.getD j 0 := by
  intro n
  induction n with
  | zero =>
    intro i o1 _
    refine ⟨rfl, ?_⟩
    intro j
    have : ¬ (i ≤ j ∧ j < i + 0) := by omega
    rw [if_neg this]
    rfl
  | succ n ih =>
    intro i o1 hle
    rw [PRF_xor]
    have hl : (o1.set i (o1.getD i 0 ^^^ o2.getD i 0)).length = o1.length :=
      List.length_set _ _ _
    obtain ⟨h1, h2⟩ := ih (i + 1) (o1.set i (o1.getD i 0 ^^^ o2.getD i 0)) (by omega)
    refine ⟨by rw [h1, hl], ?_⟩
    intro j
    rw [h2 j, getD_set_eq]
    by_cases hij : i = j
    · subst hij
      have c1 : ¬ (i + 1 ≤ i ∧ i < i + 1 + n) := by omega
      have c2 : i = i ∧ i < o1.length := ⟨rfl, by omega⟩
      have c3 : i ≤ i ∧ i < i + (n + 1) := by omega
      rw [if_neg c1, if_pos c2, if_pos c3]
    · have c2 : ¬ (i = j ∧ i < o1.length) := fun h => hij h.1
      rw [if_neg c2]
      by_cases hr : i + 1 ≤ j ∧ j < i + 1 + n
      · have c3 : i ≤ j ∧ j < i + (n + 1) := by omega
        rw [if_pos hr, if_pos c3]
      · have c3 : ¬ (i ≤ j ∧ j < i + (n + 1)) := by omega
        rw [if_neg hr, if_neg c3]

/-- With positive digest lengths and more passes than output bytes, `gnutls_PRF`
returns `total` bytes: the XOR of the two `gnutls_P_hash` outputs for the two
halves of the secret. -/
theorem PRF_spec (env : MacEnv) (fuel : Nat) (secret label seed : List Nat) (total : Nat)
    (hb1 : 0 < env.hmac_get_algo_len MACAlgorithm.GNUTLS_MAC_MD5)
    (hb2 : 0 < env.hmac_get_algo_len MACAlgorithm.GNUTLS_MAC_SHA)
    (hl1 : ∀ key text, (env.hmac MACAlgorithm.GNUTLS_MAC_MD5 key text).length =
      env.hmac_get_algo_len MACAlgorithm.GNUTLS_MAC_MD5)
    (hl2 : ∀ key text, (env.hmac MACAlgorithm.GNUTLS_MAC_SHA key text).length =
      env.hmac_get_algo_len MACAlgorithm.GNUTLS_MAC_SHA)
    (hfuel : total < fuel) :
    ∃ out p1 p2, gnutls_PRF env fuel secret label seed total = some out ∧
      gnutls_P_hash env fuel MACAlgorithm.GNUTLS_MAC_MD5
        (secret.take ((secret.length + 1) / 2)) (label ++ seed) total = some p1 ∧
      gnutls_P_hash env fuel MACAlgorithm.GNUTLS_MAC_SHA
        (secret.drop (secret.length - (secret.length + 1) / 2)) (label ++ seed) total =
          some p2 ∧
      out.length = total ∧ p1.length = total ∧ p2.length = total ∧
      ∀ i, i < total → out.getD i 0 = p1.getD i 0 ^^^ p2.getD i 0 := by
  have hls : (if secret.length % 2 ≠ 0 then secret.length / 2 + 1 else secret.length / 2) =
      (secret.length + 1) / 2 := by
    split <;> omega
  have hs2 : (secret.drop (secret.length / 2)).take ((secret.length + 1) / 2) =
      secret.drop (secret.length - (secret.length + 1) / 2) := by
    have e : secret.length - (secret.length + 1) / 2 = secret.length / 2 := by omega
    rw [e]
    exact List.take_of_length_le (by rw [List.length_drop]; omega)
  obtain ⟨p1, hp1, hp1l, _⟩ := P_hash_spec env fuel MACAlgorithm.GNUTLS_MAC_MD5
    (secret.take ((secret.length + 1) / 2)) (label ++ seed) total hb1 hl1 hfuel
  obtain ⟨p2, hp2, hp2l, _⟩ := P_hash_spec env fuel MACAlgorithm.GNUTLS_MAC_SHA
    (secret.drop (secret.length - (secret.length + 1) / 2)) (label ++ seed) total hb2 hl2 hfuel
  obtain ⟨hx1, hx2⟩ := PRF_xor_spec p2 total 0 p1 (by omega)
  refine ⟨PRF_xor p2 total 0 p1, p1, p2, ?_, hp1, hp2, by rw [hx1, hp1l], hp1l, hp2l, ?_⟩
  · unfold gnutls_PRF
    simp only [hls, hs2, hp1, hp2]
  · intro i hi
    rw [hx2 i, if_pos (by omega)]

/-- Consecutive slices of a buffer. -/
theorem slice_append (l : List Nat) (m n : Nat) :
    (l.drop m).take n ++ l.drop (m + n) = l.drop m := by
  have h := List.take_append_drop n (l.drop m)
  rw [List.drop_drop] at h
  exact h

/-- For TLS 1.0, with positive digest lengths and enough passes,
`_gnutls_set_keys` obtains a key block of `2h + 2k + 2v` bytes from `gnutls_PRF`
and stores its six consecutive slices. -/
theorem set_keys_spec (env : MacEnv) (fuel : Nat) (sp : security_parameters)
    (hver : env.version_ssl3 sp.version ≠ 0)
    (hsr : sp.server_random.length = 32) (hcr : sp.client_random.length = 32)
    (hb1 : 0 < env.hmac_get_algo_len MACAlgorithm.GNUTLS_MAC_MD5)
    (hb2 : 0 < env.hmac_get_algo_len MACAlgorithm.GNUTLS_MAC_SHA)
    (hl1 : ∀ key text, (env.hmac MACAlgorithm.GNUTLS_MAC_MD5 key text).length =
      env.hmac_get_algo_len MACAlgorithm.GNUTLS_MAC_MD5)
    (hl2 : ∀ key text, (env.hmac MACAlgorithm.GNUTLS_MAC_SHA key text).length =
      env.hmac_get_algo_len MACAlgorithm.GNUTLS_MAC_SHA)
    (hfuel : 2 * sp.hash_size + 2 * sp.key_material_length + 2 * sp.IV_size < fuel) :
    ∃ key_block cs,
      gnutls_PRF env fuel (sp.master_secret.take 48) keyexp
        (sp.server_random ++ sp.client_random)
        (2 * sp.hash_size + 2 * sp.key_material_length + 2 * sp.IV_size) = some key_block ∧
      set_keys_block env fuel sp = some key_block ∧
      _gnutls_set_keys env fuel sp = some cs ∧
      key_block.length = 2 * sp.hash_size + 2 * sp.key_material_length + 2 * sp.IV_size ∧
      cs.client_write_mac_secret = (key_block.drop 0).take sp.hash_size ∧
      cs.server_write_mac_secret = (key_block.drop sp.hash_size).take sp.hash_size ∧
      cs.client_write_key = (key_block.drop (2 * sp.hash_size)).take sp.key_material_length ∧
      cs.server_write_key =
        (key_block.drop (2 * sp.hash_size + sp.key_material_length)).take
          sp.key_material_length ∧
      cs.client_write_IV =
        (key_block.drop (2 * sp.hash_size + 2 * sp.key_material_length)).take sp.IV_size ∧
      cs.server_write_IV =
        (key_block.drop (2 * sp.hash_size + 2 * sp.key_material_length + sp.IV_size)).take
          sp.IV_size ∧
      cs.client_write_mac_secret ++ cs.server_write_mac_secret ++ cs.client_write_key ++
        cs.server_write_key ++ cs.client_write_IV ++ cs.server_write_IV = key_block ∧
      cs.client_write_mac_secret.length = sp.hash_size ∧
      cs.server_write_mac_secret.length = sp.hash_size ∧
      cs.client_write_key.length = sp.key_material_length ∧
      cs.server_write_key.length = sp.key_material_length ∧
      cs.client_write_IV.length = sp.IV_size ∧
      cs.server_write_IV.length = sp.IV_size := by
  obtain ⟨kb, p1, p2, hkb, _, _, hlen, _, _, _⟩ := PRF_spec env fuel (sp.master_secret.take 48)
    keyexp (sp.server_random ++ sp.client_random)
    (2 * sp.hash_size + 2 * sp.key_material_length + 2 * sp.IV_size) hb1 hb2 hl1 hl2 hfuel
  have hrand : (sp.server_random.take 32 ++ sp.client_random.take 32).take 64 =
      sp.server_random ++ sp.client_random := by
    rw [List.take_of_length_le (le_of_eq hsr), List.take_of_length_le (le_of_eq hcr)]
    exact List.take_of_length_le (by rw [List.length_append, hsr, hcr])
  have hblock : set_keys_block env fuel sp = some kb := by
    unfold set_keys_block
    simp only [hrand]
    rw [if_neg hver]
    exact hkb
  have e1 : 2 * sp.key_material_length + 2 * sp.hash_size =
      2 * sp.hash_size + 2 * sp.key_material_length := by omega
  refine ⟨kb,
    { client_write_mac_secret := (kb.drop 0).take sp.hash_size,
      server_write_mac_secret := (kb.drop sp.hash_size).take sp.hash_size,
      client_write_key := (kb.drop (2 * sp.hash_size)).take sp.key_material_length,
      server_write_key :=
        (kb.drop (2 * sp.hash_size + sp.key_material_length)).take sp.key_material_length,
      client_write_IV :=
        (kb.drop (2 * sp.hash_size + 2 * sp.key_material_length)).take sp.IV_size,
      server_write_IV :=
        (kb.drop (2 * sp.hash_size + 2 * sp.key_material_length + sp.IV_size)).take
          sp.IV_size },
    hkb, hblock, ?_, hlen, rfl, rfl, rfl, rfl, rfl, rfl, ?_, ?_⟩
  · unfold _gnutls_set_keys
    simp only [hblock, e1]
  · simp only [List.append_assoc]
    have s6 := List.take_of_length_le (i := sp.IV_size)
      (l := kb.drop (2 * sp.hash_size + 2 * sp.key_material_length + sp.IV_size))
      (by rw [List.length_drop]; omega)
    have s5 := slice_append kb (2 * sp.hash_size + 2 * sp.key_material_length) sp.IV_size
    have s4 := slice_append kb (2 * sp.hash_size + sp.key_material_length)
      sp.key_material_length
    have s3 := slice_append kb (2 * sp.hash_size) sp.key_material_length
    have s2 := slice_append kb sp.hash_size sp.hash_size
    have s1 := slice_append kb 0 sp.hash_size
    have a4 : 2 * sp.hash_size + sp.key_material_length + sp.key_material_length =
        2 * sp.hash_size + 2 * sp.key_material_length := by omega
    have a2 : sp.hash_size + sp.hash_size = 2 * sp.hash_size := by omega
    rw [a4] at s4
    rw [a2] at s2
    rw [Nat.zero_add] at s1
    rw [s6, s5, s4, s3, s2, s1]
    rfl
  · simp only [List.length_take, List.length_drop]
    omega

/-! ## C12 - C15: key derivation -/

/-- C12: for every secret of length `len`, label, seed and `n`, with HMAC digests
of positive length and enough passes for the block count, `gnutls_PRF` returns
exactly `n` bytes, and byte `i < n` is byte `i` of
`P_hash(MD5, S1, label || seed, n)` XOR byte `i` of
`P_hash(SHA1, S2, label || seed, n)`, where `S1` is the first `ceil(len/2)` bytes
of the secret and `S2` its last `ceil(len/2)` bytes; the halves share one byte
exactly when `len` is odd. -/
theorem PRF_xor_of_halves (env : MacEnv) (fuel : Nat) (secret label seed : List Nat) (n : Nat)
    (hb1 : 0 < env.hmac_get_algo_len MACAlgorithm.GNUTLS_MAC_MD5)
    (hb2 : 0 < env.hmac_get_algo_len MACAlgorithm.GNUTLS_MAC_SHA)
    (hl1 : ∀ key text, (env.hmac MACAlgorithm.GNUTLS_MAC_MD5 key text).length =
      env.hmac_get_algo_len MACAlgorithm.GNUTLS_MAC_MD5)
    (hl2 : ∀ key text, (env.hmac MACAlgorithm.GNUTLS_MAC_SHA key text).length =
      env.hmac_get_algo_len MACAlgorithm.GNUTLS_MAC_SHA)
    (hfuel : n < fuel) :
    (∃ out p1 p2, gnutls_PRF env fuel secret label seed n = some out ∧
      gnutls_P_hash env fuel MACAlgorithm.GNUTLS_MAC_MD5
        (secret.take ((secret.length + 1) / 2)) (label ++ seed) n = some p1 ∧
      gnutls_P_hash env fuel MACAlgorithm.GNUTLS_MAC_SHA
        (secret.drop (secret.length - (secret.length + 1) / 2)) (label ++ seed) n = some p2 ∧
      out.length = n ∧
      ∀ i, i < n → out.getD i 0 = p1.getD i 0 ^^^ p2.getD i 0) ∧
    (secret.take ((secret.length + 1) / 2)).length = (secret.length + 1) / 2 ∧
    (secret.drop (secret.length - (secret.length + 1) / 2)).length = (secret.length + 1) / 2 ∧
    (secret.length + 1) / 2 + (secret.length + 1) / 2 = secret.length + secret.length % 2 := by
  obtain ⟨out, p1, p2, h, h1, h2, hl, _, _, hx⟩ :=
    PRF_spec env fuel secret label seed n hb1 hb2 hl1 hl2 hfuel
  refine ⟨⟨out, p1, p2, h, h1, h2, hl, hx⟩, ?_, ?_, ?_⟩
  · rw [List.length_take]; omega
  · rw [List.length_drop]; omega
  · omega

/-- Witness for C12: a secret of 5 bytes (halves `[1, 2, 3]` and `[3, 4, 5]`),
30 bytes of output. -/
theorem PRF_xor_of_halves_witness :
    (∃ out p1 p2, gnutls_PRF demoMac 31 [1, 2, 3, 4, 5] [6] [7] 30 = some out ∧
      gnutls_P_hash demoMac 31 MACAlgorithm.GNUTLS_MAC_MD5
        (([1, 2, 3, 4, 5] : List Nat).take ((([1, 2, 3, 4, 5] : List Nat).length + 1) / 2))
        ([6] ++ [7]) 30 = some p1 ∧
      gnutls_P_hash demoMac 31 MACAlgorithm.GNUTLS_MAC_SHA
        (([1, 2, 3, 4, 5] : List Nat).drop (([1, 2, 3, 4, 5] : List Nat).length -
          (([1, 2, 3, 4, 5] : List Nat).length + 1) / 2)) ([6] ++ [7]) 30 = some p2 ∧
      out.length = 30 ∧
      ∀ i, i < 30 → out.getD i 0 = p1.getD i 0 ^^^ p2.getD i 0) ∧
    ([1, 2, 3, 4, 5] : List Nat).take 3 = [1, 2, 3] ∧
    ([1, 2, 3, 4, 5] : List Nat).drop 2 = [3, 4, 5] :=
  ⟨(PRF_xor_of_halves demoMac 31 [1, 2, 3, 4, 5] [6] [7] 30 (by decide) (by decide)
      (fun _ _ => by simp [demoMac]) (fun _ _ => by simp [demoMac]) (by decide)).1,
    by decide, by decide⟩

/-- C13: for every HMAC algorithm with digest length `b > 0` (every digest has
`b` bytes), secret, seed and `total_bytes`, with more passes than output bytes,
`gnutls_P_hash` returns the first `total_bytes` bytes of
`block(0) || block(1) || ...` with `A(0) = seed`, `A(i+1) = HMAC(secret, A(i))`,
`block(i) = HMAC(secret, A(i+1) || seed)`: the result has `total_bytes` bytes,
it does not depend on how many blocks beyond `total_bytes` are concatenated, and
its byte `j` is byte `j mod b` of block `j / b`, for every `j < total_bytes`. -/
theorem P_hash_first_bytes (env : MacEnv) (fuel : Nat) (a : MACAlgorithm)
    (secret seed : List Nat) (total : Nat) (hb : 0 < env.hmac_get_algo_len a)
    (hlen : ∀ key text, (env.hmac a key text).length = env.hmac_get_algo_len a)
    (hfuel : total < fuel) :
    gnutls_P_hash env fuel a secret seed total =
      some ((P_hash_blocks env a secret seed total).take total) ∧
    ((P_hash_blocks env a secret seed total).take total).length = total ∧
    (∀ K, total ≤ K * env.hmac_get_algo_len a →
      (P_hash_blocks env a secret seed K).take total =
        (P_hash_blocks env a secret seed total).take total) ∧
    (∀ j, j < total → ((P_hash_blocks env a secret seed total).take total).getD j 0 =
      (P_hash_block env a secret seed (j / env.hmac_get_algo_len a)).getD
        (j % env.hmac_get_algo_len a) 0) := by
  obtain ⟨out, ho, hol, hK⟩ := P_hash_spec env fuel a secret seed total hb hlen hfuel
  have htot : total ≤ total * env.hmac_get_algo_len a := Nat.le_mul_of_pos_right total hb
  have e := hK total htot
  refine ⟨by rw [ho, e], by rw [← e]; exact hol, ?_, ?_⟩
  · intro K hle
    rw [← hK K hle, e]
  · intro j hj
    have hg := P_hash_blocks_getD env a secret seed (env.hmac_get_algo_len a) hlen total j
      (by omega)
    rw [← hg, List.getD_eq_getElem?_getD, List.getD_eq_getElem?_getD, List.getElem?_take,
      if_pos hj]

/-- Witness for C13: 40 bytes (two full blocks) and 41 bytes (two blocks and one
byte of a third) of SHA-1 output. -/
theorem P_hash_first_bytes_witness :
    gnutls_P_hash demoMac 41 MACAlgorithm.GNUTLS_MAC_SHA [1, 2, 3] [4, 5] 40 =
      some ((P_hash_blocks demoMac MACAlgorithm.GNUTLS_MAC_SHA [1, 2, 3] [4, 5] 40).take 40) ∧
    gnutls_P_hash demoMac 42 MACAlgorithm.GNUTLS_MAC_SHA [1, 2, 3] [4, 5] 41 =
      some ((P_hash_blocks demoMac MACAlgorithm.GNUTLS_MAC_SHA [1, 2, 3] [4, 5] 41).take 41) ∧
    ((P_hash_blocks demoMac MACAlgorithm.GNUTLS_MAC_SHA [1, 2, 3] [4, 5] 41).take 41).length =
      41 :=
  ⟨(P_hash_first_bytes demoMac 41 MACAlgorithm.GNUTLS_MAC_SHA [1, 2, 3] [4, 5] 40 (by decide)
      (fun _ _ => by simp [demoMac]) (by decide)).1,
    (P_hash_first_bytes demoMac 42 MACAlgorithm.GNUTLS_MAC_SHA [1, 2, 3] [4, 5] 41 (by decide)
      (fun _ _ => by simp [demoMac]) (by decide)).1,
    (P_hash_first_bytes demoMac 42 MACAlgorithm.GNUTLS_MAC_SHA [1, 2, 3] [4, 5] 41 (by decide)
      (fun _ _ => by simp [demoMac]) (by decide)).2.1⟩

/-- C14: for every TLS 1.0 connection with hash size `h`, key length `k` and IV
size `v` (32-byte randoms, HMAC digests of positive length, enough passes),
`_gnutls_set_keys` derives
`key_block = PRF(master_secret[0..48), "key expansion", server_random || client_random, 2h + 2k + 2v)`
and stores client MAC secret `= key_block[0, h)`, server MAC secret `= [h, 2h)`,
client key `= [2h, 2h+k)`, server key `= [2h+k, 2h+2k)`, client IV
`= [2h+2k, 2h+2k+v)`, server IV `= [2h+2k+v, 2h+2k+2v)`: six consecutive slices
whose concatenation is the whole block. -/
theorem set_keys_slices (env : MacEnv) (fuel : Nat) (sp : security_parameters)
    (hver : env.version_ssl3 sp.version ≠ 0)
    (hsr : sp.server_random.length = 32) (hcr : sp.client_random.length = 32)
    (hb1 : 0 < env.hmac_get_algo_len MACAlgorithm.GNUTLS_MAC_MD5)
    (hb2 : 0 < env.hmac_get_algo_len MACAlgorithm.GNUTLS_MAC_SHA)
    (hl1 : ∀ key text, (env.hmac MACAlgorithm.GNUTLS_MAC_MD5 key text).length =
      env.hmac_get_algo_len MACAlgorithm.GNUTLS_MAC_MD5)
    (hl2 : ∀ key text, (env.hmac MACAlgorithm.GNUTLS_MAC_SHA key text).length =
      env.hmac_get_algo_len MACAlgorithm.GNUTLS_MAC_SHA)
    (hfuel : 2 * sp.hash_size + 2 * sp.key_material_length + 2 * sp.IV_size < fuel) :
    ∃ key_block cs,
      gnutls_PRF env fuel (sp.master_secret.take 48) keyexp
        (sp.server_random ++ sp.client_random)
        (2 * sp.hash_size + 2 * sp.key_material_length + 2 * sp.IV_size) = some key_block ∧
      _gnutls_set_keys env fuel sp = some cs ∧
      key_block.length = 2 * sp.hash_size + 2 * sp.key_material_length + 2 * sp.IV_size ∧
      cs.client_write_mac_secret = (key_block.drop 0).take sp.hash_size ∧
      cs.server_write_mac_secret = (key_block.drop sp.hash_size).take sp.hash_size ∧
      cs.client_write_key = (key_block.drop (2 * sp.hash_size)).take sp.key_material_length ∧
      cs.server_write_key =
        (key_block.drop (2 * sp.hash_size + sp.key_material_length)).take
          sp.key_material_length ∧
      cs.client_write_IV =
        (key_block.drop (2 * sp.hash_size + 2 * sp.key_material_length)).take sp.IV_size ∧
      cs.server_write_IV =
        (key_block.drop (2 * sp.hash_size + 2 * sp.key_material_length + sp.IV_size)).take
          sp.IV_size ∧
      cs.client_write_mac_secret ++ cs.server_write_mac_secret ++ cs.client_write_key ++
        cs.server_write_key ++ cs.client_write_IV ++ cs.server_write_IV = key_block ∧
      cs.client_write_mac_secret.length = sp.hash_size ∧
      cs.server_write_mac_secret.length = sp.hash_size ∧
      cs.client_write_key.length = sp.key_material_length ∧
      cs.server_write_key.length = sp.key_material_length ∧
      cs.client_write_IV.length = sp.IV_size ∧
      cs.server_write_IV.length = sp.IV_size := by
  obtain ⟨kb, cs, h1, _, h3, h4⟩ :=
    set_keys_spec env fuel sp hver hsr hcr hb1 hb2 hl1 hl2 hfuel
  exact ⟨kb, cs, h1, h3, h4⟩

/-- Witness for C14: hash size 2, key length 3, IV size 1, so a key block of 12
bytes. -/
theorem set_keys_slices_witness :
    ∃ key_block cs,
      gnutls_PRF demoMac 13 ((List.replicate 48 1).take 48) keyexp
        (List.replicate 32 2 ++ List.replicate 32 3) (2 * 2 + 2 * 3 + 2 * 1) = some key_block ∧
      _gnutls_set_keys demoMac 13
        { hash_size := 2, IV_size := 1, key_material_length := 3,
          server_random := List.replicate 32 2, client_random := List.replicate 32 3,
          master_secret := List.replicate 48 1, version := ⟨0, 3, 1⟩ } = some cs ∧
      key_block.length = 2 * 2 + 2 * 3 + 2 * 1 ∧
      cs.client_write_mac_secret ++ cs.server_write_mac_secret ++ cs.client_write_key ++
        cs.server_write_key ++ cs.client_write_IV ++ cs.server_write_IV = key_block := by
  obtain ⟨kb, cs, h1, h2, h3, _, _, _, _, _, _, h4, _⟩ := set_keys_slices demoMac 13
    { hash_size := 2, IV_size := 1, key_material_length := 3,
      server_random := List.replicate 32 2, client_random := List.replicate 32 3,
      master_secret := List.replicate 48 1, version := ⟨0, 3, 1⟩ }
    (by decide) (by decide) (by decide) (by decide) (by decide)
    (fun _ _ => by simp [demoMac]) (fun _ _ => by simp [demoMac]) (by decide)
  exact ⟨kb, cs, h1, h2, h3, h4⟩

/-- C15 as stated fails: in the concrete scenario (hash length 20, key length
16, IV length 16, zero master secret and randoms, TLS 1.0) the size that
`_gnutls_set_keys` requests is `2 * 20 + 2 * 16 + 2 * 16 = 104`, and with the
stand-in HMAC the key block it obtains has 104 bytes, not 144. -/
theorem set_keys_block_not_144 :
    2 * zeroParams.hash_size + 2 * zeroParams.key_material_length + 2 * zeroParams.IV_size =
      104 ∧
    ∃ key_block, set_keys_block demoMac 105 zeroParams = some key_block ∧
      key_block.length = 104 ∧ key_block.length ≠ 144 := by
  obtain ⟨kb, cs, _, h2, _, h4, _⟩ :=
    set_keys_spec demoMac 105 zeroParams (by decide) (by decide) (by decide) (by decide)
      (by decide) (fun _ _ => by simp [demoMac]) (fun _ _ => by simp [demoMac]) (by decide)
  have e3 : 2 * zeroParams.hash_size + 2 * zeroParams.key_material_length +
      2 * zeroParams.IV_size = 104 := by decide
  rw [e3] at h4
  exact ⟨e3, kb, h2, h4, by rw [h4]; decide⟩

/-- C15, amended: in the concrete scenario (hash length 20, key length 16, IV
length 16, a master secret of 48 zero bytes, both randoms 32 zero bytes, label
"key expansion", TLS 1.0), the key block that `_gnutls_set_keys` requests from
`gnutls_PRF` and splits into the six slices is exactly 104 bytes long; the
slices have 20, 20, 16, 16, 16 and 16 bytes. -/
theorem set_keys_block_104 (env : MacEnv) (fuel : Nat)
    (hver : env.version_ssl3 zeroParams.version ≠ 0)
    (hb1 : 0 < env.hmac_get_algo_len MACAlgorithm.GNUTLS_MAC_MD5)
    (hb2 : 0 < env.hmac_get_algo_len MACAlgorithm.GNUTLS_MAC_SHA)
    (hl1 : ∀ key text, (env.hmac MACAlgorithm.GNUTLS_MAC_MD5 key text).length =
      env.hmac_get_algo_len MACAlgorithm.GNUTLS_MAC_MD5)
    (hl2 : ∀ key text, (env.hmac MACAlgorithm.GNUTLS_MAC_SHA key text).length =
      env.hmac_get_algo_len MACAlgorithm.GNUTLS_MAC_SHA)
    (hfuel : 104 < fuel) :
    ∃ key_block cs,
      set_keys_block env fuel zeroParams = some key_block ∧
      gnutls_PRF env fuel (List.replicate 48 0) keyexp (List.replicate 64 0) 104 =
        some key_block ∧
      key_block.length = 104 ∧
      _gnutls_set_keys env fuel zeroParams = some cs ∧
      cs.client_write_mac_secret.length = 20 ∧ cs.server_write_mac_secret.length = 20 ∧
      cs.client_write_key.length = 16 ∧ cs.server_write_key.length = 16 ∧
      cs.client_write_IV.length = 16 ∧ cs.server_write_IV.length = 16 ∧
      cs.client_write_mac_secret ++ cs.server_write_mac_secret ++ cs.client_write_key ++
        cs.server_write_key ++ cs.client_write_IV ++ cs.server_write_IV = key_block := by
  have e3 : 2 * zeroParams.hash_size + 2 * zeroParams.key_material_length +
      2 * zeroParams.IV_size = 104 := by decide
  obtain ⟨kb, cs, h1, h2, h3, h4, _, _, _, _, _, _, h5, l1, l2, l3, l4, l5, l6⟩ :=
    set_keys_spec env fuel zeroParams hver (by decide) (by decide) hb1 hb2 hl1 hl2
      (by rw [e3]; exact hfuel)
  have e1 : zeroParams.master_secret.take 48 = List.replicate 48 0 := by decide
  have e2 : zeroParams.server_random ++ zeroParams.client_random = List.replicate 64 0 := by
    decide
  have e4 : zeroParams.hash_size = 20 := rfl
  have e5 : zeroParams.key_material_length = 16 := rfl
  have e6 : zeroParams.IV_size = 16 := rfl
  rw [e1, e2, e3] at h1
  rw [e3] at h4
  rw [e4] at l1 l2
  rw [e5] at l3 l4
  rw [e6] at l5 l6
  exact ⟨kb, cs, h2, h1, h4, h3, l1, l2, l3, l4, l5, l6, h5⟩

/-- Witness for C15: the scenario with the stand-in HMAC. -/
theorem set_keys_block_104_witness :
    ∃ key_block cs,
      set_keys_block demoMac 105 zeroParams = some key_block ∧
      gnutls_PRF demoMac 105 (List.replicate 48 0) keyexp (List.replicate 64 0) 104 =
        some key_block ∧
      key_block.length = 104 ∧
      _gnutls_set_keys demoMac 105 zeroParams = some cs ∧
      cs.client_write_mac_secret.length = 20 ∧ cs.server_write_mac_secret.length = 20 ∧
      cs.client_write_key.length = 16 ∧ cs.server_write_key.length = 16 ∧
      cs.client_write_IV.length = 16 ∧ cs.server_write_IV.length = 16 ∧
      cs.client_write_mac_secret ++ cs.server_write_mac_secret ++ cs.client_write_key ++
        cs.server_write_key ++ cs.client_write_IV ++ cs.server_write_IV = key_block :=
  set_keys_block_104 demoMac 105 (by decide) (by decide) (by decide)
    (fun _ _ => by simp [demoMac]) (fun _ _ => by simp [demoMac]) (by decide)

end GnuTLS
